import Mathlib

/-!
# The socket loop of h2o (`src/socket_loop.c`): a shallow embedding

The C file implements the generic run step of the reactor
(`run_socket`, `h2o_socket_loop_run`) and its `select`-based backend
(`update_fdset`, `proceed`, `on_create`, `on_close`,
`h2o_socket_loop_create`).

Modelling decisions.

* A socket pointer is a natural number (the address); `NULL` is `none`.
  The heap is a total map from addresses to socket structs.
* `_flags` is a natural number used as a bit mask; `x & m` is `&&&`,
  `x | m` is `|||`, and `x & ~m` is `clearFlag x m`.
* The constants of `h2o.h` and of the system headers (flag masks,
  `FD_SETSIZE`, `EINTR`) are not part of the translated file and are the
  fields of `Config`.
* The collaborators the loop calls on a socket
  (`h2o_socket__write_on_complete`, `h2o_socket__read_on_ready`,
  `h2o_socket__write_pending`, `h2o_socket_is_reading`,
  `h2o_socket_is_writing`) are the fields of `Callbacks`: arbitrary
  transformers of the whole world, since application code run by them may
  close sockets, create sockets and link sockets into the queues.
* Every call of a collaborator, every detach from the pending queue, every
  `free` and every `select` is recorded in a list of `Event`s, which the
  collaborators cannot touch.
* `assert` failures, out-of-range array indices and exhausted loop fuel are
  values of `Stop`, carried by `Except`.
-/

namespace H2O

/-! ## Data model -/

/-- A pointer to a socket; `none` is `NULL`. -/
abbrev Ptr := Option Nat

/-- The fields of `h2o_socket_t` that `socket_loop.c` reads or writes. -/
structure h2o_socket_t where
  /-- `int fd` -/
  fd : Nat
  /-- `_flags` -/
  _flags : Nat
  /-- `_cb.write != NULL` -/
  _cb_write : Bool
  /-- `_wreq.cnt` -/
  _wreq_cnt : Nat
  /-- `_next_pending` -/
  _next_pending : Ptr
  /-- `_next_statechanged` -/
  _next_statechanged : Ptr
deriving DecidableEq, Repr

/-- The target of a `tail_ref` pointer: the address of the queue's `head`
field, or the address of the successor field of socket `s`. -/
inductive SlotRef where
  | head
  | next (s : Nat)
deriving DecidableEq, Repr

/-- One of the two intrusive queues of `h2o_socket_loop_t`
(`_pending`, `_statechanged`). -/
structure Queue where
  head : Ptr
  tail_ref : SlotRef
deriving DecidableEq, Repr

/-- The memory the loop works on: the heap of sockets together with
`struct st_h2o_socket_loop_select_t` (the generic loop `super` with its two
queues, the two interest sets and the descriptor-indexed table). -/
structure World where
  /-- the heap: the socket struct stored at each address -/
  sock : Nat → h2o_socket_t
  /-- `super._pending` -/
  _pending : Queue
  /-- `super._statechanged` -/
  _statechanged : Queue
  /-- `fd_set readfds` -/
  readfds : Finset Nat
  /-- `fd_set writefds` -/
  writefds : Finset Nat
  /-- `h2o_socket_t *socks[FD_SETSIZE]` -/
  socks : Nat → Ptr

/-- Constants that come from headers outside the translated file. -/
structure Config where
  FD_SETSIZE : Nat
  EINTR : Int
  H2O_SOCKET_FLAG_IS_DISPOSED : Nat
  H2O_SOCKET_FLAG_IS_READ_READY : Nat
  H2O_SOCKET_FLAG_IS_WRITE_ERROR : Nat
  H2O_SOCKET_FLAG_IS_POLLED_FOR_READ : Nat
  H2O_SOCKET_FLAG_IS_POLLED_FOR_WRITE : Nat

/-- The operations on a socket that live outside the translated file. -/
structure Callbacks where
  h2o_socket__write_on_complete : Nat → Int → World → World
  h2o_socket__read_on_ready : Nat → World → World
  h2o_socket__write_pending : Nat → World → World
  h2o_socket_is_reading : h2o_socket_t → Bool
  h2o_socket_is_writing : h2o_socket_t → Bool

/-- What the loop does that is visible from outside. Each call of a
collaborator carries the socket struct as it is when the call is made. -/
inductive Event where
  | write_on_complete (sock : Nat) (status : Int) (seen : h2o_socket_t)
  | read_on_ready (sock : Nat) (seen : h2o_socket_t)
  | write_pending (sock : Nat) (seen : h2o_socket_t)
  | detach (sock : Nat)
  | free (sock : Nat)
  | select (rfds wfds : Finset Nat) (tv_sec tv_usec : Nat)
deriving DecidableEq

/-- Why a run of the model stops without returning. -/
inductive Stop where
  /-- an `assert` failed -/
  | assertion
  /-- an array or `fd_set` was indexed at or beyond `FD_SETSIZE` -/
  | outOfBounds
  /-- the loop did not finish within the given number of iterations -/
  | outOfFuel
  /-- a socket address was handed to an operation that cannot receive it:
  creation at an address in use, or closing an address not in use -/
  | invalid
deriving DecidableEq, Repr

/-- `INT32_MAX` of `stdint.h`. -/
def INT32_MAX : Nat := 2147483647

/-- `x & ~m` on a flags word: the bits of `m` are removed from `x`. -/
def clearFlag (x m : Nat) : Nat := x ^^^ (x &&& m)

/-- Store the struct `v` at address `s`. -/
def World.setSock (w : World) (s : Nat) (v : h2o_socket_t) : World :=
  { w with sock := Function.update w.sock s v }

/-- Assignment `sock->_flags = f`. -/
def World.setFlags (w : World) (s : Nat) (f : Nat) : World :=
  w.setSock s { w.sock s with _flags := f }

/-- Assignment `sock->_next_pending = p`. -/
def World.setNextPending (w : World) (s : Nat) (p : Ptr) : World :=
  w.setSock s { w.sock s with _next_pending := p }

/-- Assignment `sock->_next_statechanged = p`. -/
def World.setNextStatechanged (w : World) (s : Nat) (p : Ptr) : World :=
  w.setSock s { w.sock s with _next_statechanged := p }

/-- Assignment `loop->socks[fd] = p`. -/
def World.setSlot (w : World) (fd : Nat) (p : Ptr) : World :=
  { w with socks := Function.update w.socks fd p }

/-! ## The generic run step -/

/-- `run_socket` (lines 27-42). -/
def run_socket (c : Config) (cb : Callbacks) (s : Nat) (w : World) : World × List Event :=
  if (w.sock s)._flags &&& c.H2O_SOCKET_FLAG_IS_DISPOSED ≠ 0 then
    (w, [])
  else
    let r1 : World × List Event :=
      if (w.sock s)._cb_write = true ∧ (w.sock s)._wreq_cnt = 0 then
        let status : Int :=
          if (w.sock s)._flags &&& c.H2O_SOCKET_FLAG_IS_WRITE_ERROR ≠ 0 then -1 else 0
        (cb.h2o_socket__write_on_complete s status w,
          [Event.write_on_complete s status (w.sock s)])
      else (w, [])
    if (r1.1.sock s)._flags &&& c.H2O_SOCKET_FLAG_IS_READ_READY ≠ 0 then
      let w2 := r1.1.setFlags s
        (clearFlag (r1.1.sock s)._flags c.H2O_SOCKET_FLAG_IS_READ_READY)
      (cb.h2o_socket__read_on_ready s w2, r1.2 ++ [Event.read_on_ready s (w2.sock s)])
    else r1

/-- Lines 53-56 of `h2o_socket_loop_run`: detach the first socket `s` of the
pending queue and restore its self-reference. -/
def detach_pending (s : Nat) (w : World) : World :=
  let nxt := (w.sock s)._next_pending
  let w1 : World :=
    { w with _pending :=
        { head := nxt
          tail_ref := if nxt = none then SlotRef.head else w._pending.tail_ref } }
  w1.setNextPending s (some s)

/-- The `while` loop of `h2o_socket_loop_run` (lines 51-58), run for at most
`fuel` iterations. -/
def h2o_socket_loop_run_loop (c : Config) (cb : Callbacks) :
    Nat → World → Except Stop (World × List Event)
  | 0, w =>
    match w._pending.head with
    | none => .ok (w, [])
    | some _ => .error Stop.outOfFuel
  | fuel + 1, w =>
    match w._pending.head with
    | none => .ok (w, [])
    | some s =>
      let r := run_socket c cb s (detach_pending s w)
      match h2o_socket_loop_run_loop c cb fuel r.1 with
      | .ok (w3, e3) => .ok (w3, Event.detach s :: (r.2 ++ e3))
      | .error x => .error x

/-- The type of `loop->_proceed` once the loop and `max_wait_millis` are
fixed: the return value, the world it leaves and what it did. -/
abbrev Proceed := World → Except Stop (Int × World × List Event)

/-- `h2o_socket_loop_run` (lines 44-61) for a backend `_proceed`. -/
def h2o_socket_loop_run (c : Config) (cb : Callbacks) (_proceed : Proceed)
    (fuel : Nat) (w : World) : Except Stop (Int × World × List Event) :=
  match _proceed w with
  | .error x => .error x
  | .ok (ret, w1, e1) =>
    if ret ≠ 0 then .ok (-1, w1, e1)
    else
      match h2o_socket_loop_run_loop c cb fuel w1 with
      | .ok (w2, e2) => .ok (0, w2, e1 ++ e2)
      | .error x => .error x

/-! ## Operations of `socket.c` that the loop relies on -/

/-- Modelled from the spec: `h2o_socket__link_to_pending`, defined outside
the translated file. The pending queue is a FIFO with a head pointer and a
pointer to the next append slot; a socket whose `_next_pending` is not the
self-reference is already linked and linking it again does nothing. -/
def h2o_socket__link_to_pending (s : Nat) (w : World) : World :=
  if (w.sock s)._next_pending = some s then
    let w1 := w.setNextPending s none
    let w2 : World :=
      match w1._pending.tail_ref with
      | SlotRef.head => { w1 with _pending := { w1._pending with head := some s } }
      | SlotRef.next t => w1.setNextPending t (some s)
    { w2 with _pending := { w2._pending with tail_ref := SlotRef.next s } }
  else w

/-- Modelled from the spec: `h2o_socket__link_to_statechanged`, defined
outside the translated file; the state-changed queue has the same shape as
the pending queue and the same self-reference convention. -/
def h2o_socket__link_to_statechanged (s : Nat) (w : World) : World :=
  if (w.sock s)._next_statechanged = some s then
    let w1 := w.setNextStatechanged s none
    let w2 : World :=
      match w1._statechanged.tail_ref with
      | SlotRef.head => { w1 with _statechanged := { w1._statechanged with head := some s } }
      | SlotRef.next t => w1.setNextStatechanged t (some s)
    { w2 with _statechanged := { w2._statechanged with tail_ref := SlotRef.next s } }
  else w

/-! ## The select backend -/

/-- Lines 77-79 of `update_fdset`: detach the first socket `s` of the
state-changed queue and restore its self-reference. -/
def detach_statechanged (s : Nat) (w : World) : World :=
  let w1 : World :=
    { w with _statechanged := { w._statechanged with head := (w.sock s)._next_statechanged } }
  w1.setNextStatechanged s (some s)

/-- Lines 91-99 of `update_fdset`: bring the read-interest set and the
POLLED_FOR_READ flag of socket `s`, of descriptor `fd`, in line with
`h2o_socket_is_reading`. -/
def update_fdset_read (c : Config) (cb : Callbacks) (s fd : Nat) (w : World) : World :=
  if cb.h2o_socket_is_reading (w.sock s) then
    ({ w with readfds := insert fd w.readfds }).setFlags s
      ((w.sock s)._flags ||| c.H2O_SOCKET_FLAG_IS_POLLED_FOR_READ)
  else
    ({ w with readfds := w.readfds.erase fd }).setFlags s
      (clearFlag (w.sock s)._flags c.H2O_SOCKET_FLAG_IS_POLLED_FOR_READ)

/-- Lines 100-108 of `update_fdset`: bring the write-interest set and the
POLLED_FOR_WRITE flag of socket `s`, of descriptor `fd`, in line with
`h2o_socket_is_writing`. -/
def update_fdset_write (c : Config) (cb : Callbacks) (s fd : Nat) (w : World) : World :=
  if cb.h2o_socket_is_writing (w.sock s) then
    ({ w with writefds := insert fd w.writefds }).setFlags s
      ((w.sock s)._flags ||| c.H2O_SOCKET_FLAG_IS_POLLED_FOR_WRITE)
  else
    ({ w with writefds := w.writefds.erase fd }).setFlags s
      (clearFlag (w.sock s)._flags c.H2O_SOCKET_FLAG_IS_POLLED_FOR_WRITE)

/-- Lines 91-108 of `update_fdset`: the read interest, then the write
interest. -/
def update_fdset_interest (c : Config) (cb : Callbacks) (s fd : Nat) (w3 : World) : World :=
  update_fdset_write c cb s fd (update_fdset_read c cb s fd w3)

/-- Lines 81-109 of `update_fdset`: update the state for the detached socket
`s`. -/
def update_fdset_state (c : Config) (cb : Callbacks) (s : Nat) (w2 : World) :
    Except Stop (World × List Event) :=
  let fd := (w2.sock s).fd
  if (w2.sock s)._flags &&& c.H2O_SOCKET_FLAG_IS_DISPOSED ≠ 0 then
    if fd < c.FD_SETSIZE then
      if w2.socks fd = some s then .ok (w2.setSlot fd none, [Event.free s])
      else .error Stop.assertion
    else .error Stop.outOfBounds
  else
    if fd < c.FD_SETSIZE then
      if w2.socks fd = none then
        .ok (update_fdset_interest c cb s fd (w2.setSlot fd (some s)), [])
      else if w2.socks fd = some s then
        .ok (update_fdset_interest c cb s fd w2, [])
      else .error Stop.assertion
    else .error Stop.outOfBounds

/-- One iteration of the `while` loop of `update_fdset` (lines 76-109) when
the head of the state-changed queue is `s`. -/
def update_fdset_step (c : Config) (cb : Callbacks) (s : Nat) (w : World) :
    Except Stop (World × List Event) :=
  update_fdset_state c cb s (detach_statechanged s w)

/-- The `while` loop of `update_fdset` (lines 75-110), run for at most `fuel`
iterations. -/
def update_fdset_loop (c : Config) (cb : Callbacks) :
    Nat → World → Except Stop (World × List Event)
  | 0, w =>
    match w._statechanged.head with
    | none => .ok (w, [])
    | some _ => .error Stop.outOfFuel
  | fuel + 1, w =>
    match w._statechanged.head with
    | none => .ok (w, [])
    | some s =>
      match update_fdset_step c cb s w with
      | .error x => .error x
      | .ok (w1, e1) =>
        match update_fdset_loop c cb fuel w1 with
        | .ok (w2, e2) => .ok (w2, e1 ++ e2)
        | .error x => .error x

/-- `update_fdset` (lines 73-112). -/
def update_fdset (c : Config) (cb : Callbacks) (fuel : Nat) (w : World) :
    Except Stop (World × List Event) :=
  match update_fdset_loop c cb fuel w with
  | .error x => .error x
  | .ok (w1, e1) =>
    .ok ({ w1 with _statechanged := { w1._statechanged with tail_ref := SlotRef.head } }, e1)

/-- What one call of `select` leaves behind: its return value, `errno`, and
the two scratch sets as the call rewrote them. -/
structure SelectResult where
  ret : Int
  errno : Int
  rfds : Finset Nat
  wfds : Finset Nat
deriving DecidableEq

/-- The `do ... while` loop of `proceed` (lines 128-134). The successive
results of `select` are the list `sel`; the loop stops at the first result
that is not an interruption. -/
def proceed_select (c : Config) (w : World) (max_wait_millis : Nat) :
    List SelectResult → Except Stop (SelectResult × List Event)
  | [] => .error Stop.outOfFuel
  | r :: rest =>
    let tv_sec := max_wait_millis / 1000
    let tv_usec := (max_wait_millis % 1000 * 1000) % 2 ^ 64
    let ev := Event.select w.readfds w.writefds tv_sec tv_usec
    if r.ret = -1 ∧ r.errno = c.EINTR then
      match proceed_select c w max_wait_millis rest with
      | .ok (r1, e1) => .ok (r1, ev :: e1)
      | .error x => .error x
    else .ok (r, [ev])

/-- The body of the `for` loop of `proceed` (lines 142-159) for one `fd`. -/
def proceed_scan_fd (c : Config) (cb : Callbacks) (rfds wfds : Finset Nat) (fd : Nat)
    (w : World) : Except Stop (World × List Event) :=
  let afterRead : Except Stop World :=
    if fd ∈ rfds then
      match w.socks fd with
      | none => .error Stop.assertion
      | some s =>
        if (w.sock s)._flags ≠ c.H2O_SOCKET_FLAG_IS_DISPOSED then
          .ok (h2o_socket__link_to_pending s
            (w.setFlags s ((w.sock s)._flags ||| c.H2O_SOCKET_FLAG_IS_READ_READY)))
        else .ok w
    else .ok w
  match afterRead with
  | .error x => .error x
  | .ok w1 =>
    if fd ∈ wfds then
      match w1.socks fd with
      | none => .error Stop.assertion
      | some s =>
        if (w1.sock s)._flags ≠ c.H2O_SOCKET_FLAG_IS_DISPOSED then
          .ok (cb.h2o_socket__write_pending s w1, [Event.write_pending s (w1.sock s)])
        else .ok (w1, [])
    else .ok (w1, [])

/-- The `for` loop of `proceed` (lines 141-160) over the descriptors `fds`. -/
def proceed_scan (c : Config) (cb : Callbacks) (rfds wfds : Finset Nat) :
    List Nat → World → Except Stop (World × List Event)
  | [], w => .ok (w, [])
  | fd :: fds, w =>
    match proceed_scan_fd c cb rfds wfds fd w with
    | .error x => .error x
    | .ok (w1, e1) =>
      match proceed_scan c cb rfds wfds fds w1 with
      | .ok (w2, e2) => .ok (w2, e1 ++ e2)
      | .error x => .error x

/-- `proceed` (lines 114-164). `sel` lists the results of the successive
calls of `select`, `fuel` bounds the loop of `update_fdset`. -/
def proceed (c : Config) (cb : Callbacks) (sel : List SelectResult) (fuel : Nat)
    (max_wait_millis : Nat) (w : World) : Except Stop (Int × World × List Event) :=
  let max_wait_millis := if max_wait_millis ≥ INT32_MAX then INT32_MAX else max_wait_millis
  match update_fdset c cb fuel w with
  | .error x => .error x
  | .ok (w1, e1) =>
    match proceed_select c w1 max_wait_millis sel with
    | .error x => .error x
    | .ok (r, e2) =>
      if r.ret = -1 then .ok (-1, w1, e1 ++ e2)
      else if r.ret > 0 then
        match proceed_scan c cb r.rfds r.wfds (List.range c.FD_SETSIZE) w1 with
        | .error x => .error x
        | .ok (w2, e3) => .ok (0, w2, e1 ++ e2 ++ e3)
      else .ok (0, w1, e1 ++ e2)

/-- `on_create` (lines 166-175). -/
def on_create (c : Config) (s : Nat) (w : World) : Except Stop World :=
  let fd := (w.sock s).fd
  if fd < c.FD_SETSIZE then
    let ok1 : Bool :=
      match w.socks fd with
      | none => true
      | some t => decide ((w.sock t)._flags = c.H2O_SOCKET_FLAG_IS_DISPOSED)
    if ok1 = true ∧ fd ∉ w.readfds ∧ fd ∉ w.writefds then .ok w
    else .error Stop.assertion
  else .error Stop.outOfBounds

/-- `on_close` (lines 177-184). -/
def on_close (c : Config) (s : Nat) (w : World) : Except Stop World :=
  let fd := (w.sock s).fd
  if fd < c.FD_SETSIZE then
    if w.socks fd ≠ none then
      .ok { w with readfds := w.readfds.erase fd, writefds := w.writefds.erase fd }
    else .error Stop.assertion
  else .error Stop.outOfBounds

/-- `h2o_socket_loop_create` (lines 186-198): the loop struct is zeroed and
both queues are made empty; `heap` is the rest of the memory. -/
def h2o_socket_loop_create (heap : Nat → h2o_socket_t) : World :=
  { sock := heap
    _pending := { head := none, tail_ref := SlotRef.head }
    _statechanged := { head := none, tail_ref := SlotRef.head }
    readfds := ∅
    writefds := ∅
    socks := fun _ => none }

/-! ## The life of a socket -/

/-- Modelled from the spec: creation of a socket by the socket-management
layer, which is outside the translated file. The struct at address `s` is
initialised for descriptor `fd` (no flag, linked into neither queue), the
creation hook is called, and the socket is marked state-changed. -/
def socket_create (c : Config) (s fd : Nat) (w : World) : Except Stop World :=
  let w1 := w.setSock s
    { fd := fd, _flags := 0, _cb_write := false, _wreq_cnt := 0,
      _next_pending := some s, _next_statechanged := some s }
  match on_create c s w1 with
  | .error x => .error x
  | .ok w2 => .ok (h2o_socket__link_to_statechanged s w2)

/-- Modelled from the spec: closing a socket by the socket-management layer,
which is outside the translated file. The socket is flagged DISPOSED, the
close hook is called, and the socket is marked state-changed. -/
def socket_close (c : Config) (s : Nat) (w : World) : Except Stop World :=
  let w1 := w.setFlags s ((w.sock s)._flags ||| c.H2O_SOCKET_FLAG_IS_DISPOSED)
  match on_close c s w1 with
  | .error x => .error x
  | .ok w2 => .ok (h2o_socket__link_to_statechanged s w2)

/-- The sockets released by `free`, in order. -/
def freed : List Event → List Nat
  | [] => []
  | Event.free s :: es => s :: freed es
  | _ :: es => freed es

/-- The world together with the addresses of the sockets that were created
and not yet released. -/
structure Sys where
  w : World
  live : List Nat

/-- What the socket-management layer and the loop do to the table: create a
socket at address `s` for descriptor `fd`, close the socket at address `s`,
reconcile (run `update_fdset` with the given fuel). -/
inductive Op where
  | create (s fd : Nat)
  | close (s : Nat)
  | reconcile (fuel : Nat)
deriving DecidableEq, Repr

/-- One operation. -/
def Sys.step (c : Config) (cb : Callbacks) (σ : Sys) : Op → Except Stop Sys
  | Op.create s fd =>
    if s ∈ σ.live then .error Stop.invalid
    else
      match socket_create c s fd σ.w with
      | .error x => .error x
      | .ok w1 => .ok { w := w1, live := s :: σ.live }
  | Op.close s =>
    if s ∈ σ.live then
      match socket_close c s σ.w with
      | .error x => .error x
      | .ok w1 => .ok { w := w1, live := σ.live }
    else .error Stop.invalid
  | Op.reconcile fuel =>
    match update_fdset c cb fuel σ.w with
    | .error x => .error x
    | .ok (w1, e1) => .ok { w := w1, live := σ.live.filter (fun s => decide (s ∉ freed e1)) }

/-- A sequence of operations. -/
def Sys.run (c : Config) (cb : Callbacks) : List Op → Sys → Except Stop Sys
  | [], σ => .ok σ
  | op :: ops, σ =>
    match σ.step c cb op with
    | .error x => .error x
    | .ok σ1 => Sys.run c cb ops σ1

/-- A freshly created loop over the memory `heap`, with no socket. -/
def Sys.fresh (heap : Nat → h2o_socket_t) : Sys :=
  { w := h2o_socket_loop_create heap, live := [] }

/-- A socket that is not disposed currently owns descriptor `fd`. -/
def Sys.owned (c : Config) (σ : Sys) (fd : Nat) : Prop :=
  ∃ s ∈ σ.live, (σ.w.sock s).fd = fd ∧
    (σ.w.sock s)._flags &&& c.H2O_SOCKET_FLAG_IS_DISPOSED = 0

instance Sys.owned.instDecidable (c : Config) (σ : Sys) (fd : Nat) :
    Decidable (σ.owned c fd) :=
  inferInstanceAs (Decidable (∃ s ∈ σ.live, _))

/-- The state a run ended in, `σ` if the run stopped. -/
def sysOf (r : Except Stop Sys) (σ : Sys) : Sys :=
  match r with
  | .ok σ1 => σ1
  | .error _ => σ

/-! ## Well-formed queues -/

/-- Following the successor field `next` from the pointer `p` visits exactly
the sockets of `l`, in this order, and then reaches `NULL`. -/
def Chain (next : Nat → Ptr) : Ptr → List Nat → Prop
  | p, [] => p = none
  | p, s :: l => p = some s ∧ Chain next (next s) l

instance Chain.instDecidable (next : Nat → Ptr) :
    (p : Ptr) → (l : List Nat) → Decidable (Chain next p l)
  | p, [] => inferInstanceAs (Decidable (p = none))
  | p, s :: l =>
    @instDecidableAnd (p = some s) (Chain next (next s) l) inferInstance
      (Chain.instDecidable next (next s) l)

/-- The slot a `tail_ref` points to when the queue holds `l`: the head field
of an empty queue, the successor field of the last socket otherwise. -/
def appendSlot (l : List Nat) : SlotRef :=
  match l.getLast? with
  | none => SlotRef.head
  | some t => SlotRef.next t

/-- The `_next_pending` field of every socket. -/
def nextPending (w : World) : Nat → Ptr := fun t => (w.sock t)._next_pending

/-- The `_next_statechanged` field of every socket. -/
def nextStatechanged (w : World) : Nat → Ptr := fun t => (w.sock t)._next_statechanged

/-- The pending queue of `w` is the finite list `l`: the chain from its head
is `l`, and its `tail_ref` is the append slot of `l`. -/
def PendingQueue (w : World) (l : List Nat) : Prop :=
  Chain (nextPending w) w._pending.head l ∧ w._pending.tail_ref = appendSlot l

instance PendingQueue.instDecidable (w : World) (l : List Nat) : Decidable (PendingQueue w l) :=
  inferInstanceAs (Decidable (_ ∧ _))

/-- The state-changed queue of `w` is the finite list `l`. -/
def StatechangedQueue (w : World) (l : List Nat) : Prop :=
  Chain (nextStatechanged w) w._statechanged.head l ∧ w._statechanged.tail_ref = appendSlot l

instance StatechangedQueue.instDecidable (w : World) (l : List Nat) :
    Decidable (StatechangedQueue w l) :=
  inferInstanceAs (Decidable (_ ∧ _))

/-- The transformer `f` of the world leaves the pending queue as it is: the
queue's two pointers and the `_next_pending` field of every socket. -/
def KeepsPending (f : World → World) : Prop :=
  ∀ w, (f w)._pending = w._pending ∧ nextPending (f w) = nextPending w

/-- The notifications invoked by `run_socket` do not relink sockets. -/
def Callbacks.KeepPending (cb : Callbacks) : Prop :=
  (∀ s status, KeepsPending (cb.h2o_socket__write_on_complete s status)) ∧
  (∀ s, KeepsPending (cb.h2o_socket__read_on_ready s))

/-- What holds of the table between operations and inside the loop of
`update_fdset`: `L` tells the addresses of the sockets in use and `q` is the
state-changed queue. -/
structure LifeInv (c : Config) (w : World) (L : Nat → Prop) (q : List Nat) : Prop where
  chain : Chain (nextStatechanged w) w._statechanged.head q
  queued_live : ∀ s ∈ q, L s
  unlinked : ∀ s, L s → s ∉ q → nextStatechanged w s = some s
  slot_owner : ∀ fd s, w.socks fd = some s → L s ∧ (w.sock s).fd = fd
  settled : ∀ s, L s → s ∉ q →
    (w.sock s)._flags &&& c.H2O_SOCKET_FLAG_IS_DISPOSED = 0 ∧ w.socks (w.sock s).fd = some s

/-! ## Fixtures used to instantiate the theorems -/

/-- A configuration with a table of 8 descriptors and one bit per flag. -/
def exConfig : Config :=
  { FD_SETSIZE := 8
    EINTR := 4
    H2O_SOCKET_FLAG_IS_DISPOSED := 1
    H2O_SOCKET_FLAG_IS_READ_READY := 2
    H2O_SOCKET_FLAG_IS_WRITE_ERROR := 4
    H2O_SOCKET_FLAG_IS_POLLED_FOR_READ := 8
    H2O_SOCKET_FLAG_IS_POLLED_FOR_WRITE := 16 }

/-- A socket at address `a` with descriptor `fd` and flags `fl`, linked into
neither queue. -/
def exSock (a fd fl : Nat) (cbw : Bool) : h2o_socket_t :=
  { fd := fd, _flags := fl, _cb_write := cbw, _wreq_cnt := 0,
    _next_pending := some a, _next_statechanged := some a }

/-- A heap in which the socket at address `a` has descriptor `a`, flags `fl a`
and a write callback, and is linked into neither queue. -/
def exHeap (fl : Nat → Nat) : Nat → h2o_socket_t :=
  fun a => exSock a a (fl a) true

/-- Collaborators that do nothing; a socket wants to read always and wants to
write when it has a write callback. -/
def idleCallbacks : Callbacks :=
  { h2o_socket__write_on_complete := fun _ _ w => w
    h2o_socket__read_on_ready := fun _ w => w
    h2o_socket__write_pending := fun _ w => w
    h2o_socket_is_reading := fun _ => true
    h2o_socket_is_writing := fun x => x._cb_write }

/-- Collaborators whose write-completion notification closes the socket by
setting DISPOSED in its flags and keeping the other flags. -/
def closingCallbacks (c : Config) : Callbacks :=
  { idleCallbacks with
    h2o_socket__write_on_complete := fun s _ w =>
      w.setFlags s ((w.sock s)._flags ||| c.H2O_SOCKET_FLAG_IS_DISPOSED) }

/-- Collaborators whose write-completion notification closes the socket by
replacing its flags with DISPOSED alone. -/
def disposingCallbacks (c : Config) : Callbacks :=
  { idleCallbacks with
    h2o_socket__write_on_complete := fun s _ w =>
      w.setFlags s c.H2O_SOCKET_FLAG_IS_DISPOSED }

/-- A world whose pending queue holds exactly socket `0`, over the heap
`exHeap fl`. -/
def exPendingOne (fl : Nat → Nat) : World :=
  h2o_socket__link_to_pending 0 (h2o_socket_loop_create (exHeap fl))

/-- The world `exPendingOne fl` with every table slot `fd < 8` holding the
socket at address `fd`. -/
def exTabled (fl : Nat → Nat) : World :=
  { exPendingOne fl with socks := fun fd => if fd < 8 then some fd else none }

/-- A world in which socket `0` is queued with READ_READY set and the other
sockets have no flag set. -/
def exScanWorld : World := exTabled (fun a => if a = 0 then 2 else 0)

/-- The readiness scan on `exScanWorld` when descriptors `0` and `1` are
reported readable and none writable. -/
def exScanRun : Except Stop (World × List Event) :=
  proceed_scan exConfig idleCallbacks {0, 1} ∅ (List.range exConfig.FD_SETSIZE) exScanWorld

/-- A backend whose `_proceed` does nothing and returns `0`. -/
def idleProceed : Proceed := fun w => .ok (0, w, [])

/-- A backend whose `_proceed` does nothing and returns `-1`. -/
def failingProceed : Proceed := fun w => .ok (-1, w, [])

/-- Collaborators whose read-ready notification for socket `0` links socket
`1` into the pending queue. -/
def relinkingCallbacks : Callbacks :=
  { idleCallbacks with
    h2o_socket__read_on_ready := fun s w =>
      if s = 0 then h2o_socket__link_to_pending 1 w else w }

/-- A world whose pending queue holds exactly socket `0`; every socket has
READ_READY set and no write callback. -/
def exRelinkWorld : World :=
  h2o_socket__link_to_pending 0 (h2o_socket_loop_create (fun a => exSock a a 2 false))

/-- A world whose pending queue holds sockets `2`, `0`, `1` in this order;
every socket has READ_READY set and a write callback. -/
def exThreeWorld : World :=
  h2o_socket__link_to_pending 1 (h2o_socket__link_to_pending 0
    (h2o_socket__link_to_pending 2 (h2o_socket_loop_create (exHeap (fun _ => 2)))))

/-- The return value of a call of `h2o_socket_loop_run`, if it returned. -/
def returnOf (r : Except Stop (Int × World × List Event)) : Option Int :=
  match r with
  | .ok (ret, _, _) => some ret
  | .error _ => none

/-- The world a call of `h2o_socket_loop_run` returned with, `w` if it did
not return. -/
def finalOf (r : Except Stop (Int × World × List Event)) (w : World) : World :=
  match r with
  | .ok (_, w1, _) => w1
  | .error _ => w

/-- The events of a call of `h2o_socket_loop_run`, none if it did not
return. -/
def eventsOf (r : Except Stop (Int × World × List Event)) : List Event :=
  match r with
  | .ok (_, _, e) => e
  | .error _ => []

/-- The run returned: it did not stop on a failed assertion, an index out of
range or exhausted fuel. -/
def returned {α : Type} (r : Except Stop α) : Bool :=
  match r with
  | .ok _ => true
  | .error _ => false

/-- A fresh loop in which socket `0` was created for descriptor `3`. -/
def exCreated : Except Stop Sys :=
  Sys.run exConfig idleCallbacks [Op.create 0 3] (Sys.fresh (exHeap (fun _ => 0)))

/-- A fresh loop in which socket `0` was created for descriptor `3`,
reconciled, and closed. -/
def exClosed : Except Stop Sys :=
  Sys.run exConfig idleCallbacks [Op.create 0 3, Op.reconcile 1, Op.close 0]
    (Sys.fresh (exHeap (fun _ => 0)))

/-- A fresh loop in which socket `0` was created for descriptor `3` and
reconciled, socket `1` was created for descriptor `5`, socket `0` was closed,
and both changes were reconciled. -/
def exSettled : Except Stop Sys :=
  Sys.run exConfig idleCallbacks
    [Op.create 0 3, Op.reconcile 1, Op.create 1 5, Op.close 0, Op.reconcile 2]
    (Sys.fresh (exHeap (fun _ => 0)))

/-- The world a run returned with, `w` if the run stopped. -/
def worldOf {α : Type} (r : Except Stop (World × α)) (w : World) : World :=
  match r with
  | .ok (w1, _) => w1
  | .error _ => w

/-- What a run returned besides the world, `a` if the run stopped. -/
def outputOf {α : Type} (r : Except Stop (World × α)) (a : α) : α :=
  match r with
  | .ok (_, a1) => a1
  | .error _ => a

/-- The sockets detached from the pending queue, in the order of the
detaches. -/
def detached : List Event → List Nat
  | [] => []
  | Event.detach s :: es => s :: detached es
  | _ :: es => detached es

/-- The sockets whose write-completion notification was invoked, in order. -/
def writeNotified : List Event → List Nat
  | [] => []
  | Event.write_on_complete s _ _ :: es => s :: writeNotified es
  | _ :: es => writeNotified es

/-- The sockets whose read-ready notification was invoked, in order. -/
def readNotified : List Event → List Nat
  | [] => []
  | Event.read_on_ready s _ :: es => s :: readNotified es
  | _ :: es => readNotified es

/-! ## Notions used to state what reconciliation and `proceed` do -/

/-- The struct of socket `s` as `update_fdset` holds it once detached from the
state-changed queue (line 79): the self-reference is restored. -/
def detachedSock (w : World) (s : Nat) : h2o_socket_t :=
  { w.sock s with _next_statechanged := some s }

/-- The struct `x` after lines 91-99 of `update_fdset`: POLLED_FOR_READ is set
if `h2o_socket_is_reading` holds of `x` and cleared otherwise. -/
def afterReadSock (c : Config) (cb : Callbacks) (x : h2o_socket_t) : h2o_socket_t :=
  { x with _flags :=
      if cb.h2o_socket_is_reading x then x._flags ||| c.H2O_SOCKET_FLAG_IS_POLLED_FOR_READ
      else clearFlag x._flags c.H2O_SOCKET_FLAG_IS_POLLED_FOR_READ }

/-- The struct `x` after lines 100-108 of `update_fdset`: POLLED_FOR_WRITE is
set if `h2o_socket_is_writing` holds of `x` and cleared otherwise. -/
def afterWriteSock (c : Config) (cb : Callbacks) (x : h2o_socket_t) : h2o_socket_t :=
  { x with _flags :=
      if cb.h2o_socket_is_writing x then x._flags ||| c.H2O_SOCKET_FLAG_IS_POLLED_FOR_WRITE
      else clearFlag x._flags c.H2O_SOCKET_FLAG_IS_POLLED_FOR_WRITE }

/-- The result of `select` is an interruption: `-1` with `errno == EINTR`. -/
def Interrupted (c : Config) (r : SelectResult) : Prop :=
  r.ret = -1 ∧ r.errno = c.EINTR

instance Interrupted.instDecidable (c : Config) (r : SelectResult) :
    Decidable (Interrupted c r) :=
  inferInstanceAs (Decidable (_ ∧ _))

/-- The wait budget after lines 121-122 of `proceed`. -/
def waitMillis (max_wait_millis : Nat) : Nat :=
  if max_wait_millis ≥ INT32_MAX then INT32_MAX else max_wait_millis

/-- The call of `select` that `proceed` makes in the world `w` for the budget
`max_wait_millis`: the two scratch sets are copies of the interest sets, the
timeout is computed at lines 131-132. -/
def waitEvent (w : World) (max_wait_millis : Nat) : Event :=
  Event.select w.readfds w.writefds (waitMillis max_wait_millis / 1000)
    (waitMillis max_wait_millis % 1000 * 1000 % 2 ^ 64)

/-- The first half of the body of the `for` loop of `proceed` (lines
143-151): the descriptor `fd` in the read scratch set. -/
def proceed_scan_read (c : Config) (rfds : Finset Nat) (fd : Nat) (w : World) :
    Except Stop World :=
  if fd ∈ rfds then
    match w.socks fd with
    | none => .error Stop.assertion
    | some s =>
      if (w.sock s)._flags ≠ c.H2O_SOCKET_FLAG_IS_DISPOSED then
        .ok (h2o_socket__link_to_pending s
          (w.setFlags s ((w.sock s)._flags ||| c.H2O_SOCKET_FLAG_IS_READ_READY)))
      else .ok w
  else .ok w

/-- The second half of the body of the `for` loop of `proceed` (lines
152-159): the descriptor `fd` in the write scratch set. -/
def proceed_scan_write (c : Config) (cb : Callbacks) (wfds : Finset Nat) (fd : Nat)
    (w1 : World) : Except Stop (World × List Event) :=
  if fd ∈ wfds then
    match w1.socks fd with
    | none => .error Stop.assertion
    | some s =>
      if (w1.sock s)._flags ≠ c.H2O_SOCKET_FLAG_IS_DISPOSED then
        .ok (cb.h2o_socket__write_pending s w1, [Event.write_pending s (w1.sock s)])
      else .ok (w1, [])
  else .ok (w1, [])

/-- A world in which every socket has the flags DISPOSED and POLLED_FOR_READ,
socket `0` is in the pending queue and every table slot `fd < 8` holds the
socket at address `fd`. -/
def exStaleWorld : World := exTabled (fun _ => 9)

/-- One step of the readiness scan on `exStaleWorld` for descriptor `1`,
reported readable and writable. -/
def exStaleRun : Except Stop (World × List Event) :=
  proceed_scan_fd exConfig idleCallbacks {1} {1} 1 exStaleWorld

/-- Three results of `select`: two interruptions, then a failure that is not
an interruption. -/
def exInterruptedTwice : List SelectResult :=
  [{ ret := -1, errno := 4, rfds := ∅, wfds := ∅ },
   { ret := -1, errno := 4, rfds := ∅, wfds := ∅ },
   { ret := -1, errno := 9, rfds := ∅, wfds := ∅ }]

/-- A fresh loop with no socket, over a heap of unlinked sockets. -/
def exEmptyWorld : World := h2o_socket_loop_create (exHeap (fun _ => 0))

/-- The iterations of the loop of `update_fdset` for the sockets of `q`, each
once, in the order of `q`. -/
def update_fdset_steps (c : Config) (cb : Callbacks) :
    List Nat → World → Except Stop (World × List Event)
  | [], w => .ok (w, [])
  | s :: q, w =>
    match update_fdset_step c cb s w with
    | .error x => .error x
    | .ok (w1, e1) =>
      match update_fdset_steps c cb q w1 with
      | .ok (w2, e2) => .ok (w2, e1 ++ e2)
      | .error x => .error x

/-- Why a run stopped, if it did. -/
def stopOf {α : Type} (r : Except Stop α) : Option Stop :=
  match r with
  | .ok _ => none
  | .error x => some x

/-- A world whose state-changed queue holds sockets `0` and `1` in this
order: socket `0` is disposed and holds table slot `0`, socket `1` is not
disposed and its slot is empty. -/
def exReconcileWorld : World :=
  h2o_socket__link_to_statechanged 1 (h2o_socket__link_to_statechanged 0
    { h2o_socket_loop_create (exHeap (fun a => if a = 0 then 1 else 0)) with
      socks := fun fd => if fd = 0 then some 0 else none })

/-- A fresh loop over a heap in which every socket has descriptor `8`, the
capacity of the table of `exConfig`; socket `0` is marked state-changed. -/
def exWideWorld : World :=
  h2o_socket__link_to_statechanged 0 (h2o_socket_loop_create (fun a => exSock a 8 0 false))

/-- Every descriptor that is in the read- or the write-interest set has a
non-empty table slot, and every non-empty table slot `i` holds a socket whose
descriptor is `i`. -/
def InterestTabled (w : World) : Prop :=
  (∀ fd, fd ∈ w.readfds ∨ fd ∈ w.writefds → w.socks fd ≠ none) ∧
  (∀ i s, w.socks i = some s → (w.sock s).fd = i)

/-- A fresh loop in which socket `0`, of descriptor `3`, without flags and
without a write callback, is marked state-changed. -/
def exNewWorld : World :=
  h2o_socket__link_to_statechanged 0 (h2o_socket_loop_create (fun a => exSock a 3 0 false))

/-- The event is a call of `select`. -/
def Event.isSelect : Event → Bool
  | Event.select _ _ _ _ => true
  | _ => false

/-- The event is a call of the write-draining operation. -/
def Event.isWritePending : Event → Bool
  | Event.write_pending _ _ => true
  | _ => false

/-- The event is a call of `free`. -/
def Event.isFree : Event → Bool
  | Event.free _ => true
  | _ => false

/-- The calls of `select`, in order. -/
def waits (es : List Event) : List Event := es.filter Event.isSelect

/-- The calls of the write-draining operation, in order. -/
def writeDrains (es : List Event) : List Event := es.filter Event.isWritePending

/-! ## Flag arithmetic -/

theorem testBit_clearFlag (x m i : Nat) :
    (clearFlag x m).testBit i = (x.testBit i && !m.testBit i) := by
  unfold clearFlag
  rw [Nat.testBit_xor, Nat.testBit_and]
  cases x.testBit i <;> cases m.testBit i <;> rfl

theorem clearFlag_and_self (x m : Nat) : clearFlag x m &&& m = 0 := by
  apply Nat.eq_of_testBit_eq
  intro i
  rw [Nat.testBit_and, testBit_clearFlag, Nat.zero_testBit]
  cases x.testBit i <;> cases m.testBit i <;> rfl

/-! ## `run_socket` -/

theorem run_socket_of_disposed (c : Config) (cb : Callbacks) (s : Nat) (w : World)
    (hd : (w.sock s)._flags &&& c.H2O_SOCKET_FLAG_IS_DISPOSED ≠ 0) :
    run_socket c cb s w = (w, []) := by
  unfold run_socket
  rw [if_pos hd]

theorem detach_pending_flags (s : Nat) (w : World) (t : Nat) :
    ((detach_pending s w).sock t)._flags = (w.sock t)._flags := by
  unfold detach_pending World.setNextPending World.setSock
  by_cases h : t = s
  · subst h; simp
  · simp [Function.update_noteq h]

/-- C1: a socket that carries DISPOSED when it is detached from the pending
queue gets neither notification, and its flags stay as they were: the step
of the drain that detaches it records the detach and nothing else, and goes
on with the rest of the queue. -/
theorem drain_skips_disposed (c : Config) (cb : Callbacks) (fuel s : Nat) (w : World)
    (hhead : w._pending.head = some s)
    (hd : (w.sock s)._flags &&& c.H2O_SOCKET_FLAG_IS_DISPOSED ≠ 0) :
    run_socket c cb s (detach_pending s w) = (detach_pending s w, []) ∧
    ((run_socket c cb s (detach_pending s w)).1.sock s)._flags = (w.sock s)._flags ∧
    h2o_socket_loop_run_loop c cb (fuel + 1) w =
      (match h2o_socket_loop_run_loop c cb fuel (detach_pending s w) with
       | .ok (w3, e3) => .ok (w3, Event.detach s :: e3)
       | .error x => .error x) := by
  have hd1 : ((detach_pending s w).sock s)._flags &&& c.H2O_SOCKET_FLAG_IS_DISPOSED ≠ 0 := by
    rw [detach_pending_flags]; exact hd
  have hrun := run_socket_of_disposed c cb s (detach_pending s w) hd1
  refine ⟨hrun, ?_, ?_⟩
  · rw [hrun]; exact detach_pending_flags s w s
  · rw [h2o_socket_loop_run_loop]
    simp only [hhead, hrun, List.nil_append]

/-- Witness of C1 on a queue holding one socket whose flags are
DISPOSED, READ_READY and POLLED_FOR_READ together. -/
theorem drain_skips_disposed_witness :
    (exPendingOne (fun _ => 11))._pending.head = some 0 ∧
    ((exPendingOne (fun _ => 11)).sock 0)._flags &&& exConfig.H2O_SOCKET_FLAG_IS_DISPOSED ≠ 0 ∧
    run_socket exConfig idleCallbacks 0 (detach_pending 0 (exPendingOne (fun _ => 11)))
      = (detach_pending 0 (exPendingOne (fun _ => 11)), []) :=
  ⟨by decide, by decide,
    (drain_skips_disposed exConfig idleCallbacks 0 0 (exPendingOne (fun _ => 11))
      (by decide) (by decide)).1⟩

theorem setFlags_sock_self (w : World) (s f : Nat) :
    (w.setFlags s f).sock s = { w.sock s with _flags := f } := by
  simp [World.setFlags, World.setSock]

/-- What `run_socket` does on a socket that is not disposed and whose
write-completion notification is due. -/
theorem run_socket_write_due (c : Config) (cb : Callbacks) (s : Nat) (w : World)
    (hnd : (w.sock s)._flags &&& c.H2O_SOCKET_FLAG_IS_DISPOSED = 0)
    (hcb : (w.sock s)._cb_write = true) (hcnt : (w.sock s)._wreq_cnt = 0)
    (status : Int)
    (hst : status = if (w.sock s)._flags &&& c.H2O_SOCKET_FLAG_IS_WRITE_ERROR ≠ 0 then -1 else 0)
    (w1 : World) (hw1 : w1 = cb.h2o_socket__write_on_complete s status w) :
    (run_socket c cb s w).2 =
      if (w1.sock s)._flags &&& c.H2O_SOCKET_FLAG_IS_READ_READY ≠ 0 then
        [Event.write_on_complete s status (w.sock s),
         Event.read_on_ready s
           { w1.sock s with
             _flags := clearFlag (w1.sock s)._flags c.H2O_SOCKET_FLAG_IS_READ_READY }]
      else [Event.write_on_complete s status (w.sock s)] := by
  subst hw1
  unfold run_socket
  rw [if_neg (by simp [hnd])]
  simp only [hcb, hcnt, and_self, if_true, ← hst, setFlags_sock_self]
  by_cases hr : ((cb.h2o_socket__write_on_complete s status w).sock s)._flags
      &&& c.H2O_SOCKET_FLAG_IS_READ_READY ≠ 0
  · rw [if_pos hr, if_pos hr]; rfl
  · rw [if_neg hr, if_neg hr]

/-- What `run_socket` does on a socket that is not disposed and whose
write-completion notification is not due. -/
theorem run_socket_write_not_due (c : Config) (cb : Callbacks) (s : Nat) (w : World)
    (hnd : (w.sock s)._flags &&& c.H2O_SOCKET_FLAG_IS_DISPOSED = 0)
    (hno : ¬ ((w.sock s)._cb_write = true ∧ (w.sock s)._wreq_cnt = 0)) :
    (run_socket c cb s w).2 =
      if (w.sock s)._flags &&& c.H2O_SOCKET_FLAG_IS_READ_READY ≠ 0 then
        [Event.read_on_ready s
           { w.sock s with
             _flags := clearFlag (w.sock s)._flags c.H2O_SOCKET_FLAG_IS_READ_READY }]
      else [] := by
  unfold run_socket
  rw [if_neg (by simp [hnd])]
  simp only [hno, if_false, setFlags_sock_self]
  by_cases hr : (w.sock s)._flags &&& c.H2O_SOCKET_FLAG_IS_READ_READY ≠ 0
  · rw [if_pos hr, if_pos hr]; rfl
  · rw [if_neg hr, if_neg hr]

/-- C2, counterexample: the write-completion notification of socket `0` sets
DISPOSED on it and leaves READ_READY set; `run_socket` then invokes the
read-ready notification on socket `0`. -/
theorem read_ready_after_close_counterexample :
    (((closingCallbacks exConfig).h2o_socket__write_on_complete 0 0
        (h2o_socket_loop_create (exHeap (fun _ => 2)))).sock 0)._flags
      &&& exConfig.H2O_SOCKET_FLAG_IS_DISPOSED ≠ 0 ∧
    (((closingCallbacks exConfig).h2o_socket__write_on_complete 0 0
        (h2o_socket_loop_create (exHeap (fun _ => 2)))).sock 0)._flags
      &&& exConfig.H2O_SOCKET_FLAG_IS_READ_READY ≠ 0 ∧
    (run_socket exConfig (closingCallbacks exConfig) 0
        (h2o_socket_loop_create (exHeap (fun _ => 2)))).2 =
      [Event.write_on_complete 0 0 (exSock 0 0 2 true),
       Event.read_on_ready 0 (exSock 0 0 1 true)] := by
  decide

/-- C2, amended: when the write-completion notification of a socket sets
DISPOSED on it, the read-ready notification is not invoked on it in the same
run if READ_READY is clear when the write-completion notification returns;
if READ_READY is still set then, the read-ready notification is invoked once
although the socket is disposed. -/
theorem run_socket_read_after_close (c : Config) (cb : Callbacks) (s : Nat) (w : World)
    (hnd : (w.sock s)._flags &&& c.H2O_SOCKET_FLAG_IS_DISPOSED = 0)
    (hcb : (w.sock s)._cb_write = true) (hcnt : (w.sock s)._wreq_cnt = 0)
    (status : Int)
    (hst : status = if (w.sock s)._flags &&& c.H2O_SOCKET_FLAG_IS_WRITE_ERROR ≠ 0 then -1 else 0)
    (_hclose : ((cb.h2o_socket__write_on_complete s status w).sock s)._flags
      &&& c.H2O_SOCKET_FLAG_IS_DISPOSED ≠ 0) :
    (((cb.h2o_socket__write_on_complete s status w).sock s)._flags
        &&& c.H2O_SOCKET_FLAG_IS_READ_READY = 0 →
      readNotified (run_socket c cb s w).2 = []) ∧
    (((cb.h2o_socket__write_on_complete s status w).sock s)._flags
        &&& c.H2O_SOCKET_FLAG_IS_READ_READY ≠ 0 →
      readNotified (run_socket c cb s w).2 = [s]) := by
  have h := run_socket_write_due c cb s w hnd hcb hcnt status hst _ rfl
  constructor
  · intro hr
    rw [h, if_neg (by simp [hr])]
    rfl
  · intro hr
    rw [h, if_pos hr]
    rfl

/-- Witness of the amended C2: the write-completion notification replaces the
flags by DISPOSED alone, and no read-ready notification follows. -/
theorem run_socket_read_after_close_witness :
    readNotified (run_socket exConfig (disposingCallbacks exConfig) 0
      (h2o_socket_loop_create (exHeap (fun _ => 2)))).2 = [] :=
  (run_socket_read_after_close exConfig (disposingCallbacks exConfig) 0
    (h2o_socket_loop_create (exHeap (fun _ => 2))) (by decide) (by decide) (by decide)
    0 (by decide) (by decide)).1 (by decide)

/-- C4, counterexample: socket `1` is not disposed, has a write callback, no
write in flight and READ_READY set; its write-completion notification closes
it, and `run_socket` invokes no read-ready notification. -/
theorem write_then_read_counterexample :
    ((h2o_socket_loop_create (exHeap (fun _ => 2))).sock 1)._flags
      &&& exConfig.H2O_SOCKET_FLAG_IS_DISPOSED = 0 ∧
    ((h2o_socket_loop_create (exHeap (fun _ => 2))).sock 1)._cb_write = true ∧
    ((h2o_socket_loop_create (exHeap (fun _ => 2))).sock 1)._wreq_cnt = 0 ∧
    ((h2o_socket_loop_create (exHeap (fun _ => 2))).sock 1)._flags
      &&& exConfig.H2O_SOCKET_FLAG_IS_READ_READY ≠ 0 ∧
    (run_socket exConfig (disposingCallbacks exConfig) 1
        (h2o_socket_loop_create (exHeap (fun _ => 2)))).2 =
      [Event.write_on_complete 1 0 (exSock 1 1 2 true)] := by
  decide

/-- C4, amended: on a socket that is not disposed, has a write callback, no
write in flight and READ_READY set, `run_socket` invokes the write-completion
notification first and exactly once, with READ_READY still set on the socket
it is handed; the read-ready notification follows, exactly once, when
READ_READY is still set on the socket as the write-completion notification
returns, and is not invoked otherwise. -/
theorem run_socket_write_then_read (c : Config) (cb : Callbacks) (s : Nat) (w : World)
    (hnd : (w.sock s)._flags &&& c.H2O_SOCKET_FLAG_IS_DISPOSED = 0)
    (hcb : (w.sock s)._cb_write = true) (hcnt : (w.sock s)._wreq_cnt = 0)
    (hrr : (w.sock s)._flags &&& c.H2O_SOCKET_FLAG_IS_READ_READY ≠ 0)
    (status : Int)
    (hst : status = if (w.sock s)._flags &&& c.H2O_SOCKET_FLAG_IS_WRITE_ERROR ≠ 0 then -1 else 0) :
    (∃ seen rest, (run_socket c cb s w).2 = Event.write_on_complete s status seen :: rest ∧
        seen = w.sock s ∧ seen._flags &&& c.H2O_SOCKET_FLAG_IS_READ_READY ≠ 0) ∧
    writeNotified (run_socket c cb s w).2 = [s] ∧
    (((cb.h2o_socket__write_on_complete s status w).sock s)._flags
        &&& c.H2O_SOCKET_FLAG_IS_READ_READY ≠ 0 →
      ∃ seen, (run_socket c cb s w).2 =
        [Event.write_on_complete s status (w.sock s), Event.read_on_ready s seen]) ∧
    (((cb.h2o_socket__write_on_complete s status w).sock s)._flags
        &&& c.H2O_SOCKET_FLAG_IS_READ_READY = 0 →
      (run_socket c cb s w).2 = [Event.write_on_complete s status (w.sock s)]) := by
  have h := run_socket_write_due c cb s w hnd hcb hcnt status hst _ rfl
  by_cases hr : ((cb.h2o_socket__write_on_complete s status w).sock s)._flags
      &&& c.H2O_SOCKET_FLAG_IS_READ_READY ≠ 0
  · rw [if_pos hr] at h
    refine ⟨⟨w.sock s, _, h, rfl, hrr⟩, by rw [h]; rfl, fun _ => ⟨_, h⟩, fun h0 => absurd h0 hr⟩
  · rw [if_neg hr] at h
    refine ⟨⟨w.sock s, _, h, rfl, hrr⟩, by rw [h]; rfl, fun h1 => absurd h1 hr, fun _ => h⟩

/-- Witness of the amended C4 with collaborators that leave the flags alone:
write-completion first, read-ready second. -/
theorem run_socket_write_then_read_witness :
    ∃ seen, (run_socket exConfig idleCallbacks 1
        (h2o_socket_loop_create (exHeap (fun _ => 2)))).2 =
      [Event.write_on_complete 1 0 ((h2o_socket_loop_create (exHeap (fun _ => 2))).sock 1),
       Event.read_on_ready 1 seen] :=
  (run_socket_write_then_read exConfig idleCallbacks 1
    (h2o_socket_loop_create (exHeap (fun _ => 2))) (by decide) (by decide) (by decide)
    (by decide) 0 (by decide)).2.2.1 (by decide)

/-- C5: `run_socket` invokes the write-completion notification if and only
if the socket is not disposed, has a write callback and has no write in
flight; every such invocation is on that socket, with status `-1` when
WRITE_ERROR is set in its flags and `0` otherwise. -/
theorem run_socket_write_on_complete_iff (c : Config) (cb : Callbacks) (s : Nat) (w : World) :
    ((∃ t status seen, Event.write_on_complete t status seen ∈ (run_socket c cb s w).2) ↔
      ((w.sock s)._flags &&& c.H2O_SOCKET_FLAG_IS_DISPOSED = 0 ∧
        (w.sock s)._cb_write = true ∧ (w.sock s)._wreq_cnt = 0)) ∧
    (∀ t status seen, Event.write_on_complete t status seen ∈ (run_socket c cb s w).2 →
      t = s ∧ seen = w.sock s ∧
      status = if (w.sock s)._flags &&& c.H2O_SOCKET_FLAG_IS_WRITE_ERROR ≠ 0 then -1 else 0) ∧
    writeNotified (run_socket c cb s w).2 =
      if (w.sock s)._flags &&& c.H2O_SOCKET_FLAG_IS_DISPOSED = 0 ∧
        (w.sock s)._cb_write = true ∧ (w.sock s)._wreq_cnt = 0 then [s] else [] := by
  by_cases hd : (w.sock s)._flags &&& c.H2O_SOCKET_FLAG_IS_DISPOSED = 0
  · by_cases hdue : (w.sock s)._cb_write = true ∧ (w.sock s)._wreq_cnt = 0
    · obtain ⟨st, hst⟩ : ∃ st : Int, st =
          if (w.sock s)._flags &&& c.H2O_SOCKET_FLAG_IS_WRITE_ERROR ≠ 0 then -1 else 0 :=
        ⟨_, rfl⟩
      have h := run_socket_write_due c cb s w hd hdue.1 hdue.2 st hst _ rfl
      have hE : (if (w.sock s)._flags &&& c.H2O_SOCKET_FLAG_IS_DISPOSED = 0 ∧
          (w.sock s)._cb_write = true ∧ (w.sock s)._wreq_cnt = 0 then [s] else ([] : List Nat))
          = [s] := if_pos ⟨hd, hdue⟩
      rw [← hst, hE]
      by_cases hr : ((cb.h2o_socket__write_on_complete s st w).sock s)._flags
          &&& c.H2O_SOCKET_FLAG_IS_READ_READY ≠ 0
      · rw [if_pos hr] at h
        rw [h]
        refine ⟨⟨fun _ => ⟨hd, hdue⟩, fun _ => ⟨s, st, w.sock s, by simp⟩⟩, ?_, rfl⟩
        intro t status seen hmem
        simp at hmem
        simp [hmem]
      · rw [if_neg hr] at h
        rw [h]
        refine ⟨⟨fun _ => ⟨hd, hdue⟩, fun _ => ⟨s, st, w.sock s, by simp⟩⟩, ?_, rfl⟩
        intro t status seen hmem
        simp at hmem
        simp [hmem]
    · have h := run_socket_write_not_due c cb s w hd hdue
      have hE : (if (w.sock s)._flags &&& c.H2O_SOCKET_FLAG_IS_DISPOSED = 0 ∧
          (w.sock s)._cb_write = true ∧ (w.sock s)._wreq_cnt = 0 then [s] else ([] : List Nat))
          = [] := if_neg (fun hc => hdue hc.2)
      rw [hE]
      by_cases hr : (w.sock s)._flags &&& c.H2O_SOCKET_FLAG_IS_READ_READY ≠ 0
      · rw [if_pos hr] at h
        rw [h]
        refine ⟨⟨fun ⟨t, status, seen, hmem⟩ => ?_, fun hc => absurd hc.2 hdue⟩, ?_, rfl⟩
        · simp at hmem
        · intro t status seen hmem
          simp at hmem
      · rw [if_neg hr] at h
        rw [h]
        refine ⟨⟨fun ⟨t, status, seen, hmem⟩ => ?_, fun hc => absurd hc.2 hdue⟩, ?_, rfl⟩
        · simp at hmem
        · intro t status seen hmem
          simp at hmem
  · have h := run_socket_of_disposed c cb s w hd
    have hE : (if (w.sock s)._flags &&& c.H2O_SOCKET_FLAG_IS_DISPOSED = 0 ∧
        (w.sock s)._cb_write = true ∧ (w.sock s)._wreq_cnt = 0 then [s] else ([] : List Nat))
        = [] := if_neg (fun hc => hd hc.1)
    rw [h, hE]
    refine ⟨⟨fun ⟨t, status, seen, hmem⟩ => ?_, fun hc => absurd hc.1 hd⟩, ?_, rfl⟩
    · simp at hmem
    · intro t status seen hmem
      simp at hmem

/-- C6: every read-ready notification that `run_socket` invokes is on the
socket it was called for, is handed flags in which READ_READY is clear, and
these flags are the flags the socket had when READ_READY was tested (after
the write-completion notification, if one was due) with no bit outside
READ_READY changed; and when READ_READY is not set at that test, no
read-ready notification is invoked. -/
theorem run_socket_read_ready_cleared (c : Config) (cb : Callbacks) (s : Nat) (w : World)
    (w1 : World)
    (hw1 : w1 =
      if (w.sock s)._cb_write = true ∧ (w.sock s)._wreq_cnt = 0 then
        cb.h2o_socket__write_on_complete s
          (if (w.sock s)._flags &&& c.H2O_SOCKET_FLAG_IS_WRITE_ERROR ≠ 0 then -1 else 0) w
      else w) :
    (∀ t seen, Event.read_on_ready t seen ∈ (run_socket c cb s w).2 →
      t = s ∧
      seen._flags &&& c.H2O_SOCKET_FLAG_IS_READ_READY = 0 ∧
      (w1.sock s)._flags &&& c.H2O_SOCKET_FLAG_IS_READ_READY ≠ 0 ∧
      (∀ i, c.H2O_SOCKET_FLAG_IS_READ_READY.testBit i = false →
        seen._flags.testBit i = (w1.sock s)._flags.testBit i) ∧
      seen = { w1.sock s with
        _flags := clearFlag (w1.sock s)._flags c.H2O_SOCKET_FLAG_IS_READ_READY }) ∧
    ((w1.sock s)._flags &&& c.H2O_SOCKET_FLAG_IS_READ_READY = 0 →
      readNotified (run_socket c cb s w).2 = [] ∧
      ∀ t seen, Event.read_on_ready t seen ∉ (run_socket c cb s w).2) ∧
    ((w.sock s)._flags &&& c.H2O_SOCKET_FLAG_IS_READ_READY = 0 →
      ¬ ((w.sock s)._cb_write = true ∧ (w.sock s)._wreq_cnt = 0) →
      readNotified (run_socket c cb s w).2 = []) := by
  have key : ∀ x : h2o_socket_t,
      (clearFlag x._flags c.H2O_SOCKET_FLAG_IS_READ_READY
          &&& c.H2O_SOCKET_FLAG_IS_READ_READY = 0) ∧
      (∀ i, c.H2O_SOCKET_FLAG_IS_READ_READY.testBit i = false →
        (clearFlag x._flags c.H2O_SOCKET_FLAG_IS_READ_READY).testBit i = x._flags.testBit i) := by
    intro x
    refine ⟨clearFlag_and_self _ _, fun i hi => ?_⟩
    rw [testBit_clearFlag, hi]
    simp
  by_cases hd : (w.sock s)._flags &&& c.H2O_SOCKET_FLAG_IS_DISPOSED = 0
  · by_cases hdue : (w.sock s)._cb_write = true ∧ (w.sock s)._wreq_cnt = 0
    · rw [if_pos hdue] at hw1
      have h := run_socket_write_due c cb s w hd hdue.1 hdue.2 _ rfl w1 hw1
      rw [h]
      refine ⟨?_, ?_, fun _ hno => absurd hdue hno⟩
      · intro t seen hmem
        split at hmem
        · rename_i hr
          simp at hmem
          obtain ⟨rfl, rfl⟩ := hmem
          exact ⟨rfl, (key _).1, hr, (key _).2, rfl⟩
        · simp at hmem
      · intro hr
        rw [if_neg (by simp [hr])]
        exact ⟨rfl, by simp⟩
    · rw [if_neg hdue] at hw1
      subst hw1
      have h := run_socket_write_not_due c cb s w1 hd hdue
      rw [h]
      refine ⟨?_, ?_, ?_⟩
      · intro t seen hmem
        split at hmem
        · rename_i hr
          simp at hmem
          obtain ⟨rfl, rfl⟩ := hmem
          exact ⟨rfl, (key _).1, hr, (key _).2, rfl⟩
        · simp at hmem
      · intro hr
        rw [if_neg (by simp [hr])]
        exact ⟨rfl, by simp⟩
      · intro hr _
        rw [if_neg (by simp [hr])]
        rfl
  · have h := run_socket_of_disposed c cb s w hd
    rw [h]
    refine ⟨?_, fun _ => ⟨rfl, by simp⟩, fun _ _ => rfl⟩
    intro t seen hmem
    simp at hmem

/-- Witness of C6 on a socket with READ_READY and POLLED_FOR_READ set and no
write callback: the read-ready notification sees only POLLED_FOR_READ. -/
theorem run_socket_read_ready_cleared_witness :
    Event.read_on_ready 0 (exSock 0 0 8 false) ∈
      (run_socket exConfig idleCallbacks 0
        (h2o_socket_loop_create (fun a => exSock a a 10 false))).2 ∧
    (exSock 0 0 8 false)._flags &&& exConfig.H2O_SOCKET_FLAG_IS_READ_READY = 0 :=
  ⟨by decide,
   ((run_socket_read_ready_cleared exConfig idleCallbacks 0
      (h2o_socket_loop_create (fun a => exSock a a 10 false)) _ rfl).1 0
      (exSock 0 0 8 false) (by decide)).2.1⟩

/-! ## Chains -/

theorem Chain.congr_next {next next2 : Nat → Ptr} :
    ∀ {l : List Nat} {p : Ptr}, (∀ t ∈ l, next2 t = next t) → Chain next p l →
      Chain next2 p l
  | [], _, _, h => h
  | s :: l, _, hagree, h => by
    refine ⟨h.1, ?_⟩
    rw [hagree s (List.mem_cons_self s l)]
    exact Chain.congr_next (fun t ht => hagree t (List.mem_cons_of_mem s ht)) h.2

theorem Chain.unique {next : Nat → Ptr} :
    ∀ {l l2 : List Nat} {p : Ptr}, Chain next p l → Chain next p l2 → l = l2
  | [], [], _, _, _ => rfl
  | [], _ :: _, _, h1, h2 => by
    have h1p : _ = none := h1
    rw [h1p] at h2
    exact absurd h2.1 (by simp)
  | _ :: _, [], _, h1, h2 => by
    have h2p : _ = none := h2
    rw [h2p] at h1
    exact absurd h1.1 (by simp)
  | s :: l, t :: l2, p, h1, h2 => by
    have hst : s = t := by
      have := h1.1.symm.trans h2.1
      exact Option.some.inj this
    subst hst
    rw [Chain.unique h1.2 h2.2]

theorem Chain.suffix {next : Nat → Ptr} :
    ∀ (l1 : List Nat) {l2 : List Nat} {p : Ptr}, Chain next p (l1 ++ l2) →
      ∃ q, Chain next q l2
  | [], _, p, h => ⟨p, h⟩
  | _ :: l1, _, _, h => Chain.suffix l1 h.2

theorem Chain.not_mem_tail {next : Nat → Ptr} {s : Nat} {l : List Nat} {p : Ptr}
    (h : Chain next p (s :: l)) : s ∉ l := by
  intro hmem
  obtain ⟨l1, l2, hl⟩ := List.append_of_mem hmem
  have h2 : Chain next (next s) (l1 ++ s :: l2) := hl ▸ h.2
  obtain ⟨q, hq⟩ := Chain.suffix l1 h2
  have hq2 : Chain next (next s) l2 := hq.2
  have := Chain.unique h2 hq2
  have hlen := congrArg List.length this
  simp at hlen
  omega

theorem Chain.nodup {next : Nat → Ptr} :
    ∀ {l : List Nat} {p : Ptr}, Chain next p l → l.Nodup
  | [], _, _ => List.nodup_nil
  | _ :: _, _, h => List.nodup_cons.mpr ⟨Chain.not_mem_tail h, Chain.nodup h.2⟩

/-- A socket in a chain does not point to itself. -/
theorem Chain.next_ne_self {next : Nat → Ptr} :
    ∀ {l : List Nat} {p : Ptr}, Chain next p l → ∀ t ∈ l, next t ≠ some t
  | [], _, _, _, ht => absurd ht (List.not_mem_nil _)
  | s :: l, _, h, t, ht => by
    rcases List.mem_cons.mp ht with rfl | hin
    · intro hself
      cases l with
      | nil =>
        have h2 : next t = none := h.2
        rw [h2] at hself
        exact absurd hself (by simp)
      | cons u l =>
        have hu : next t = some u := h.2.1
        have : u = t := Option.some.inj (hu.symm.trans hself)
        subst this
        exact Chain.not_mem_tail h (List.mem_cons_self _ _)
    · exact Chain.next_ne_self h.2 t hin

/-- Appending `s` to a non-empty chain by writing the successor field of its
last socket. -/
theorem Chain.append_last {next next2 : Nat → Ptr} {s : Nat} :
    ∀ {l : List Nat} {p : Ptr} (t : Nat), Chain next p l → l.getLast? = some t → s ∉ l →
      (∀ u, u ≠ t → u ≠ s → next2 u = next u) → next2 t = some s → next2 s = none →
      Chain next2 p (l ++ [s])
  | [], _, _, _, hlast, _, _, _, _ => by simp at hlast
  | [u], p, t, h, hlast, _, _, ht, hs => by
    have hut : u = t := by simpa using hlast
    subst hut
    exact ⟨h.1, ht, hs⟩
  | u :: v :: l, p, t, h, hlast, hs, hagree, ht, hsn => by
    have hlast2 : (v :: l).getLast? = some t := by
      rw [List.getLast?_cons_cons] at hlast; exact hlast
    have htmem : t ∈ v :: l := List.mem_of_getLast?_eq_some hlast2
    have hut : u ≠ t := fun e => Chain.not_mem_tail h (e ▸ htmem)
    have hus : u ≠ s := fun e => hs (e ▸ List.mem_cons_self _ _)
    refine ⟨h.1, ?_⟩
    rw [hagree u hut hus]
    exact Chain.append_last t h.2 hlast2 (fun hm => hs (List.mem_cons_of_mem _ hm)) hagree ht hsn

/-! ## The pending queue -/

theorem appendSlot_concat (l : List Nat) (s : Nat) : appendSlot (l ++ [s]) = SlotRef.next s := by
  simp [appendSlot]

theorem appendSlot_cons_cons (s u : Nat) (l : List Nat) :
    appendSlot (s :: u :: l) = appendSlot (u :: l) := by
  simp [appendSlot, List.getLast?_cons_cons]

theorem nextPending_setNextPending (w : World) (s : Nat) (p : Ptr) (t : Nat) :
    nextPending (w.setNextPending s p) t = if t = s then p else nextPending w t := by
  unfold nextPending World.setNextPending World.setSock
  by_cases h : t = s
  · subst h; simp
  · simp [Function.update_noteq h, h]

theorem nextPending_setFlags (w : World) (s f : Nat) :
    nextPending (w.setFlags s f) = nextPending w := by
  funext t
  unfold nextPending World.setFlags World.setSock
  by_cases h : t = s
  · subst h; simp
  · simp [Function.update_noteq h]

theorem PendingQueue.setFlags {w : World} {l : List Nat} (s f : Nat)
    (h : PendingQueue w l) : PendingQueue (w.setFlags s f) l := by
  unfold PendingQueue
  rw [nextPending_setFlags]
  exact h

/-- Detaching the head of a well-formed pending queue leaves the rest of the
queue well formed and restores the self-reference of the detached socket. -/
theorem PendingQueue.detach {w : World} {s : Nat} {l : List Nat}
    (h : PendingQueue w (s :: l)) :
    PendingQueue (detach_pending s w) l ∧ nextPending (detach_pending s w) s = some s := by
  obtain ⟨hc, ht⟩ := h
  have hnot : s ∉ l := Chain.not_mem_tail hc
  have hnext : ∀ t, nextPending (detach_pending s w) t
      = if t = s then some s else nextPending w t := by
    intro t
    unfold detach_pending
    rw [nextPending_setNextPending]
    rfl
  have hhead : (detach_pending s w)._pending.head = nextPending w s := rfl
  have htail : (detach_pending s w)._pending.tail_ref
      = if nextPending w s = none then SlotRef.head else w._pending.tail_ref := rfl
  refine ⟨⟨?_, ?_⟩, by rw [hnext, if_pos rfl]⟩
  · rw [hhead]
    refine Chain.congr_next (fun t ht => ?_) hc.2
    rw [hnext, if_neg (fun e : t = s => hnot (e ▸ ht))]
  · rw [htail]
    cases l with
    | nil =>
      have : nextPending w s = none := hc.2
      rw [if_pos this]; rfl
    | cons u l =>
      have : nextPending w s = some u := hc.2.1
      rw [if_neg (by simp [this]), ht, appendSlot_cons_cons]

theorem link_to_pending_of_linked {w : World} {s : Nat} (h : nextPending w s ≠ some s) :
    h2o_socket__link_to_pending s w = w := by
  unfold h2o_socket__link_to_pending
  rw [if_neg (show ¬ (w.sock s)._next_pending = some s from h)]

/-- Linking a socket that carries the self-reference appends it to the
pending queue. -/
theorem PendingQueue.link_unlinked {w : World} {l : List Nat} {s : Nat}
    (h : PendingQueue w l) (hs : nextPending w s = some s) :
    PendingQueue (h2o_socket__link_to_pending s w) (l ++ [s]) := by
  obtain ⟨hc, ht⟩ := h
  have hnot : s ∉ l := fun hm => Chain.next_ne_self hc s hm hs
  unfold h2o_socket__link_to_pending
  rw [if_pos (show (w.sock s)._next_pending = some s from hs)]
  have ht1 : (w.setNextPending s none)._pending.tail_ref = appendSlot l := ht
  cases hl : l.getLast? with
  | none =>
    have hnil : l = [] := List.getLast?_eq_none_iff.mp hl
    subst hnil
    have ht2 : (w.setNextPending s none)._pending.tail_ref = SlotRef.head := ht1
    simp only [ht2]
    refine ⟨⟨rfl, ?_⟩, rfl⟩
    show nextPending (w.setNextPending s none) s = none
    rw [nextPending_setNextPending, if_pos rfl]
  | some t =>
    have ht2 : (w.setNextPending s none)._pending.tail_ref = SlotRef.next t := by
      rw [ht1, appendSlot, hl]
    simp only [ht2]
    have hts : t ≠ s := fun e => hnot (e ▸ List.mem_of_getLast?_eq_some hl)
    refine ⟨?_, ?_⟩
    · show Chain (nextPending ((w.setNextPending s none).setNextPending t (some s)))
        w._pending.head (l ++ [s])
      refine Chain.append_last t hc hl hnot (fun u hut hus => ?_) ?_ ?_
      · rw [nextPending_setNextPending, if_neg hut, nextPending_setNextPending, if_neg hus]
      · rw [nextPending_setNextPending, if_pos rfl]
      · rw [nextPending_setNextPending, if_neg (Ne.symm hts), nextPending_setNextPending,
          if_pos rfl]
    · rw [appendSlot_concat]

/-- Linking keeps the pending queue well formed: the socket is appended when
it carries the self-reference and the queue is left alone otherwise. -/
theorem PendingQueue.link {w : World} {l : List Nat} (s : Nat) (h : PendingQueue w l) :
    PendingQueue (h2o_socket__link_to_pending s w)
      (if nextPending w s = some s then l ++ [s] else l) := by
  by_cases hs : nextPending w s = some s
  · rw [if_pos hs]; exact h.link_unlinked hs
  · rw [if_neg hs, link_to_pending_of_linked hs]; exact h

/-! ## The readiness scan -/

/-- A property of the world kept by marking a socket read-ready and linking
it, and kept by the write-draining operation when the descriptor is reported
writable, is kept by one step of the readiness scan. -/
theorem proceed_scan_fd_invariant (c : Config) (cb : Callbacks) (P : World → Prop)
    (hread : ∀ s w, P w → P (h2o_socket__link_to_pending s
      (w.setFlags s ((w.sock s)._flags ||| c.H2O_SOCKET_FLAG_IS_READ_READY))))
    (rfds wfds : Finset Nat) (fd : Nat)
    (hwrite : fd ∈ wfds → ∀ s w, P w → P (cb.h2o_socket__write_pending s w))
    (w w1 : World) (e1 : List Event)
    (hP : P w) (h : proceed_scan_fd c cb rfds wfds fd w = .ok (w1, e1)) : P w1 := by
  unfold proceed_scan_fd at h
  -- the world after the read half
  have hA : ∀ wa : World,
      (if fd ∈ rfds then
        match w.socks fd with
        | none => (.error Stop.assertion : Except Stop World)
        | some s =>
          if (w.sock s)._flags ≠ c.H2O_SOCKET_FLAG_IS_DISPOSED then
            .ok (h2o_socket__link_to_pending s
              (w.setFlags s ((w.sock s)._flags ||| c.H2O_SOCKET_FLAG_IS_READ_READY)))
          else .ok w
      else .ok w) = .ok wa → P wa := by
    intro wa ha
    by_cases hr : fd ∈ rfds
    · rw [if_pos hr] at ha
      cases hs : w.socks fd with
      | none => rw [hs] at ha; cases ha
      | some s =>
        rw [hs] at ha
        by_cases hf : (w.sock s)._flags ≠ c.H2O_SOCKET_FLAG_IS_DISPOSED
        · simp only [if_pos hf] at ha
          cases ha
          exact hread s w hP
        · simp only [if_neg hf] at ha
          cases ha
          exact hP
    · rw [if_neg hr] at ha
      cases ha
      exact hP
  revert h
  generalize (if fd ∈ rfds then
        match w.socks fd with
        | none => (.error Stop.assertion : Except Stop World)
        | some s =>
          if (w.sock s)._flags ≠ c.H2O_SOCKET_FLAG_IS_DISPOSED then
            .ok (h2o_socket__link_to_pending s
              (w.setFlags s ((w.sock s)._flags ||| c.H2O_SOCKET_FLAG_IS_READ_READY)))
          else .ok w
      else .ok w) = a at hA
  intro h
  cases a with
  | error x => cases h
  | ok wa =>
    have hPa := hA wa rfl
    simp only at h
    by_cases hwf : fd ∈ wfds
    · rw [if_pos hwf] at h
      cases hs : wa.socks fd with
      | none => rw [hs] at h; cases h
      | some s =>
        rw [hs] at h
        by_cases hf : (wa.sock s)._flags ≠ c.H2O_SOCKET_FLAG_IS_DISPOSED
        · simp only [if_pos hf] at h
          cases h
          exact hwrite hwf s wa hPa
        · simp only [if_neg hf] at h
          cases h
          exact hPa
    · rw [if_neg hwf] at h
      cases h
      exact hPa

/-- A property kept by every step of the readiness scan is kept by the scan. -/
theorem proceed_scan_invariant (c : Config) (cb : Callbacks) (P : World → Prop)
    (hread : ∀ s w, P w → P (h2o_socket__link_to_pending s
      (w.setFlags s ((w.sock s)._flags ||| c.H2O_SOCKET_FLAG_IS_READ_READY))))
    (rfds wfds : Finset Nat)
    (hwrite : ∀ fd, fd ∈ wfds → ∀ s w, P w → P (cb.h2o_socket__write_pending s w)) :
    ∀ (fds : List Nat) (w w1 : World) (e1 : List Event), P w →
      proceed_scan c cb rfds wfds fds w = .ok (w1, e1) → P w1
  | [], w, w1, e1, hP, h => by
    rw [proceed_scan] at h
    cases h
    exact hP
  | fd :: fds, w, w1, e1, hP, h => by
    rw [proceed_scan] at h
    cases h1 : proceed_scan_fd c cb rfds wfds fd w with
    | error x => rw [h1] at h; cases h
    | ok r1 =>
      obtain ⟨wa, ea⟩ := r1
      rw [h1] at h
      simp only at h
      have hPa := proceed_scan_fd_invariant c cb P hread rfds wfds fd (hwrite fd) w wa ea hP h1
      cases h2 : proceed_scan c cb rfds wfds fds wa with
      | error x => rw [h2] at h; cases h
      | ok r2 =>
        obtain ⟨wb, eb⟩ := r2
        rw [h2] at h
        cases h
        exact proceed_scan_invariant c cb P hread rfds wfds hwrite fds wa _ _ hPa h2

/-- C7: when the pending queue is a well-formed list before the readiness
scan of `proceed`, it is a well-formed list after the scan, in which every
socket occurs at most once, whatever descriptors are reported readable
(if descriptors are reported writable too, the write-draining operation is
assumed to keep the queue well formed); marking and linking a socket that is
already in the queue changes only its flags; and detaching the head of the
queue leaves the rest well formed and gives the detached socket its
self-reference back. -/
theorem proceed_scan_links_once (c : Config) (cb : Callbacks) (rfds wfds : Finset Nat)
    (w w1 : World) (e1 : List Event) (l : List Nat)
    (hq : PendingQueue w l)
    (hwp : ∀ fd, fd ∈ wfds → ∀ s w0, (∃ l0, PendingQueue w0 l0) →
      ∃ l1, PendingQueue (cb.h2o_socket__write_pending s w0) l1)
    (hscan : proceed_scan c cb rfds wfds (List.range c.FD_SETSIZE) w = .ok (w1, e1)) :
    (∃ l1, PendingQueue w1 l1 ∧ l1.Nodup ∧ ∀ s, l1.count s ≤ 1) ∧
    (∀ s ∈ l, h2o_socket__link_to_pending s
        (w.setFlags s ((w.sock s)._flags ||| c.H2O_SOCKET_FLAG_IS_READ_READY))
      = w.setFlags s ((w.sock s)._flags ||| c.H2O_SOCKET_FLAG_IS_READ_READY)) ∧
    (∀ s l0 w0, PendingQueue w0 (s :: l0) →
      PendingQueue (detach_pending s w0) l0 ∧ nextPending (detach_pending s w0) s = some s) := by
  refine ⟨?_, ?_, fun s l0 w0 h0 => h0.detach⟩
  · have hinv := proceed_scan_invariant c cb (fun w0 => ∃ l0, PendingQueue w0 l0)
      (fun s w0 ⟨l0, h0⟩ => ⟨_, (h0.setFlags s _).link s⟩) rfds wfds hwp
      (List.range c.FD_SETSIZE) w w1 e1 ⟨l, hq⟩ hscan
    obtain ⟨l1, h1⟩ := hinv
    have hnd : l1.Nodup := Chain.nodup h1.1
    exact ⟨l1, h1, hnd, fun s => List.nodup_iff_count_le_one.mp hnd s⟩
  · intro s hs
    apply link_to_pending_of_linked
    rw [nextPending_setFlags]
    exact Chain.next_ne_self hq.1 s hs

/-- Witness of C7: socket `0` is queued with READ_READY set, descriptors `0`
and `1` are reported readable; afterwards the queue is `[0, 1]`. -/
theorem proceed_scan_links_once_witness :
    PendingQueue exScanWorld [0] ∧
    PendingQueue (worldOf exScanRun exScanWorld) [0, 1] ∧
    ∃ l1, PendingQueue (worldOf exScanRun exScanWorld) l1 ∧ l1.Nodup ∧ ∀ s, l1.count s ≤ 1 :=
  ⟨by decide, by decide,
    (proceed_scan_links_once exConfig idleCallbacks {0, 1} ∅ exScanWorld
      (worldOf exScanRun exScanWorld) (outputOf exScanRun []) [0] (by decide)
      (fun fd hfd => absurd hfd (Finset.not_mem_empty fd)) (by rfl)).1⟩

/-! ## The drain of the pending queue -/

theorem detached_append : ∀ (a b : List Event), detached (a ++ b) = detached a ++ detached b
  | [], _ => rfl
  | e :: a, b => by
    cases e <;> simp [detached, detached_append a b]

theorem detached_run_socket (c : Config) (cb : Callbacks) (s : Nat) (w : World) :
    detached (run_socket c cb s w).2 = [] := by
  by_cases hd : (w.sock s)._flags &&& c.H2O_SOCKET_FLAG_IS_DISPOSED = 0
  · by_cases hdue : (w.sock s)._cb_write = true ∧ (w.sock s)._wreq_cnt = 0
    · rw [run_socket_write_due c cb s w hd hdue.1 hdue.2 _ rfl _ rfl]
      split_ifs <;> rfl
    · rw [run_socket_write_not_due c cb s w hd hdue]
      split_ifs <;> rfl
  · rw [run_socket_of_disposed c cb s w hd]
    rfl

/-- Notifications that do not relink sockets make `run_socket` leave the
pending queue as it is. -/
theorem run_socket_keeps (c : Config) (cb : Callbacks) (hk : cb.KeepPending) (s : Nat)
    (w : World) :
    (run_socket c cb s w).1._pending = w._pending ∧
    nextPending (run_socket c cb s w).1 = nextPending w := by
  have hread : ∀ w0 : World, w0._pending = w._pending → nextPending w0 = nextPending w →
      (cb.h2o_socket__read_on_ready s (w0.setFlags s
            (clearFlag (w0.sock s)._flags c.H2O_SOCKET_FLAG_IS_READ_READY)))._pending
          = w._pending ∧
      nextPending (cb.h2o_socket__read_on_ready s (w0.setFlags s
            (clearFlag (w0.sock s)._flags c.H2O_SOCKET_FLAG_IS_READ_READY)))
          = nextPending w := by
    intro w0 h0 h0n
    have h2 := hk.2 s (w0.setFlags s
      (clearFlag (w0.sock s)._flags c.H2O_SOCKET_FLAG_IS_READ_READY))
    rw [h2.1, h2.2, nextPending_setFlags]
    exact ⟨h0, h0n⟩
  unfold run_socket
  by_cases hd : (w.sock s)._flags &&& c.H2O_SOCKET_FLAG_IS_DISPOSED ≠ 0
  · rw [if_pos hd]
    exact ⟨rfl, rfl⟩
  · rw [if_neg hd]
    by_cases hdue : (w.sock s)._cb_write = true ∧ (w.sock s)._wreq_cnt = 0
    · simp only [if_pos hdue]
      generalize (if (w.sock s)._flags &&& c.H2O_SOCKET_FLAG_IS_WRITE_ERROR ≠ 0
        then (-1 : Int) else 0) = st
      have h1 := hk.1 s st w
      by_cases hr : ((cb.h2o_socket__write_on_complete s st w).sock s)._flags
          &&& c.H2O_SOCKET_FLAG_IS_READ_READY ≠ 0
      · rw [if_pos hr]
        exact hread _ h1.1 h1.2
      · rw [if_neg hr]
        exact h1
    · simp only [if_neg hdue]
      by_cases hr : (w.sock s)._flags &&& c.H2O_SOCKET_FLAG_IS_READ_READY ≠ 0
      · rw [if_pos hr]
        exact hread w rfl rfl
      · rw [if_neg hr]
        exact ⟨rfl, rfl⟩

/-- When the loop of `h2o_socket_loop_run` returns, the pending queue is
empty. -/
theorem loop_returns_empty (c : Config) (cb : Callbacks) :
    ∀ (fuel : Nat) (w w1 : World) (e1 : List Event),
      h2o_socket_loop_run_loop c cb fuel w = .ok (w1, e1) → w1._pending.head = none
  | 0, w, w1, e1, h => by
    rw [h2o_socket_loop_run_loop] at h
    cases hh : w._pending.head with
    | none => rw [hh] at h; cases h; exact hh
    | some s => rw [hh] at h; cases h
  | fuel + 1, w, w1, e1, h => by
    rw [h2o_socket_loop_run_loop] at h
    cases hh : w._pending.head with
    | none => rw [hh] at h; cases h; exact hh
    | some s =>
      rw [hh] at h
      simp only at h
      cases h2 : h2o_socket_loop_run_loop c cb fuel
          (run_socket c cb s (detach_pending s w)).1 with
      | error x => rw [h2] at h; cases h
      | ok r2 =>
        obtain ⟨wb, eb⟩ := r2
        rw [h2] at h
        cases h
        exact loop_returns_empty c cb fuel _ _ _ h2

/-- With notifications that do not relink sockets, the loop of
`h2o_socket_loop_run` on a queue `l` returns within `l.length` iterations,
having detached the sockets of `l` in order. -/
theorem loop_runs_chain (c : Config) (cb : Callbacks) (hk : cb.KeepPending) :
    ∀ (l : List Nat) (fuel : Nat) (w : World), Chain (nextPending w) w._pending.head l →
      l.length ≤ fuel →
      ∃ w1 e1, h2o_socket_loop_run_loop c cb fuel w = .ok (w1, e1) ∧ detached e1 = l ∧
        w1._pending.head = none
  | [], fuel, w, hc, _ => by
    have hh : w._pending.head = none := hc
    refine ⟨w, [], ?_, rfl, hh⟩
    cases fuel <;> rw [h2o_socket_loop_run_loop, hh]
  | s :: l, 0, w, _, hlen => by simp at hlen
  | s :: l, fuel + 1, w, hc, hlen => by
    have hh : w._pending.head = some s := hc.1
    have hnot : s ∉ l := Chain.not_mem_tail hc
    have hk1 := run_socket_keeps c cb hk s (detach_pending s w)
    have hc1 : Chain (nextPending (run_socket c cb s (detach_pending s w)).1)
        (run_socket c cb s (detach_pending s w)).1._pending.head l := by
      rw [hk1.1, hk1.2]
      show Chain (nextPending (detach_pending s w)) (nextPending w s) l
      refine Chain.congr_next (fun t ht => ?_) hc.2
      unfold detach_pending
      rw [nextPending_setNextPending, if_neg (fun e : t = s => hnot (e ▸ ht))]
      rfl
    obtain ⟨w1, e1, hrun, hdet, hnone⟩ :=
      loop_runs_chain c cb hk l fuel _ hc1 (by simpa using hlen)
    refine ⟨w1, Event.detach s :: ((run_socket c cb s (detach_pending s w)).2 ++ e1), ?_, ?_,
      hnone⟩
    · rw [h2o_socket_loop_run_loop, hh]
      simp only [hrun]
    · simp [detached, detached_append, detached_run_socket, hdet]

/-- Running `h2o_socket_loop_run` once the result of `_proceed` is known. -/
theorem h2o_socket_loop_run_of_proceed (c : Config) (cb : Callbacks) (p : Proceed)
    (fuel : Nat) (w w0 : World) (ret : Int) (e0 : List Event)
    (hp : p w = .ok (ret, w0, e0)) :
    h2o_socket_loop_run c cb p fuel w =
      if ret ≠ 0 then .ok (-1, w0, e0)
      else
        match h2o_socket_loop_run_loop c cb fuel w0 with
        | .ok (w2, e2) => .ok (0, w2, e0 ++ e2)
        | .error x => .error x := by
  unfold h2o_socket_loop_run
  rw [hp]

/-- C3: `h2o_socket_loop_run` returns `-1` exactly when `_proceed` returns
non-zero, and then the world and the events are those `_proceed` left:
nothing is detached and no notification is invoked; when `_proceed` returns
`0`, every value the call returns is `0`, and the call does return `0` as
soon as the pending queue is a finite list and the notifications do not
relink sockets. -/
theorem h2o_socket_loop_run_return (c : Config) (cb : Callbacks) (p : Proceed)
    (fuel : Nat) (w w0 : World) (ret : Int) (e0 : List Event)
    (hp : p w = .ok (ret, w0, e0)) :
    (ret ≠ 0 → h2o_socket_loop_run c cb p fuel w = .ok (-1, w0, e0)) ∧
    (∀ r w1 e1, h2o_socket_loop_run c cb p fuel w = .ok (r, w1, e1) →
      (r = -1 ↔ ret ≠ 0) ∧ (r = -1 ∨ r = 0)) ∧
    (ret = 0 → ∀ r w1 e1, h2o_socket_loop_run c cb p fuel w = .ok (r, w1, e1) →
      r = 0 ∧ ∃ e2, h2o_socket_loop_run_loop c cb fuel w0 = .ok (w1, e2) ∧ e1 = e0 ++ e2) ∧
    (ret = 0 → cb.KeepPending → ∀ l, PendingQueue w0 l → l.length ≤ fuel →
      ∃ w1 e1, h2o_socket_loop_run c cb p fuel w = .ok (0, w1, e0 ++ e1)) := by
  have hrun := h2o_socket_loop_run_of_proceed c cb p fuel w w0 ret e0 hp
  have hzero : ret = 0 → ∀ r w1 e1, h2o_socket_loop_run c cb p fuel w = .ok (r, w1, e1) →
      r = 0 ∧ ∃ e2, h2o_socket_loop_run_loop c cb fuel w0 = .ok (w1, e2) ∧ e1 = e0 ++ e2 := by
    intro h0 r w1 e1 h
    rw [hrun, if_neg (by simp [h0])] at h
    cases h2 : h2o_socket_loop_run_loop c cb fuel w0 with
    | error x => rw [h2] at h; cases h
    | ok r2 =>
      obtain ⟨wb, eb⟩ := r2
      rw [h2] at h
      cases h
      exact ⟨rfl, _, rfl, rfl⟩
  refine ⟨fun hne => by rw [hrun, if_pos hne], ?_, hzero, ?_⟩
  · intro r w1 e1 h
    by_cases hne : ret ≠ 0
    · rw [hrun, if_pos hne] at h
      cases h
      exact ⟨⟨fun _ => hne, fun _ => rfl⟩, Or.inl rfl⟩
    · have h0 : ret = 0 := not_not.mp hne
      have hr := (hzero h0 r w1 e1 h).1
      subst hr
      exact ⟨⟨fun hc => absurd hc (by decide), fun hc => absurd h0 hc⟩, Or.inr rfl⟩
  · intro h0 hk l hq hlen
    obtain ⟨w1, e1, hloop, _, _⟩ := loop_runs_chain c cb hk l fuel w0 hq.1 hlen
    exact ⟨w1, e1, by rw [hrun, if_neg (by simp [h0]), hloop]⟩

/-- Witness of C3: a backend that fails makes the call return `-1` with the
queued socket still queued. -/
theorem h2o_socket_loop_run_return_witness :
    h2o_socket_loop_run exConfig idleCallbacks failingProceed 0 exThreeWorld
      = .ok (-1, exThreeWorld, []) :=
  (h2o_socket_loop_run_return exConfig idleCallbacks failingProceed 0 exThreeWorld
    exThreeWorld (-1) [] rfl).1 (by decide)

/-- C8, counterexample: the pending queue holds socket `0` alone; its
read-ready notification links socket `1`; the same call of
`h2o_socket_loop_run` detaches and runs socket `1` too, and the queue is empty
when the call returns. -/
theorem relinked_run_in_same_call_counterexample :
    PendingQueue exRelinkWorld [0] ∧
    returnOf (h2o_socket_loop_run exConfig relinkingCallbacks idleProceed 2 exRelinkWorld)
      = some 0 ∧
    detached (eventsOf
      (h2o_socket_loop_run exConfig relinkingCallbacks idleProceed 2 exRelinkWorld)) = [0, 1] ∧
    readNotified (eventsOf
      (h2o_socket_loop_run exConfig relinkingCallbacks idleProceed 2 exRelinkWorld)) = [0, 1] ∧
    (finalOf (h2o_socket_loop_run exConfig relinkingCallbacks idleProceed 2 exRelinkWorld)
      exRelinkWorld)._pending.head = none := by
  decide

/-- C8, amended: a call of `h2o_socket_loop_run` that returns `0` has
detached and run the head of the pending queue until the queue was empty,
whatever the notifications do: no socket is queued when the call returns,
and a socket that is at the head of the queue after the first socket was
run (linked by a notification, for instance) is detached and run in the
same call, right after it. -/
theorem h2o_socket_loop_run_drains_all (c : Config) (cb : Callbacks) (p : Proceed)
    (fuel : Nat) (w w0 w1 : World) (e0 e1 : List Event)
    (hp : p w = .ok (0, w0, e0))
    (hrun : h2o_socket_loop_run c cb p fuel w = .ok (0, w1, e1)) :
    w1._pending.head = none ∧
    ∃ e2, e1 = e0 ++ e2 ∧ h2o_socket_loop_run_loop c cb fuel w0 = .ok (w1, e2) ∧
      ∀ s t, w0._pending.head = some s →
        (run_socket c cb s (detach_pending s w0)).1._pending.head = some t →
        ∃ rest, detached e2 = s :: t :: rest := by
  rw [h2o_socket_loop_run_of_proceed c cb p fuel w w0 0 e0 hp, if_neg (by simp)] at hrun
  cases h2 : h2o_socket_loop_run_loop c cb fuel w0 with
  | error x => rw [h2] at hrun; cases hrun
  | ok r2 =>
    obtain ⟨wb, eb⟩ := r2
    rw [h2] at hrun
    cases hrun
    refine ⟨loop_returns_empty c cb fuel w0 _ _ h2, _, rfl, rfl, ?_⟩
    intro s t hs ht
    cases fuel with
    | zero =>
      rw [h2o_socket_loop_run_loop, hs] at h2
      cases h2
    | succ n =>
      rw [h2o_socket_loop_run_loop, hs] at h2
      simp only at h2
      cases h3 : h2o_socket_loop_run_loop c cb n (run_socket c cb s (detach_pending s w0)).1 with
      | error x => rw [h3] at h2; cases h2
      | ok r3 =>
        obtain ⟨wc, ec⟩ := r3
        rw [h3] at h2
        cases h2
        cases n with
        | zero =>
          rw [h2o_socket_loop_run_loop, ht] at h3
          cases h3
        | succ m =>
          rw [h2o_socket_loop_run_loop, ht] at h3
          simp only at h3
          cases h4 : h2o_socket_loop_run_loop c cb m
              (run_socket c cb t
                (detach_pending t (run_socket c cb s (detach_pending s w0)).1)).1 with
          | error x => rw [h4] at h3; cases h3
          | ok r4 =>
            obtain ⟨wd, ed⟩ := r4
            rw [h4] at h3
            cases h3
            refine ⟨detached ed, ?_⟩
            simp [detached, detached_append, detached_run_socket]

/-- Witness of the amended C8 on the relinking notifications. -/
theorem h2o_socket_loop_run_drains_all_witness :
    (finalOf (h2o_socket_loop_run exConfig relinkingCallbacks idleProceed 2 exRelinkWorld)
      exRelinkWorld)._pending.head = none :=
  (h2o_socket_loop_run_drains_all exConfig relinkingCallbacks idleProceed 2 exRelinkWorld
    exRelinkWorld
    (finalOf (h2o_socket_loop_run exConfig relinkingCallbacks idleProceed 2 exRelinkWorld)
      exRelinkWorld) []
    (eventsOf (h2o_socket_loop_run exConfig relinkingCallbacks idleProceed 2 exRelinkWorld))
    rfl (by rfl)).1

/-- C9: when `_proceed` returns `0` leaving the pending queue `l` and the
notifications do not relink sockets, `h2o_socket_loop_run` returns `0` within
`l.length` iterations having detached and run the sockets of `l` in the order
of `l`, each once; and linking a socket that carries the self-reference
appends it at the end of the queue, so sockets are run in the order in which
they were linked. -/
theorem h2o_socket_loop_run_in_order (c : Config) (cb : Callbacks) (p : Proceed)
    (fuel : Nat) (w w0 : World) (e0 : List Event) (l : List Nat)
    (hk : cb.KeepPending)
    (hp : p w = .ok (0, w0, e0))
    (hq : PendingQueue w0 l)
    (hfuel : l.length ≤ fuel) :
    (∃ w1 e1, h2o_socket_loop_run c cb p fuel w = .ok (0, w1, e0 ++ e1) ∧
      h2o_socket_loop_run_loop c cb fuel w0 = .ok (w1, e1) ∧
      detached e1 = l ∧ l.Nodup ∧ w1._pending.head = none) ∧
    (∀ s, nextPending w0 s = some s →
      PendingQueue (h2o_socket__link_to_pending s w0) (l ++ [s]) ∧
      ∃ w1 e1, h2o_socket_loop_run_loop c cb (fuel + 1) (h2o_socket__link_to_pending s w0)
          = .ok (w1, e1) ∧ detached e1 = l ++ [s]) := by
  constructor
  · obtain ⟨w1, e1, hloop, hdet, hnone⟩ := loop_runs_chain c cb hk l fuel w0 hq.1 hfuel
    refine ⟨w1, e1, ?_, hloop, hdet, Chain.nodup hq.1, hnone⟩
    rw [h2o_socket_loop_run_of_proceed c cb p fuel w w0 0 e0 hp, if_neg (by simp), hloop]
  · intro s hs
    have hq2 := hq.link_unlinked hs
    obtain ⟨w1, e1, hloop, hdet, _⟩ :=
      loop_runs_chain c cb hk (l ++ [s]) (fuel + 1) _ hq2.1 (by simp; omega)
    exact ⟨hq2, w1, e1, hloop, hdet⟩

theorem idleCallbacks_keepPending : idleCallbacks.KeepPending :=
  ⟨fun _ _ _ => ⟨rfl, rfl⟩, fun _ _ => ⟨rfl, rfl⟩⟩

/-- Witness of C9 on the queue `[2, 0, 1]`. -/
theorem h2o_socket_loop_run_in_order_witness :
    PendingQueue exThreeWorld [2, 0, 1] ∧
    detached (eventsOf
      (h2o_socket_loop_run exConfig idleCallbacks idleProceed 3 exThreeWorld)) = [2, 0, 1] ∧
    ∃ w1 e1, h2o_socket_loop_run exConfig idleCallbacks idleProceed 3 exThreeWorld
        = .ok (0, w1, [] ++ e1) ∧
      h2o_socket_loop_run_loop exConfig idleCallbacks 3 exThreeWorld = .ok (w1, e1) ∧
      detached e1 = [2, 0, 1] ∧ [2, 0, 1].Nodup ∧ w1._pending.head = none :=
  ⟨by decide, by decide,
    (h2o_socket_loop_run_in_order exConfig idleCallbacks idleProceed 3 exThreeWorld
      exThreeWorld [] [2, 0, 1] idleCallbacks_keepPending rfl (by decide) (by decide)).1⟩

/-! ## Reconciliation and the life of a socket -/

theorem and_eq_zero_iff_testBit (x d : Nat) :
    x &&& d = 0 ↔ ∀ i, (x.testBit i && d.testBit i) = false := by
  constructor
  · intro h i
    rw [← Nat.testBit_and, h, Nat.zero_testBit]
  · intro h
    apply Nat.eq_of_testBit_eq
    intro i
    rw [Nat.testBit_and, h, Nat.zero_testBit]

theorem or_and_eq_zero {x m d : Nat} (hx : x &&& d = 0) (hm : m &&& d = 0) :
    (x ||| m) &&& d = 0 := by
  rw [and_eq_zero_iff_testBit] at *
  intro i
  have h1 := hx i
  have h2 := hm i
  rw [Nat.testBit_or]
  revert h1 h2
  cases x.testBit i <;> cases m.testBit i <;> cases d.testBit i <;> simp

theorem clearFlag_and_eq_zero {x d : Nat} (m : Nat) (hx : x &&& d = 0) :
    clearFlag x m &&& d = 0 := by
  rw [and_eq_zero_iff_testBit] at *
  intro i
  have h1 := hx i
  rw [testBit_clearFlag]
  revert h1
  cases x.testBit i <;> cases m.testBit i <;> cases d.testBit i <;> simp

theorem nextStatechanged_setNextStatechanged (w : World) (s : Nat) (p : Ptr) (t : Nat) :
    nextStatechanged (w.setNextStatechanged s p) t
      = if t = s then p else nextStatechanged w t := by
  unfold nextStatechanged World.setNextStatechanged World.setSock
  by_cases h : t = s
  · subst h; simp
  · simp [Function.update_noteq h, h]

theorem setNextStatechanged_fd (w : World) (s : Nat) (p : Ptr) (t : Nat) :
    ((w.setNextStatechanged s p).sock t).fd = (w.sock t).fd := by
  unfold World.setNextStatechanged World.setSock
  by_cases h : t = s
  · subst h; simp
  · simp [Function.update_noteq h]

theorem setNextStatechanged_flags (w : World) (s : Nat) (p : Ptr) (t : Nat) :
    ((w.setNextStatechanged s p).sock t)._flags = (w.sock t)._flags := by
  unfold World.setNextStatechanged World.setSock
  by_cases h : t = s
  · subst h; simp
  · simp [Function.update_noteq h]

/-- What `h2o_socket__link_to_statechanged` leaves alone. -/
theorem link_to_statechanged_frame (s : Nat) (w : World) :
    (h2o_socket__link_to_statechanged s w).socks = w.socks ∧
    (h2o_socket__link_to_statechanged s w).readfds = w.readfds ∧
    (h2o_socket__link_to_statechanged s w).writefds = w.writefds ∧
    (∀ t, ((h2o_socket__link_to_statechanged s w).sock t).fd = (w.sock t).fd) ∧
    (∀ t, ((h2o_socket__link_to_statechanged s w).sock t)._flags = (w.sock t)._flags) ∧
    (∀ t, t ≠ s → w._statechanged.tail_ref ≠ SlotRef.next t →
      nextStatechanged (h2o_socket__link_to_statechanged s w) t = nextStatechanged w t) := by
  unfold h2o_socket__link_to_statechanged
  by_cases hs : (w.sock s)._next_statechanged = some s
  · rw [if_pos hs]
    have ht1 : (w.setNextStatechanged s none)._statechanged.tail_ref
        = w._statechanged.tail_ref := rfl
    cases htr : w._statechanged.tail_ref with
    | head =>
      simp only [ht1, htr]
      refine ⟨rfl, rfl, rfl, fun t => ?_, fun t => ?_, fun t hts _ => ?_⟩
      · exact setNextStatechanged_fd w s none t
      · exact setNextStatechanged_flags w s none t
      · show nextStatechanged (w.setNextStatechanged s none) t = _
        rw [nextStatechanged_setNextStatechanged, if_neg hts]
    | next u =>
      simp only [ht1, htr]
      refine ⟨rfl, rfl, rfl, fun t => ?_, fun t => ?_, fun t hts htu => ?_⟩
      · show (((w.setNextStatechanged s none).setNextStatechanged u (some s)).sock t).fd = _
        rw [setNextStatechanged_fd, setNextStatechanged_fd]
      · show (((w.setNextStatechanged s none).setNextStatechanged u (some s)).sock t)._flags = _
        rw [setNextStatechanged_flags, setNextStatechanged_flags]
      · show nextStatechanged
          ((w.setNextStatechanged s none).setNextStatechanged u (some s)) t = _
        have htu2 : t ≠ u := fun e => htu (by rw [e])
        rw [nextStatechanged_setNextStatechanged, if_neg htu2,
          nextStatechanged_setNextStatechanged, if_neg hts]
  · rw [if_neg hs]
    exact ⟨rfl, rfl, rfl, fun _ => rfl, fun _ => rfl, fun _ _ _ => rfl⟩

theorem link_to_statechanged_of_linked {w : World} {s : Nat}
    (h : nextStatechanged w s ≠ some s) : h2o_socket__link_to_statechanged s w = w := by
  unfold h2o_socket__link_to_statechanged
  rw [if_neg (show ¬ (w.sock s)._next_statechanged = some s from h)]

/-- Marking a socket that carries the self-reference appends it to the
state-changed queue. -/
theorem StatechangedQueue.mark_unlinked {w : World} {l : List Nat} {s : Nat}
    (h : StatechangedQueue w l) (hs : nextStatechanged w s = some s) :
    StatechangedQueue (h2o_socket__link_to_statechanged s w) (l ++ [s]) := by
  obtain ⟨hc, ht⟩ := h
  have hnot : s ∉ l := fun hm => Chain.next_ne_self hc s hm hs
  unfold h2o_socket__link_to_statechanged
  rw [if_pos (show (w.sock s)._next_statechanged = some s from hs)]
  have ht1 : (w.setNextStatechanged s none)._statechanged.tail_ref = appendSlot l := ht
  cases hl : l.getLast? with
  | none =>
    have hnil : l = [] := List.getLast?_eq_none_iff.mp hl
    subst hnil
    have ht2 : (w.setNextStatechanged s none)._statechanged.tail_ref = SlotRef.head := ht1
    simp only [ht2]
    refine ⟨⟨rfl, ?_⟩, rfl⟩
    show nextStatechanged (w.setNextStatechanged s none) s = none
    rw [nextStatechanged_setNextStatechanged, if_pos rfl]
  | some t =>
    have ht2 : (w.setNextStatechanged s none)._statechanged.tail_ref = SlotRef.next t := by
      rw [ht1, appendSlot, hl]
    simp only [ht2]
    have hts : t ≠ s := fun e => hnot (e ▸ List.mem_of_getLast?_eq_some hl)
    refine ⟨?_, ?_⟩
    · show Chain (nextStatechanged
          ((w.setNextStatechanged s none).setNextStatechanged t (some s)))
        w._statechanged.head (l ++ [s])
      refine Chain.append_last t hc hl hnot (fun u hut hus => ?_) ?_ ?_
      · rw [nextStatechanged_setNextStatechanged, if_neg hut,
          nextStatechanged_setNextStatechanged, if_neg hus]
      · rw [nextStatechanged_setNextStatechanged, if_pos rfl]
      · rw [nextStatechanged_setNextStatechanged, if_neg (Ne.symm hts),
          nextStatechanged_setNextStatechanged, if_pos rfl]
    · rw [appendSlot_concat]

theorem setFlags_sock_of_ne (w : World) (s f : Nat) {t : Nat} (h : t ≠ s) :
    (w.setFlags s f).sock t = w.sock t := by
  simp [World.setFlags, World.setSock, Function.update_noteq h]

theorem setFlags_fd (w : World) (s f t : Nat) :
    ((w.setFlags s f).sock t).fd = (w.sock t).fd := by
  by_cases h : t = s
  · subst h; rw [setFlags_sock_self]
  · rw [setFlags_sock_of_ne w s f h]

theorem nextStatechanged_setFlags (w : World) (s f : Nat) :
    nextStatechanged (w.setFlags s f) = nextStatechanged w := by
  funext t
  unfold nextStatechanged
  by_cases h : t = s
  · subst h; rw [setFlags_sock_self]
  · rw [setFlags_sock_of_ne w s f h]

/-- What detaching the head of the state-changed queue changes. -/
theorem detach_statechanged_spec (s : Nat) (w : World) :
    (detach_statechanged s w)._statechanged.head = nextStatechanged w s ∧
    (∀ t, nextStatechanged (detach_statechanged s w) t
      = if t = s then some s else nextStatechanged w t) ∧
    (detach_statechanged s w).socks = w.socks ∧
    (∀ t, ((detach_statechanged s w).sock t).fd = (w.sock t).fd) ∧
    (∀ t, ((detach_statechanged s w).sock t)._flags = (w.sock t)._flags) := by
  refine ⟨rfl, fun t => ?_, rfl, fun t => ?_, fun t => ?_⟩
  · unfold detach_statechanged
    rw [nextStatechanged_setNextStatechanged]
    rfl
  · unfold detach_statechanged
    rw [setNextStatechanged_fd]
  · unfold detach_statechanged
    rw [setNextStatechanged_flags]

/-- The world `w1` differs from `w` at most in the two interest sets and in
the flags of socket `s`, whose DISPOSED bit stays clear if it was clear;
`hyp` is what this last fact depends on. -/
theorem flags_frame_setFlags (c : Config) (w0 w : World) (s f : Nat) (hyp : Prop)
    (h0 : w0.sock = w.sock ∧ w0.socks = w.socks ∧ w0._statechanged = w._statechanged)
    (hf : hyp → (w.sock s)._flags &&& c.H2O_SOCKET_FLAG_IS_DISPOSED = 0 →
      f &&& c.H2O_SOCKET_FLAG_IS_DISPOSED = 0) :
    (w0.setFlags s f).socks = w.socks ∧
    (w0.setFlags s f)._statechanged = w._statechanged ∧
    nextStatechanged (w0.setFlags s f) = nextStatechanged w ∧
    (∀ t, ((w0.setFlags s f).sock t).fd = (w.sock t).fd) ∧
    (∀ t, t ≠ s → (w0.setFlags s f).sock t = w.sock t) ∧
    (hyp → (w.sock s)._flags &&& c.H2O_SOCKET_FLAG_IS_DISPOSED = 0 →
      ((w0.setFlags s f).sock s)._flags &&& c.H2O_SOCKET_FLAG_IS_DISPOSED = 0) := by
  obtain ⟨h1, h2, h3⟩ := h0
  refine ⟨h2, h3, ?_, fun t => ?_, fun t ht => ?_, fun hh hz => ?_⟩
  · rw [nextStatechanged_setFlags]
    unfold nextStatechanged
    rw [h1]
  · rw [setFlags_fd, h1]
  · rw [setFlags_sock_of_ne w0 s f ht, h1]
  · rw [setFlags_sock_self]
    exact hf hh hz

theorem update_fdset_read_frame (c : Config) (cb : Callbacks) (s fd : Nat) (w : World) :
    (update_fdset_read c cb s fd w).socks = w.socks ∧
    (update_fdset_read c cb s fd w)._statechanged = w._statechanged ∧
    nextStatechanged (update_fdset_read c cb s fd w) = nextStatechanged w ∧
    (∀ t, ((update_fdset_read c cb s fd w).sock t).fd = (w.sock t).fd) ∧
    (∀ t, t ≠ s → (update_fdset_read c cb s fd w).sock t = w.sock t) ∧
    (c.H2O_SOCKET_FLAG_IS_POLLED_FOR_READ &&& c.H2O_SOCKET_FLAG_IS_DISPOSED = 0 →
      (w.sock s)._flags &&& c.H2O_SOCKET_FLAG_IS_DISPOSED = 0 →
      ((update_fdset_read c cb s fd w).sock s)._flags
        &&& c.H2O_SOCKET_FLAG_IS_DISPOSED = 0) := by
  unfold update_fdset_read
  split
  · exact flags_frame_setFlags c _ w s _ _ ⟨rfl, rfl, rfl⟩ (fun h1 h0 => or_and_eq_zero h0 h1)
  · exact flags_frame_setFlags c _ w s _ _ ⟨rfl, rfl, rfl⟩
      (fun _ h0 => clearFlag_and_eq_zero _ h0)

theorem update_fdset_write_frame (c : Config) (cb : Callbacks) (s fd : Nat) (w : World) :
    (update_fdset_write c cb s fd w).socks = w.socks ∧
    (update_fdset_write c cb s fd w)._statechanged = w._statechanged ∧
    nextStatechanged (update_fdset_write c cb s fd w) = nextStatechanged w ∧
    (∀ t, ((update_fdset_write c cb s fd w).sock t).fd = (w.sock t).fd) ∧
    (∀ t, t ≠ s → (update_fdset_write c cb s fd w).sock t = w.sock t) ∧
    (c.H2O_SOCKET_FLAG_IS_POLLED_FOR_WRITE &&& c.H2O_SOCKET_FLAG_IS_DISPOSED = 0 →
      (w.sock s)._flags &&& c.H2O_SOCKET_FLAG_IS_DISPOSED = 0 →
      ((update_fdset_write c cb s fd w).sock s)._flags
        &&& c.H2O_SOCKET_FLAG_IS_DISPOSED = 0) := by
  unfold update_fdset_write
  split
  · exact flags_frame_setFlags c _ w s _ _ ⟨rfl, rfl, rfl⟩ (fun h1 h0 => or_and_eq_zero h0 h1)
  · exact flags_frame_setFlags c _ w s _ _ ⟨rfl, rfl, rfl⟩
      (fun _ h0 => clearFlag_and_eq_zero _ h0)

/-- What lines 91-108 of `update_fdset` leave alone, and what they do to the
DISPOSED bit of the socket. -/
theorem update_fdset_interest_frame (c : Config) (cb : Callbacks) (s fd : Nat) (w : World) :
    (update_fdset_interest c cb s fd w).socks = w.socks ∧
    (update_fdset_interest c cb s fd w)._statechanged = w._statechanged ∧
    nextStatechanged (update_fdset_interest c cb s fd w) = nextStatechanged w ∧
    (∀ t, ((update_fdset_interest c cb s fd w).sock t).fd = (w.sock t).fd) ∧
    (∀ t, t ≠ s → (update_fdset_interest c cb s fd w).sock t = w.sock t) ∧
    (c.H2O_SOCKET_FLAG_IS_POLLED_FOR_READ &&& c.H2O_SOCKET_FLAG_IS_DISPOSED = 0 →
      c.H2O_SOCKET_FLAG_IS_POLLED_FOR_WRITE &&& c.H2O_SOCKET_FLAG_IS_DISPOSED = 0 →
      (w.sock s)._flags &&& c.H2O_SOCKET_FLAG_IS_DISPOSED = 0 →
      ((update_fdset_interest c cb s fd w).sock s)._flags
        &&& c.H2O_SOCKET_FLAG_IS_DISPOSED = 0) := by
  unfold update_fdset_interest
  obtain ⟨r1, r2, r3, r4, r5, r6⟩ := update_fdset_read_frame c cb s fd w
  obtain ⟨w1, w2, w3, w4, w5, w6⟩ :=
    update_fdset_write_frame c cb s fd (update_fdset_read c cb s fd w)
  refine ⟨w1.trans r1, w2.trans r2, w3.trans r3, fun t => (w4 t).trans (r4 t),
    fun t ht => (w5 t ht).trans (r5 t ht), fun h1 h2 h0 => w6 h2 (r6 h1 h0)⟩

/-- What one iteration of the loop of `update_fdset` does when it does not
stop. -/
theorem update_fdset_step_spec (c : Config) (cb : Callbacks) (s : Nat) (w w1 : World)
    (e1 : List Event) (h : update_fdset_step c cb s w = .ok (w1, e1)) :
    w1._statechanged.head = nextStatechanged w s ∧
    (∀ t, nextStatechanged w1 t = if t = s then some s else nextStatechanged w t) ∧
    (∀ t, (w1.sock t).fd = (w.sock t).fd) ∧
    (∀ t, t ≠ s → (w1.sock t)._flags = (w.sock t)._flags) ∧
    (w.sock s).fd < c.FD_SETSIZE ∧
    (((w.sock s)._flags &&& c.H2O_SOCKET_FLAG_IS_DISPOSED ≠ 0 ∧
        w.socks (w.sock s).fd = some s ∧
        w1.socks = Function.update w.socks (w.sock s).fd none ∧ e1 = [Event.free s]) ∨
     ((w.sock s)._flags &&& c.H2O_SOCKET_FLAG_IS_DISPOSED = 0 ∧
        (w.socks (w.sock s).fd = none ∨ w.socks (w.sock s).fd = some s) ∧
        w1.socks = Function.update w.socks (w.sock s).fd (some s) ∧ e1 = [] ∧
        (c.H2O_SOCKET_FLAG_IS_POLLED_FOR_READ &&& c.H2O_SOCKET_FLAG_IS_DISPOSED = 0 →
          c.H2O_SOCKET_FLAG_IS_POLLED_FOR_WRITE &&& c.H2O_SOCKET_FLAG_IS_DISPOSED = 0 →
          (w1.sock s)._flags &&& c.H2O_SOCKET_FLAG_IS_DISPOSED = 0))) := by
  unfold update_fdset_step update_fdset_state at h
  obtain ⟨d1, d2, d3, d4, d5⟩ := detach_statechanged_spec s w
  generalize detach_statechanged s w = w2 at h d1 d2 d3 d4 d5
  simp only at h
  rw [d4 s, d5 s, d3] at h
  by_cases hdis : (w.sock s)._flags &&& c.H2O_SOCKET_FLAG_IS_DISPOSED ≠ 0
  · rw [if_pos hdis] at h
    by_cases hfd : (w.sock s).fd < c.FD_SETSIZE
    · rw [if_pos hfd] at h
      by_cases hslot : w.socks (w.sock s).fd = some s
      · rw [if_pos hslot] at h
        cases h
        refine ⟨d1, d2, d4, fun t _ => d5 t, hfd, Or.inl ⟨hdis, hslot, ?_, rfl⟩⟩
        show Function.update w2.socks _ _ = _
        rw [d3]
      · rw [if_neg hslot] at h
        cases h
    · rw [if_neg hfd] at h
      cases h
  · rw [if_neg hdis] at h
    have hz : (w.sock s)._flags &&& c.H2O_SOCKET_FLAG_IS_DISPOSED = 0 := not_not.mp hdis
    by_cases hfd : (w.sock s).fd < c.FD_SETSIZE
    · rw [if_pos hfd] at h
      by_cases hnone : w.socks (w.sock s).fd = none
      · rw [if_pos hnone] at h
        cases h
        obtain ⟨i1, i2, i3, i4, i5, i6⟩ :=
          update_fdset_interest_frame c cb s (w.sock s).fd (w2.setSlot (w.sock s).fd (some s))
        refine ⟨i2 ▸ d1, fun t => ?_, fun t => (i4 t).trans (d4 t),
          fun t ht => ?_, hfd, Or.inr ⟨hz, Or.inl hnone, ?_, rfl, fun h1 h2 => ?_⟩⟩
        · rw [i3]; exact d2 t
        · rw [i5 t ht]; exact d5 t
        · rw [i1]
          show Function.update w2.socks _ _ = _
          rw [d3]
        · exact i6 h1 h2 ((d5 s).trans rfl ▸ hz)
      · rw [if_neg hnone] at h
        by_cases hslot : w.socks (w.sock s).fd = some s
        · rw [if_pos hslot] at h
          cases h
          obtain ⟨i1, i2, i3, i4, i5, i6⟩ :=
            update_fdset_interest_frame c cb s (w.sock s).fd w2
          refine ⟨i2 ▸ d1, fun t => ?_, fun t => (i4 t).trans (d4 t),
            fun t ht => ?_, hfd, Or.inr ⟨hz, Or.inr hslot, ?_, rfl, fun h1 h2 => ?_⟩⟩
          · rw [i3]; exact d2 t
          · rw [i5 t ht]; exact d5 t
          · rw [i1, d3, ← hslot, Function.update_eq_self]
          · exact i6 h1 h2 ((d5 s) ▸ hz)
        · rw [if_neg hslot] at h
          cases h
    · rw [if_neg hfd] at h
      cases h

theorem freed_append : ∀ (a b : List Event), freed (a ++ b) = freed a ++ freed b
  | [], _ => rfl
  | e :: a, b => by
    cases e <;> simp [freed, freed_append a b]

theorem LifeInv.congr_live {c : Config} {w : World} {L L2 : Nat → Prop} {q : List Nat}
    (h : LifeInv c w L q) (hL : ∀ t, L2 t ↔ L t) : LifeInv c w L2 q :=
  { chain := h.chain
    queued_live := fun s hs => (hL s).mpr (h.queued_live s hs)
    unlinked := fun s hs hq => h.unlinked s ((hL s).mp hs) hq
    slot_owner := fun fd s hs => ⟨(hL s).mpr (h.slot_owner fd s hs).1, (h.slot_owner fd s hs).2⟩
    settled := fun s hs hq => h.settled s ((hL s).mp hs) hq }

theorem LifeInv.of_eq {c : Config} {w w2 : World} {L : Nat → Prop} {q : List Nat}
    (h : LifeInv c w L q) (h1 : w2.sock = w.sock) (h2 : w2.socks = w.socks)
    (h3 : w2._statechanged.head = w._statechanged.head) : LifeInv c w2 L q := by
  have hn : nextStatechanged w2 = nextStatechanged w := by
    unfold nextStatechanged; rw [h1]
  exact
    { chain := by rw [hn, h3]; exact h.chain
      queued_live := h.queued_live
      unlinked := fun s hs hq => by rw [hn]; exact h.unlinked s hs hq
      slot_owner := fun fd s hs => by rw [h1]; rw [h2] at hs; exact h.slot_owner fd s hs
      settled := fun s hs hq => by rw [h1, h2]; exact h.settled s hs hq }

/-- One iteration of the loop of `update_fdset` keeps the invariant: the
detached socket leaves the queue, and leaves the sockets in use if it is
released. -/
theorem LifeInv.step {c : Config} {cb : Callbacks}
    (hpr : c.H2O_SOCKET_FLAG_IS_POLLED_FOR_READ &&& c.H2O_SOCKET_FLAG_IS_DISPOSED = 0)
    (hpw : c.H2O_SOCKET_FLAG_IS_POLLED_FOR_WRITE &&& c.H2O_SOCKET_FLAG_IS_DISPOSED = 0)
    {w w1 : World} {L : Nat → Prop} {s : Nat} {q : List Nat} {e1 : List Event}
    (hI : LifeInv c w L (s :: q)) (h : update_fdset_step c cb s w = .ok (w1, e1)) :
    LifeInv c w1 (fun t => L t ∧ t ∉ freed e1) q := by
  obtain ⟨sA, sB, sC, sD, _, sE⟩ := update_fdset_step_spec c cb s w w1 e1 h
  have hnot : s ∉ q := Chain.not_mem_tail hI.chain
  have hne : ∀ t ∈ q, t ≠ s := fun t ht e => hnot (e ▸ ht)
  have hchain : Chain (nextStatechanged w1) w1._statechanged.head q := by
    rw [sA]
    refine Chain.congr_next (fun t ht => ?_) hI.chain.2
    rw [sB, if_neg (hne t ht)]
  have hout : ∀ t, t ≠ s → t ∉ q → t ∉ s :: q := fun t h1 h2 hm => by
    rcases List.mem_cons.mp hm with e | e
    · exact h1 e
    · exact h2 e
  rcases sE with ⟨_, hslot, hsocks, he⟩ | ⟨_, hslot, hsocks, he, hflags⟩
  · subst he
    have hfr : ∀ t, t ∉ freed [Event.free s] ↔ t ≠ s := fun t => by simp [freed]
    refine
      { chain := hchain
        queued_live := fun t ht =>
          ⟨hI.queued_live t (List.mem_cons_of_mem _ ht), (hfr t).mpr (hne t ht)⟩
        unlinked := fun t ht hq => ?_
        slot_owner := fun fd t ht => ?_
        settled := fun t ht hq => ?_ }
    · have hts : t ≠ s := (hfr t).mp ht.2
      rw [sB, if_neg hts]
      exact hI.unlinked t ht.1 (hout t hts hq)
    · rw [hsocks] at ht
      by_cases hfd : fd = (w.sock s).fd
      · rw [hfd, Function.update_same] at ht
        cases ht
      · rw [Function.update_noteq hfd] at ht
        obtain ⟨hL, hfdt⟩ := hI.slot_owner fd t ht
        have hts : t ≠ s := fun e => hfd (by rw [← hfdt, e])
        exact ⟨⟨hL, (hfr t).mpr hts⟩, (sC t).trans hfdt⟩
    · have hts : t ≠ s := (hfr t).mp ht.2
      obtain ⟨hz, hown⟩ := hI.settled t ht.1 (hout t hts hq)
      refine ⟨by rw [sD t hts]; exact hz, ?_⟩
      rw [hsocks, sC t]
      have hfd : (w.sock t).fd ≠ (w.sock s).fd := fun e => by
        rw [e, hslot] at hown
        exact hts (Option.some.inj hown).symm
      rw [Function.update_noteq hfd]
      exact hown
  · subst he
    have hfr : ∀ t, t ∉ freed ([] : List Event) := fun t => by simp [freed]
    refine
      { chain := hchain
        queued_live := fun t ht => ⟨hI.queued_live t (List.mem_cons_of_mem _ ht), hfr t⟩
        unlinked := fun t ht hq => ?_
        slot_owner := fun fd t ht => ?_
        settled := fun t ht hq => ?_ }
    · by_cases hts : t = s
      · rw [sB, if_pos hts, hts]
      · rw [sB, if_neg hts]
        exact hI.unlinked t ht.1 (hout t hts hq)
    · rw [hsocks] at ht
      by_cases hfd : fd = (w.sock s).fd
      · rw [hfd, Function.update_same] at ht
        have hts : s = t := Option.some.inj ht
        subst hts
        exact ⟨⟨hI.queued_live s (List.mem_cons_self _ _), hfr s⟩, (sC s).trans hfd.symm⟩
      · rw [Function.update_noteq hfd] at ht
        obtain ⟨hL, hfdt⟩ := hI.slot_owner fd t ht
        exact ⟨⟨hL, hfr t⟩, (sC t).trans hfdt⟩
    · by_cases hts : t = s
      · subst hts
        refine ⟨hflags hpr hpw, ?_⟩
        rw [hsocks, sC t, Function.update_same]
      · obtain ⟨hz, hown⟩ := hI.settled t ht.1 (hout t hts hq)
        refine ⟨by rw [sD t hts]; exact hz, ?_⟩
        rw [hsocks, sC t]
        have hfd : (w.sock t).fd ≠ (w.sock s).fd := fun e => by
          rw [e] at hown
          rcases hslot with h0 | h0
          · rw [h0] at hown; cases hown
          · rw [h0] at hown; exact hts (Option.some.inj hown).symm
        rw [Function.update_noteq hfd]
        exact hown

/-- The loop of `update_fdset` keeps the invariant and empties the queue. -/
theorem LifeInv.loop {c : Config} {cb : Callbacks}
    (hpr : c.H2O_SOCKET_FLAG_IS_POLLED_FOR_READ &&& c.H2O_SOCKET_FLAG_IS_DISPOSED = 0)
    (hpw : c.H2O_SOCKET_FLAG_IS_POLLED_FOR_WRITE &&& c.H2O_SOCKET_FLAG_IS_DISPOSED = 0) :
    ∀ (fuel : Nat) (w w1 : World) (L : Nat → Prop) (q : List Nat) (e1 : List Event),
      LifeInv c w L q → update_fdset_loop c cb fuel w = .ok (w1, e1) →
      LifeInv c w1 (fun t => L t ∧ t ∉ freed e1) []
  | 0, w, w1, L, q, e1, hI, h => by
    rw [update_fdset_loop] at h
    cases hh : w._statechanged.head with
    | none =>
      rw [hh] at h
      cases h
      have hq : q = [] := by
        cases q with
        | nil => rfl
        | cons s q => have := hI.chain.1; rw [hh] at this; cases this
      subst hq
      exact hI.congr_live (fun t => by simp [freed])
    | some s => rw [hh] at h; cases h
  | fuel + 1, w, w1, L, q, e1, hI, h => by
    rw [update_fdset_loop] at h
    cases hh : w._statechanged.head with
    | none =>
      rw [hh] at h
      cases h
      have hq : q = [] := by
        cases q with
        | nil => rfl
        | cons s q => have := hI.chain.1; rw [hh] at this; cases this
      subst hq
      exact hI.congr_live (fun t => by simp [freed])
    | some s =>
      rw [hh] at h
      simp only at h
      cases q with
      | nil => have : _ = none := hI.chain; rw [hh] at this; cases this
      | cons s2 q =>
        have hs : s2 = s := by
          have := hI.chain.1; rw [hh] at this; exact (Option.some.inj this).symm
        subst hs
        cases h1 : update_fdset_step c cb s2 w with
        | error x => rw [h1] at h; cases h
        | ok r1 =>
          obtain ⟨wa, ea⟩ := r1
          rw [h1] at h
          simp only at h
          cases h2 : update_fdset_loop c cb fuel wa with
          | error x => rw [h2] at h; cases h
          | ok r2 =>
            obtain ⟨wb, eb⟩ := r2
            rw [h2] at h
            cases h
            have hstep := LifeInv.step hpr hpw hI h1
            have hrest := LifeInv.loop hpr hpw fuel wa _ _ q eb hstep h2
            refine hrest.congr_live (fun t => ?_)
            rw [freed_append]
            simp only [List.mem_append, not_or]
            exact ⟨fun ⟨a, b, d⟩ => ⟨⟨a, b⟩, d⟩, fun ⟨⟨a, b⟩, d⟩ => ⟨a, b, d⟩⟩

theorem on_create_ok {c : Config} {s : Nat} {w w2 : World} (h : on_create c s w = .ok w2) :
    w2 = w := by
  unfold on_create at h
  simp only at h
  split at h
  · split at h
    · cases h; rfl
    · cases h
  · cases h

theorem on_close_ok {c : Config} {s : Nat} {w w2 : World} (h : on_close c s w = .ok w2) :
    w2 = { w with readfds := w.readfds.erase (w.sock s).fd,
                  writefds := w.writefds.erase (w.sock s).fd } ∧
    (w.sock s).fd < c.FD_SETSIZE ∧ w.socks (w.sock s).fd ≠ none := by
  unfold on_close at h
  simp only at h
  split at h
  · rename_i hfd
    split at h
    · rename_i hslot
      cases h
      exact ⟨rfl, hfd, hslot⟩
    · cases h
  · cases h

theorem appendSlot_ne_next_of_not_mem {q : List Nat} {t : Nat} (h : t ∉ q) :
    appendSlot q ≠ SlotRef.next t := by
  unfold appendSlot
  cases hl : q.getLast? with
  | none => simp
  | some u =>
    intro e
    have : u = t := by simpa using e
    exact h (this ▸ List.mem_of_getLast?_eq_some hl)

/-- Creating a socket at an address not in use keeps the invariant and puts
the new socket at the end of the state-changed queue. -/
theorem LifeInv.create {c : Config} {w w1 : World} {L : Nat → Prop} {q : List Nat}
    {s fd : Nat} (hI : LifeInv c w L q) (ht : w._statechanged.tail_ref = appendSlot q)
    (hs : ¬ L s) (h : socket_create c s fd w = .ok w1) :
    LifeInv c w1 (fun t => t = s ∨ L t) (q ++ [s]) ∧
    w1._statechanged.tail_ref = appendSlot (q ++ [s]) := by
  unfold socket_create at h
  simp only at h
  generalize hw0 : w.setSock s
    { fd := fd, _flags := 0, _cb_write := false, _wreq_cnt := 0,
      _next_pending := some s, _next_statechanged := some s } = w0 at h
  have k0 : ∀ t, t ≠ s → w0.sock t = w.sock t := fun t hts => by
    rw [← hw0]; simp [World.setSock, Function.update_noteq hts]
  have n0 : ∀ t, nextStatechanged w0 t = if t = s then some s else nextStatechanged w t := by
    intro t
    by_cases hts : t = s
    · rw [if_pos hts, hts, ← hw0]; simp [nextStatechanged, World.setSock]
    · rw [if_neg hts]; unfold nextStatechanged; rw [k0 t hts]
  have hsocks0 : w0.socks = w.socks := by rw [← hw0]; rfl
  have hsc0 : w0._statechanged = w._statechanged := by rw [← hw0]; rfl
  cases hoc : on_create c s w0 with
  | error x => rw [hoc] at h; cases h
  | ok w2 =>
    rw [hoc] at h
    have := on_create_ok hoc
    subst this
    cases h
    have hsq : s ∉ q := fun hm => hs (hI.queued_live s hm)
    have hq0 : StatechangedQueue w2 q := by
      refine ⟨?_, by rw [hsc0]; exact ht⟩
      rw [hsc0]
      refine Chain.congr_next (fun t htq => ?_) hI.chain
      rw [n0, if_neg (fun e : t = s => hsq (e ▸ htq))]
    have hself : nextStatechanged w2 s = some s := by rw [n0, if_pos rfl]
    have hlink := hq0.mark_unlinked hself
    obtain ⟨f1, _, _, f4, f5, f6⟩ := link_to_statechanged_frame s w2
    have hmem : ∀ t, t ∉ q ++ [s] → t ≠ s ∧ t ∉ q := fun t hm =>
      ⟨fun e => hm (by simp [e]), fun e => hm (by simp [e])⟩
    refine ⟨?_, hlink.2⟩
    refine
      { chain := hlink.1
        queued_live := fun t htq => ?_
        unlinked := fun t hLt hm => ?_
        slot_owner := fun fd2 t hslot => ?_
        settled := fun t hLt hm => ?_ }
    · rcases List.mem_append.mp htq with h1 | h1
      · exact Or.inr (hI.queued_live t h1)
      · exact Or.inl (by simpa using h1)
    · obtain ⟨hts, htq⟩ := hmem t hm
      have hLt2 : L t := hLt.resolve_left hts
      rw [f6 t hts (by rw [hsc0, ht]; exact appendSlot_ne_next_of_not_mem htq), n0, if_neg hts]
      exact hI.unlinked t hLt2 htq
    · rw [f1, hsocks0] at hslot
      obtain ⟨hLt, hfdt⟩ := hI.slot_owner fd2 t hslot
      have hts : t ≠ s := fun e => hs (e ▸ hLt)
      exact ⟨Or.inr hLt, by rw [f4, k0 t hts]; exact hfdt⟩
    · obtain ⟨hts, htq⟩ := hmem t hm
      have hLt2 : L t := hLt.resolve_left hts
      obtain ⟨hz, hown⟩ := hI.settled t hLt2 htq
      rw [f5, f4, f1, hsocks0, k0 t hts]
      exact ⟨hz, hown⟩

/-- Closing a socket in use keeps the invariant; the closed socket is in the
state-changed queue afterwards. -/
theorem LifeInv.close {c : Config} {w w1 : World} {L : Nat → Prop} {q : List Nat}
    {s : Nat} (hI : LifeInv c w L q) (ht : w._statechanged.tail_ref = appendSlot q)
    (hs : L s) (h : socket_close c s w = .ok w1) :
    ∃ q1, LifeInv c w1 L q1 ∧ w1._statechanged.tail_ref = appendSlot q1 := by
  unfold socket_close at h
  simp only at h
  cases hoc : on_close c s (w.setFlags s
      ((w.sock s)._flags ||| c.H2O_SOCKET_FLAG_IS_DISPOSED)) with
  | error x => rw [hoc] at h; cases h
  | ok w2 =>
    rw [hoc] at h
    cases h
    obtain ⟨hw2, _, _⟩ := on_close_ok hoc
    have k2 : ∀ t, t ≠ s → w2.sock t = w.sock t := fun t hts => by
      rw [hw2]; exact setFlags_sock_of_ne w s _ hts
    have fd2 : ∀ t, (w2.sock t).fd = (w.sock t).fd := fun t => by
      rw [hw2]; exact setFlags_fd w s _ t
    have n2 : nextStatechanged w2 = nextStatechanged w := by
      rw [hw2]; exact nextStatechanged_setFlags w s _
    have hsocks2 : w2.socks = w.socks := by rw [hw2]; rfl
    have hsc2 : w2._statechanged = w._statechanged := by rw [hw2]; rfl
    have hq2 : StatechangedQueue w2 q := ⟨by rw [n2, hsc2]; exact hI.chain, by rw [hsc2]; exact ht⟩
    obtain ⟨f1, _, _, f4, f5, f6⟩ := link_to_statechanged_frame s w2
    -- the queue after marking the socket
    have hq1 : ∃ q1, StatechangedQueue (h2o_socket__link_to_statechanged s w2) q1 ∧ s ∈ q1 ∧
        (∀ t, t ∈ q1 → t ∈ q ∨ t = s) ∧ (∀ t, t ∈ q → t ∈ q1) := by
      by_cases hself : nextStatechanged w2 s = some s
      · exact ⟨q ++ [s], hq2.mark_unlinked hself, by simp,
          fun t hm => by simpa using hm, fun t hm => by simp [hm]⟩
      · rw [link_to_statechanged_of_linked hself]
        refine ⟨q, hq2, ?_, fun t hm => Or.inl hm, fun t hm => hm⟩
        by_contra hsq
        exact hself (by rw [n2]; exact hI.unlinked s hs hsq)
    obtain ⟨q1, hlink, hsq1, hsub, hsup⟩ := hq1
    refine ⟨q1, ?_, hlink.2⟩
    have hout : ∀ t, t ∉ q1 → t ≠ s ∧ t ∉ q := fun t hm =>
      ⟨fun e => hm (e ▸ hsq1), fun e => hm (hsup t e)⟩
    refine
      { chain := hlink.1
        queued_live := fun t htq => ?_
        unlinked := fun t hLt hm => ?_
        slot_owner := fun fdx t hslot => ?_
        settled := fun t hLt hm => ?_ }
    · rcases hsub t htq with h1 | h1
      · exact hI.queued_live t h1
      · exact h1 ▸ hs
    · obtain ⟨hts, htq⟩ := hout t hm
      rw [f6 t hts (by rw [hsc2, ht]; exact appendSlot_ne_next_of_not_mem htq), n2]
      exact hI.unlinked t hLt htq
    · rw [f1, hsocks2] at hslot
      obtain ⟨hLt, hfdt⟩ := hI.slot_owner fdx t hslot
      exact ⟨hLt, by rw [f4, fd2]; exact hfdt⟩
    · obtain ⟨hts, htq⟩ := hout t hm
      obtain ⟨hz, hown⟩ := hI.settled t hLt htq
      rw [f5, f4, f1, hsocks2, k2 t hts]
      exact ⟨hz, hown⟩

/-- Every operation keeps the invariant. -/
theorem Sys.step_inv {c : Config} {cb : Callbacks}
    (hpr : c.H2O_SOCKET_FLAG_IS_POLLED_FOR_READ &&& c.H2O_SOCKET_FLAG_IS_DISPOSED = 0)
    (hpw : c.H2O_SOCKET_FLAG_IS_POLLED_FOR_WRITE &&& c.H2O_SOCKET_FLAG_IS_DISPOSED = 0)
    {σ σ1 : Sys} (op : Op)
    (hI : ∃ q, LifeInv c σ.w (fun t => t ∈ σ.live) q ∧ σ.w._statechanged.tail_ref = appendSlot q)
    (h : σ.step c cb op = .ok σ1) :
    ∃ q, LifeInv c σ1.w (fun t => t ∈ σ1.live) q ∧
      σ1.w._statechanged.tail_ref = appendSlot q := by
  obtain ⟨q, hq, ht⟩ := hI
  cases op with
  | create s fd =>
    simp only [Sys.step] at h
    by_cases hs : s ∈ σ.live
    · rw [if_pos hs] at h; cases h
    · rw [if_neg hs] at h
      cases hc : socket_create c s fd σ.w with
      | error x => rw [hc] at h; cases h
      | ok w1 =>
        rw [hc] at h
        cases h
        obtain ⟨h1, h2⟩ := LifeInv.create hq ht hs hc
        exact ⟨q ++ [s], h1.congr_live (fun t => List.mem_cons), h2⟩
  | close s =>
    simp only [Sys.step] at h
    by_cases hs : s ∈ σ.live
    · rw [if_pos hs] at h
      cases hc : socket_close c s σ.w with
      | error x => rw [hc] at h; cases h
      | ok w1 =>
        rw [hc] at h
        cases h
        exact LifeInv.close hq ht hs hc
    · rw [if_neg hs] at h; cases h
  | reconcile fuel =>
    simp only [Sys.step] at h
    cases hu : update_fdset c cb fuel σ.w with
    | error x => rw [hu] at h; cases h
    | ok r =>
      obtain ⟨w1, e1⟩ := r
      rw [hu] at h
      cases h
      unfold update_fdset at hu
      cases hl : update_fdset_loop c cb fuel σ.w with
      | error x => rw [hl] at hu; cases hu
      | ok r2 =>
        obtain ⟨w2, e2⟩ := r2
        rw [hl] at hu
        cases hu
        have hloop := LifeInv.loop hpr hpw fuel σ.w w2 _ q _ hq hl
        refine ⟨[], ?_, rfl⟩
        show LifeInv c
          { w2 with _statechanged := { w2._statechanged with tail_ref := SlotRef.head } }
          (fun t => t ∈ List.filter (fun s => decide (s ∉ freed e1)) σ.live) []
        have hw : LifeInv c
            { w2 with _statechanged := { w2._statechanged with tail_ref := SlotRef.head } }
            (fun t => t ∈ σ.live ∧ t ∉ freed e1) [] := LifeInv.of_eq hloop rfl rfl rfl
        refine hw.congr_live (fun t => ?_)
        simp [List.mem_filter]

/-- Every sequence of operations keeps the invariant. -/
theorem Sys.run_inv {c : Config} {cb : Callbacks}
    (hpr : c.H2O_SOCKET_FLAG_IS_POLLED_FOR_READ &&& c.H2O_SOCKET_FLAG_IS_DISPOSED = 0)
    (hpw : c.H2O_SOCKET_FLAG_IS_POLLED_FOR_WRITE &&& c.H2O_SOCKET_FLAG_IS_DISPOSED = 0) :
    ∀ (ops : List Op) (σ σ1 : Sys),
      (∃ q, LifeInv c σ.w (fun t => t ∈ σ.live) q ∧
        σ.w._statechanged.tail_ref = appendSlot q) →
      Sys.run c cb ops σ = .ok σ1 →
      ∃ q, LifeInv c σ1.w (fun t => t ∈ σ1.live) q ∧
        σ1.w._statechanged.tail_ref = appendSlot q
  | [], σ, σ1, hI, h => by
    rw [Sys.run] at h
    cases h
    exact hI
  | op :: ops, σ, σ1, hI, h => by
    rw [Sys.run] at h
    cases hs : σ.step c cb op with
    | error x => rw [hs] at h; cases h
    | ok σ2 =>
      rw [hs] at h
      exact Sys.run_inv hpr hpw ops σ2 σ1 (Sys.step_inv hpr hpw op hI hs) h

theorem Sys.fresh_inv (c : Config) (heap : Nat → h2o_socket_t) :
    ∃ q, LifeInv c (Sys.fresh heap).w (fun t => t ∈ (Sys.fresh heap).live) q ∧
      (Sys.fresh heap).w._statechanged.tail_ref = appendSlot q :=
  ⟨[], { chain := rfl
         queued_live := fun _ h => absurd h (List.not_mem_nil _)
         unlinked := fun _ h _ => absurd h (List.not_mem_nil _)
         slot_owner := fun _ _ h => by cases h
         settled := fun _ h _ => absurd h (List.not_mem_nil _) }, rfl⟩

/-- C10, counterexample: after the creation of socket `0` for descriptor `3`
on a fresh loop, the socket owns descriptor `3` and is not disposed, and the
table slot `3` is empty; after that socket was reconciled and then closed, no
socket that is not disposed owns descriptor `3`, and the table slot `3` is
not empty. -/
theorem slot_lags_behind_counterexample :
    returned exCreated = true ∧
    (sysOf exCreated (Sys.fresh (exHeap (fun _ => 0)))).w.socks 3 = none ∧
    (sysOf exCreated (Sys.fresh (exHeap (fun _ => 0)))).owned exConfig 3 ∧
    returned exClosed = true ∧
    (sysOf exClosed (Sys.fresh (exHeap (fun _ => 0)))).w.socks 3 = some 0 ∧
    ¬ (sysOf exClosed (Sys.fresh (exHeap (fun _ => 0)))).owned exConfig 3 := by
  decide

/-- C10, amended: in every state reached from a freshly created loop by
creations, closures and reconciliations in which the state-changed queue is
empty (every creation and closure has been reconciled), the table slot of a
descriptor is non-empty if and only if a socket that is not disposed
currently owns that descriptor. The POLLED flags are assumed not to overlap
the DISPOSED flag. -/
theorem slot_iff_owner_when_reconciled (c : Config) (cb : Callbacks)
    (hpr : c.H2O_SOCKET_FLAG_IS_POLLED_FOR_READ &&& c.H2O_SOCKET_FLAG_IS_DISPOSED = 0)
    (hpw : c.H2O_SOCKET_FLAG_IS_POLLED_FOR_WRITE &&& c.H2O_SOCKET_FLAG_IS_DISPOSED = 0)
    (heap : Nat → h2o_socket_t) (ops : List Op) (σ : Sys)
    (hrun : Sys.run c cb ops (Sys.fresh heap) = .ok σ)
    (hempty : σ.w._statechanged.head = none) (fd : Nat) :
    σ.w.socks fd ≠ none ↔ σ.owned c fd := by
  obtain ⟨q, hI, _⟩ := Sys.run_inv hpr hpw ops _ σ (Sys.fresh_inv c heap) hrun
  have hq : q = [] := by
    cases q with
    | nil => rfl
    | cons s q => have := hI.chain.1; rw [hempty] at this; cases this
  subst hq
  constructor
  · intro hne
    cases hs : σ.w.socks fd with
    | none => exact absurd hs hne
    | some s =>
      obtain ⟨hL, hfd⟩ := hI.slot_owner fd s hs
      exact ⟨s, hL, hfd, (hI.settled s hL (List.not_mem_nil _)).1⟩
  · rintro ⟨s, hL, hfd, _⟩
    have := (hI.settled s hL (List.not_mem_nil _)).2
    rw [hfd] at this
    rw [this]
    simp

/-- Witness of the amended C10: socket `0` was created, reconciled, closed
and released, socket `1` was created for descriptor `5` and reconciled. -/
theorem slot_iff_owner_when_reconciled_witness :
    returned exSettled = true ∧
    (sysOf exSettled (Sys.fresh (exHeap (fun _ => 0)))).live = [1] ∧
    (sysOf exSettled (Sys.fresh (exHeap (fun _ => 0)))).w.socks 3 = none ∧
    (sysOf exSettled (Sys.fresh (exHeap (fun _ => 0)))).w.socks 5 = some 1 ∧
    ((sysOf exSettled (Sys.fresh (exHeap (fun _ => 0)))).w.socks 5 ≠ none ↔
      (sysOf exSettled (Sys.fresh (exHeap (fun _ => 0)))).owned exConfig 5) :=
  ⟨by decide, by decide, by decide, by decide,
    slot_iff_owner_when_reconciled exConfig idleCallbacks (by decide) (by decide)
      (exHeap (fun _ => 0))
      [Op.create 0 3, Op.reconcile 1, Op.create 1 5, Op.close 0, Op.reconcile 2]
      (sysOf exSettled (Sys.fresh (exHeap (fun _ => 0)))) (by rfl) (by decide) 5⟩

/-! ## What one iteration of `update_fdset` computes -/

theorem update_fdset_read_eq (c : Config) (cb : Callbacks) (s fd : Nat) (w : World) :
    (update_fdset_read c cb s fd w).sock s = afterReadSock c cb (w.sock s) ∧
    (update_fdset_read c cb s fd w).readfds =
      (if cb.h2o_socket_is_reading (w.sock s) then insert fd w.readfds
       else w.readfds.erase fd) ∧
    (update_fdset_read c cb s fd w).writefds = w.writefds ∧
    (update_fdset_read c cb s fd w)._pending = w._pending := by
  unfold update_fdset_read afterReadSock
  by_cases h : cb.h2o_socket_is_reading (w.sock s) = true
  · rw [if_pos h, if_pos h, if_pos h]
    exact ⟨setFlags_sock_self _ _ _, rfl, rfl, rfl⟩
  · rw [if_neg h, if_neg h, if_neg h]
    exact ⟨setFlags_sock_self _ _ _, rfl, rfl, rfl⟩

theorem update_fdset_write_eq (c : Config) (cb : Callbacks) (s fd : Nat) (w : World) :
    (update_fdset_write c cb s fd w).sock s = afterWriteSock c cb (w.sock s) ∧
    (update_fdset_write c cb s fd w).writefds =
      (if cb.h2o_socket_is_writing (w.sock s) then insert fd w.writefds
       else w.writefds.erase fd) ∧
    (update_fdset_write c cb s fd w).readfds = w.readfds ∧
    (update_fdset_write c cb s fd w)._pending = w._pending := by
  unfold update_fdset_write afterWriteSock
  by_cases h : cb.h2o_socket_is_writing (w.sock s) = true
  · rw [if_pos h, if_pos h, if_pos h]
    exact ⟨setFlags_sock_self _ _ _, rfl, rfl, rfl⟩
  · rw [if_neg h, if_neg h, if_neg h]
    exact ⟨setFlags_sock_self _ _ _, rfl, rfl, rfl⟩

/-- What lines 91-108 of `update_fdset` compute. -/
theorem update_fdset_interest_eq (c : Config) (cb : Callbacks) (s fd : Nat) (w : World) :
    (update_fdset_interest c cb s fd w).sock s
      = afterWriteSock c cb (afterReadSock c cb (w.sock s)) ∧
    (update_fdset_interest c cb s fd w).readfds =
      (if cb.h2o_socket_is_reading (w.sock s) then insert fd w.readfds
       else w.readfds.erase fd) ∧
    (update_fdset_interest c cb s fd w).writefds =
      (if cb.h2o_socket_is_writing (afterReadSock c cb (w.sock s)) then insert fd w.writefds
       else w.writefds.erase fd) ∧
    (update_fdset_interest c cb s fd w)._pending = w._pending := by
  unfold update_fdset_interest
  obtain ⟨r1, r2, r3, r4⟩ := update_fdset_read_eq c cb s fd w
  obtain ⟨w1, w2, w3, w4⟩ := update_fdset_write_eq c cb s fd (update_fdset_read c cb s fd w)
  refine ⟨by rw [w1, r1], by rw [w3, r2], by rw [w2, r1, r3], by rw [w4, r4]⟩

theorem detach_statechanged_sock (s : Nat) (w : World) :
    (detach_statechanged s w).sock s = detachedSock w s ∧
    (∀ t, t ≠ s → (detach_statechanged s w).sock t = w.sock t) ∧
    (detach_statechanged s w).readfds = w.readfds ∧
    (detach_statechanged s w).writefds = w.writefds ∧
    (detach_statechanged s w)._pending = w._pending := by
  unfold detach_statechanged detachedSock World.setNextStatechanged World.setSock
  refine ⟨by simp, fun t ht => by simp [Function.update_noteq ht], rfl, rfl, rfl⟩

/-- What one iteration of the loop of `update_fdset` computes, besides what
`update_fdset_step_spec` tells: the struct of the socket, the two interest
sets, and what is left alone. -/
theorem update_fdset_step_eq (c : Config) (cb : Callbacks) (s : Nat) (w w1 : World)
    (e1 : List Event) (h : update_fdset_step c cb s w = .ok (w1, e1)) :
    w1._pending = w._pending ∧
    (∀ t, t ≠ s → w1.sock t = w.sock t) ∧
    (((w.sock s)._flags &&& c.H2O_SOCKET_FLAG_IS_DISPOSED ≠ 0 ∧
        w1.sock s = detachedSock w s ∧ w1.readfds = w.readfds ∧ w1.writefds = w.writefds) ∨
     ((w.sock s)._flags &&& c.H2O_SOCKET_FLAG_IS_DISPOSED = 0 ∧
        w1.sock s = afterWriteSock c cb (afterReadSock c cb (detachedSock w s)) ∧
        w1.readfds =
          (if cb.h2o_socket_is_reading (detachedSock w s) then insert (w.sock s).fd w.readfds
           else w.readfds.erase (w.sock s).fd) ∧
        w1.writefds =
          (if cb.h2o_socket_is_writing (afterReadSock c cb (detachedSock w s)) then
            insert (w.sock s).fd w.writefds
           else w.writefds.erase (w.sock s).fd))) := by
  unfold update_fdset_step update_fdset_state at h
  obtain ⟨d1, d2, d3, d4, d5⟩ := detach_statechanged_sock s w
  obtain ⟨_, _, _, g4, g5⟩ := detach_statechanged_spec s w
  have hfd : ((detach_statechanged s w).sock s).fd = (w.sock s).fd := g4 s
  have hfl : ((detach_statechanged s w).sock s)._flags = (w.sock s)._flags := g5 s
  generalize detach_statechanged s w = w2 at h d1 d2 d3 d4 d5 hfd hfl
  simp only at h
  rw [hfd, hfl] at h
  by_cases hdis : (w.sock s)._flags &&& c.H2O_SOCKET_FLAG_IS_DISPOSED ≠ 0
  · rw [if_pos hdis] at h
    split at h
    · split at h
      · cases h
        exact ⟨d5, d2, Or.inl ⟨hdis, d1, d3, d4⟩⟩
      · cases h
    · cases h
  · rw [if_neg hdis] at h
    have hz : (w.sock s)._flags &&& c.H2O_SOCKET_FLAG_IS_DISPOSED = 0 := not_not.mp hdis
    split at h
    · split at h
      · cases h
        obtain ⟨i1, i2, i3, i4⟩ :=
          update_fdset_interest_eq c cb s (w.sock s).fd (w2.setSlot (w.sock s).fd (some s))
        obtain ⟨_, _, _, _, j5, _⟩ :=
          update_fdset_interest_frame c cb s (w.sock s).fd (w2.setSlot (w.sock s).fd (some s))
        have hs2 : (w2.setSlot (w.sock s).fd (some s)).sock = w2.sock := rfl
        rw [hs2, d1] at i1 i2 i3
        refine ⟨i4.trans d5, fun t ht => (j5 t ht).trans (d2 t ht), Or.inr ⟨hz, i1, ?_, ?_⟩⟩
        · rw [i2]; show (if _ then insert _ w2.readfds else w2.readfds.erase _) = _; rw [d3]
        · rw [i3]; show (if _ then insert _ w2.writefds else w2.writefds.erase _) = _; rw [d4]
      · split at h
        · cases h
          obtain ⟨i1, i2, i3, i4⟩ := update_fdset_interest_eq c cb s (w.sock s).fd w2
          obtain ⟨_, _, _, _, j5, _⟩ := update_fdset_interest_frame c cb s (w.sock s).fd w2
          rw [d1] at i1 i2 i3
          refine ⟨i4.trans d5, fun t ht => (j5 t ht).trans (d2 t ht), Or.inr ⟨hz, i1, ?_, ?_⟩⟩
          · rw [i2, d3]
          · rw [i3, d4]
        · cases h
    · cases h

/-! ## The wait of `proceed` -/

theorem or_and_of_disjoint {m r : Nat} (x : Nat) (h : m &&& r = 0) :
    (x ||| m) &&& r = x &&& r := by
  rw [and_eq_zero_iff_testBit] at h
  apply Nat.eq_of_testBit_eq
  intro i
  have h1 := h i
  rw [Nat.testBit_and, Nat.testBit_or, Nat.testBit_and]
  revert h1
  cases x.testBit i <;> cases m.testBit i <;> cases r.testBit i <;> simp

theorem clearFlag_and_of_disjoint {m r : Nat} (x : Nat) (h : m &&& r = 0) :
    clearFlag x m &&& r = x &&& r := by
  rw [and_eq_zero_iff_testBit] at h
  apply Nat.eq_of_testBit_eq
  intro i
  have h1 := h i
  rw [Nat.testBit_and, testBit_clearFlag, Nat.testBit_and]
  revert h1
  cases x.testBit i <;> cases m.testBit i <;> cases r.testBit i <;> simp

/-- One iteration of the loop of `update_fdset` changes no flag bit outside
the two POLLED masks, and leaves the pending links alone. -/
theorem update_fdset_step_masked (c : Config) (cb : Callbacks) (s : Nat) (w w1 : World)
    (e1 : List Event) (h : update_fdset_step c cb s w = .ok (w1, e1)) :
    w1._pending = w._pending ∧ nextPending w1 = nextPending w ∧
    (∀ t, (w1.sock t)._cb_write = (w.sock t)._cb_write ∧
      (w1.sock t)._wreq_cnt = (w.sock t)._wreq_cnt) ∧
    (∀ r, c.H2O_SOCKET_FLAG_IS_POLLED_FOR_READ &&& r = 0 →
      c.H2O_SOCKET_FLAG_IS_POLLED_FOR_WRITE &&& r = 0 →
      ∀ t, (w1.sock t)._flags &&& r = (w.sock t)._flags &&& r) := by
  obtain ⟨h1, h2, h3⟩ := update_fdset_step_eq c cb s w w1 e1 h
  have hsame : ∀ t, (w1.sock t)._next_pending = (w.sock t)._next_pending ∧
      (w1.sock t)._cb_write = (w.sock t)._cb_write ∧
      (w1.sock t)._wreq_cnt = (w.sock t)._wreq_cnt := by
    intro t
    by_cases ht : t = s
    · subst ht
      rcases h3 with ⟨_, hs, _, _⟩ | ⟨_, hs, _, _⟩
      · rw [hs]; exact ⟨rfl, rfl, rfl⟩
      · rw [hs]; exact ⟨rfl, rfl, rfl⟩
    · rw [h2 t ht]; exact ⟨rfl, rfl, rfl⟩
  refine ⟨h1, funext fun t => (hsame t).1, fun t => (hsame t).2, fun r hr hw t => ?_⟩
  by_cases ht : t = s
  · subst ht
    rcases h3 with ⟨_, hs, _, _⟩ | ⟨_, hs, _, _⟩
    · rw [hs]; rfl
    · rw [hs]
      have e1 : ∀ x : h2o_socket_t, (afterReadSock c cb x)._flags &&& r = x._flags &&& r := by
        intro x
        unfold afterReadSock
        by_cases hx : cb.h2o_socket_is_reading x = true
        · simp only [hx, if_true]; exact or_and_of_disjoint _ hr
        · simp only [hx]; exact clearFlag_and_of_disjoint _ hr
      have e2 : ∀ x : h2o_socket_t, (afterWriteSock c cb x)._flags &&& r = x._flags &&& r := by
        intro x
        unfold afterWriteSock
        by_cases hx : cb.h2o_socket_is_writing x = true
        · simp only [hx, if_true]; exact or_and_of_disjoint _ hw
        · simp only [hx]; exact clearFlag_and_of_disjoint _ hw
      rw [e2, e1]
      rfl
  · rw [h2 t ht]

/-- The loop of `update_fdset` changes no flag bit outside the two POLLED
masks, leaves the pending queue alone, and only records calls of `free`. -/
theorem update_fdset_loop_masked (c : Config) (cb : Callbacks) :
    ∀ (fuel : Nat) (w w1 : World) (e1 : List Event),
      update_fdset_loop c cb fuel w = .ok (w1, e1) →
      w1._pending = w._pending ∧ nextPending w1 = nextPending w ∧
      (∀ t, (w1.sock t)._cb_write = (w.sock t)._cb_write ∧
        (w1.sock t)._wreq_cnt = (w.sock t)._wreq_cnt) ∧
      (∀ r, c.H2O_SOCKET_FLAG_IS_POLLED_FOR_READ &&& r = 0 →
        c.H2O_SOCKET_FLAG_IS_POLLED_FOR_WRITE &&& r = 0 →
        ∀ t, (w1.sock t)._flags &&& r = (w.sock t)._flags &&& r) ∧
      (∀ e ∈ e1, e.isFree = true)
  | 0, w, w1, e1, h => by
    rw [update_fdset_loop] at h
    cases hh : w._statechanged.head with
    | none =>
      rw [hh] at h; cases h
      exact ⟨rfl, rfl, fun _ => ⟨rfl, rfl⟩, fun _ _ _ _ => rfl, fun _ he => by cases he⟩
    | some s => rw [hh] at h; cases h
  | fuel + 1, w, w1, e1, h => by
    rw [update_fdset_loop] at h
    cases hh : w._statechanged.head with
    | none =>
      rw [hh] at h; cases h
      exact ⟨rfl, rfl, fun _ => ⟨rfl, rfl⟩, fun _ _ _ _ => rfl, fun _ he => by cases he⟩
    | some s =>
      rw [hh] at h
      simp only at h
      cases hs : update_fdset_step c cb s w with
      | error x => rw [hs] at h; cases h
      | ok r1 =>
        obtain ⟨wa, ea⟩ := r1
        rw [hs] at h
        simp only at h
        cases hl : update_fdset_loop c cb fuel wa with
        | error x => rw [hl] at h; cases h
        | ok r2 =>
          obtain ⟨wb, eb⟩ := r2
          rw [hl] at h
          cases h
          obtain ⟨a1, a2, a3, a4⟩ := update_fdset_step_masked c cb s w wa ea hs
          obtain ⟨b1, b2, b3, b4, b5⟩ := update_fdset_loop_masked c cb fuel wa _ _ hl
          obtain ⟨_, _, _, _, _, sE⟩ := update_fdset_step_spec c cb s w wa ea hs
          refine ⟨b1.trans a1, b2.trans a2,
            fun t => ⟨(b3 t).1.trans (a3 t).1, (b3 t).2.trans (a3 t).2⟩,
            fun r hr hw t => (b4 r hr hw t).trans (a4 r hr hw t), fun e he => ?_⟩
          rcases List.mem_append.mp he with he1 | he2
          · rcases sE with ⟨_, _, _, hev⟩ | ⟨_, _, _, hev, _⟩
            · rw [hev] at he1
              have : e = Event.free s := by simpa using he1
              rw [this]; rfl
            · rw [hev] at he1; cases he1
          · exact b5 e he2

/-- `update_fdset` changes no flag bit outside the two POLLED masks, leaves
the pending queue alone, and only records calls of `free`. -/
theorem update_fdset_masked (c : Config) (cb : Callbacks) (fuel : Nat) (w w1 : World)
    (e1 : List Event) (h : update_fdset c cb fuel w = .ok (w1, e1)) :
    w1._pending = w._pending ∧ nextPending w1 = nextPending w ∧
    (∀ t, (w1.sock t)._cb_write = (w.sock t)._cb_write ∧
      (w1.sock t)._wreq_cnt = (w.sock t)._wreq_cnt) ∧
    (∀ r, c.H2O_SOCKET_FLAG_IS_POLLED_FOR_READ &&& r = 0 →
      c.H2O_SOCKET_FLAG_IS_POLLED_FOR_WRITE &&& r = 0 →
      ∀ t, (w1.sock t)._flags &&& r = (w.sock t)._flags &&& r) ∧
    (∀ e ∈ e1, e.isFree = true) := by
  unfold update_fdset at h
  cases hl : update_fdset_loop c cb fuel w with
  | error x => rw [hl] at h; cases h
  | ok r2 =>
    obtain ⟨wb, eb⟩ := r2
    rw [hl] at h
    cases h
    exact update_fdset_loop_masked c cb fuel w wb _ hl

/-- The loop around `select` retries while the result is an interruption and
stops at the first result that is not: one wait per result consumed, all with
the same scratch sets and timeout. -/
theorem proceed_select_eq (c : Config) (w : World) (m : Nat) (r : SelectResult)
    (rest : List SelectResult) (hr : ¬ Interrupted c r) :
    ∀ (pre : List SelectResult), (∀ x ∈ pre, Interrupted c x) →
      proceed_select c w m (pre ++ r :: rest) =
        .ok (r, List.replicate (pre.length + 1)
          (Event.select w.readfds w.writefds (m / 1000) (m % 1000 * 1000 % 2 ^ 64)))
  | [], _ => by
    rw [List.nil_append, proceed_select]
    rw [if_neg (show ¬ (r.ret = -1 ∧ r.errno = c.EINTR) from hr)]
    rfl
  | x :: pre, hpre => by
    have hx : Interrupted c x := hpre x (List.mem_cons_self _ _)
    rw [List.cons_append, proceed_select]
    rw [if_pos (show x.ret = -1 ∧ x.errno = c.EINTR from hx), proceed_select_eq c w m r rest hr pre
      (fun y hy => hpre y (List.mem_cons_of_mem _ hy))]
    rfl

/-- Every event of the loop around `select` is the same call of `select`. -/
theorem proceed_select_events (c : Config) (w : World) (m : Nat) :
    ∀ (sel : List SelectResult) (r : SelectResult) (e : List Event),
      proceed_select c w m sel = .ok (r, e) →
      ∀ x ∈ e, x = Event.select w.readfds w.writefds (m / 1000) (m % 1000 * 1000 % 2 ^ 64)
  | [], r, e, h => by rw [proceed_select] at h; cases h
  | y :: sel, r, e, h => by
    rw [proceed_select] at h
    by_cases hy : y.ret = -1 ∧ y.errno = c.EINTR
    · rw [if_pos hy] at h
      cases h2 : proceed_select c w m sel with
      | error x => rw [h2] at h; cases h
      | ok r2 =>
        obtain ⟨ra, ea⟩ := r2
        rw [h2] at h
        cases h
        intro x hx
        rcases List.mem_cons.mp hx with hx1 | hx1
        · exact hx1
        · exact proceed_select_events c w m sel _ _ h2 x hx1
    · rw [if_neg hy] at h
      cases h
      intro x hx
      simpa using hx

/-! ## The two halves of a scan step -/

theorem proceed_scan_fd_halves (c : Config) (cb : Callbacks) (rfds wfds : Finset Nat)
    (fd : Nat) (w : World) :
    proceed_scan_fd c cb rfds wfds fd w =
      match proceed_scan_read c rfds fd w with
      | .error x => .error x
      | .ok w1 => proceed_scan_write c cb wfds fd w1 := rfl

theorem setNextPending_frame (w : World) (s : Nat) (p : Ptr) :
    (w.setNextPending s p).socks = w.socks ∧
    (w.setNextPending s p)._statechanged = w._statechanged ∧
    (w.setNextPending s p).readfds = w.readfds ∧
    (w.setNextPending s p).writefds = w.writefds ∧
    (∀ t, ((w.setNextPending s p).sock t)._flags = (w.sock t)._flags ∧
      ((w.setNextPending s p).sock t).fd = (w.sock t).fd ∧
      ((w.setNextPending s p).sock t)._cb_write = (w.sock t)._cb_write ∧
      ((w.setNextPending s p).sock t)._wreq_cnt = (w.sock t)._wreq_cnt ∧
      ((w.setNextPending s p).sock t)._next_statechanged = (w.sock t)._next_statechanged) := by
  refine ⟨rfl, rfl, rfl, rfl, fun t => ?_⟩
  unfold World.setNextPending World.setSock
  by_cases h : t = s
  · subst h; simp
  · simp [Function.update_noteq h]

/-- What `h2o_socket__link_to_pending` leaves alone: everything but the
pending queue and the `_next_pending` fields. -/
theorem link_to_pending_frame (s : Nat) (w : World) :
    (h2o_socket__link_to_pending s w).socks = w.socks ∧
    (h2o_socket__link_to_pending s w)._statechanged = w._statechanged ∧
    (h2o_socket__link_to_pending s w).readfds = w.readfds ∧
    (h2o_socket__link_to_pending s w).writefds = w.writefds ∧
    (∀ t, ((h2o_socket__link_to_pending s w).sock t)._flags = (w.sock t)._flags ∧
      ((h2o_socket__link_to_pending s w).sock t).fd = (w.sock t).fd ∧
      ((h2o_socket__link_to_pending s w).sock t)._cb_write = (w.sock t)._cb_write ∧
      ((h2o_socket__link_to_pending s w).sock t)._wreq_cnt = (w.sock t)._wreq_cnt ∧
      ((h2o_socket__link_to_pending s w).sock t)._next_statechanged
        = (w.sock t)._next_statechanged) := by
  unfold h2o_socket__link_to_pending
  by_cases hs : (w.sock s)._next_pending = some s
  · rw [if_pos hs]
    obtain ⟨a1, a2, a3, a4, a5⟩ := setNextPending_frame w s none
    cases htr : (w.setNextPending s none)._pending.tail_ref with
    | head =>
      simp only [htr]
      exact ⟨a1, a2, a3, a4, a5⟩
    | next u =>
      simp only [htr]
      obtain ⟨b1, b2, b3, b4, b5⟩ := setNextPending_frame (w.setNextPending s none) u (some s)
      refine ⟨b1.trans a1, b2.trans a2, b3.trans a3, b4.trans a4, fun t => ?_⟩
      obtain ⟨c1, c2, c3, c4, c5⟩ := b5 t
      obtain ⟨d1, d2, d3, d4, d5⟩ := a5 t
      exact ⟨c1.trans d1, c2.trans d2, c3.trans d3, c4.trans d4, c5.trans d5⟩
  · rw [if_neg hs]
    exact ⟨rfl, rfl, rfl, rfl, fun _ => ⟨rfl, rfl, rfl, rfl, rfl⟩⟩

/-- The readiness scan only records calls of the write-draining operation. -/
theorem proceed_scan_events (c : Config) (cb : Callbacks) (rfds wfds : Finset Nat) :
    ∀ (fds : List Nat) (w w1 : World) (e1 : List Event),
      proceed_scan c cb rfds wfds fds w = .ok (w1, e1) → ∀ e ∈ e1, e.isWritePending = true
  | [], w, w1, e1, h => by
    rw [proceed_scan] at h
    cases h
    intro e he
    cases he
  | fd :: fds, w, w1, e1, h => by
    rw [proceed_scan, proceed_scan_fd_halves] at h
    cases hr : proceed_scan_read c rfds fd w with
    | error x => rw [hr] at h; cases h
    | ok wr =>
      rw [hr] at h
      simp only at h
      cases hw : proceed_scan_write c cb wfds fd wr with
      | error x => rw [hw] at h; cases h
      | ok r1 =>
        obtain ⟨wa, ea⟩ := r1
        rw [hw] at h
        simp only at h
        cases h2 : proceed_scan c cb rfds wfds fds wa with
        | error x => rw [h2] at h; cases h
        | ok r2 =>
          obtain ⟨wb, eb⟩ := r2
          rw [h2] at h
          cases h
          intro e he
          rcases List.mem_append.mp he with he1 | he1
          · unfold proceed_scan_write at hw
            split at hw
            · split at hw
              · cases hw
              · split at hw
                · cases hw
                  rw [List.mem_singleton.mp he1]; rfl
                · cases hw; cases he1
            · cases hw; cases he1
          · exact proceed_scan_events c cb rfds wfds fds wa _ _ h2 e he1

/-- `proceed` once reconciliation and the wait are known. -/
theorem proceed_of_waited (c : Config) (cb : Callbacks) (sel : List SelectResult)
    (fuel m : Nat) (w w1 : World) (e1 e2 : List Event) (r : SelectResult)
    (hu : update_fdset c cb fuel w = .ok (w1, e1))
    (hs : proceed_select c w1 (waitMillis m) sel = .ok (r, e2)) :
    proceed c cb sel fuel m w =
      if r.ret = -1 then .ok (-1, w1, e1 ++ e2)
      else if r.ret > 0 then
        match proceed_scan c cb r.rfds r.wfds (List.range c.FD_SETSIZE) w1 with
        | .error x => .error x
        | .ok (w2, e3) => .ok (0, w2, e1 ++ e2 ++ e3)
      else .ok (0, w1, e1 ++ e2) := by
  unfold waitMillis at hs
  unfold proceed
  simp only [hu, hs]

theorem waits_of_free {es : List Event} (h : ∀ e ∈ es, e.isFree = true) : waits es = [] := by
  unfold waits
  rw [List.filter_eq_nil_iff]
  intro e he
  have := h e he
  cases e <;> simp_all [Event.isFree, Event.isSelect]

theorem waits_of_write_pending {es : List Event} (h : ∀ e ∈ es, e.isWritePending = true) :
    waits es = [] := by
  unfold waits
  rw [List.filter_eq_nil_iff]
  intro e he
  have := h e he
  cases e <;> simp_all [Event.isWritePending, Event.isSelect]

theorem writeDrains_of_free {es : List Event} (h : ∀ e ∈ es, e.isFree = true) :
    writeDrains es = [] := by
  unfold writeDrains
  rw [List.filter_eq_nil_iff]
  intro e he
  have := h e he
  cases e <;> simp_all [Event.isFree, Event.isWritePending]

theorem waits_replicate (n : Nat) (rf wf : Finset Nat) (a b : Nat) :
    waits (List.replicate n (Event.select rf wf a b))
      = List.replicate n (Event.select rf wf a b) := by
  unfold waits
  rw [List.filter_eq_self]
  intro e he
  rw [List.eq_of_mem_replicate he]
  rfl

theorem writeDrains_replicate (n : Nat) (rf wf : Finset Nat) (a b : Nat) :
    writeDrains (List.replicate n (Event.select rf wf a b)) = [] := by
  unfold writeDrains
  rw [List.filter_eq_nil_iff]
  intro e he
  rw [List.eq_of_mem_replicate he]
  simp [Event.isWritePending]

/-- What a call of `proceed` that returns is made of: a reconciliation, the
waits, and the scan if the last wait reported ready descriptors. -/
theorem proceed_ok_inv (c : Config) (cb : Callbacks) (sel : List SelectResult)
    (fuel m : Nat) (w w2 : World) (ret : Int) (e : List Event)
    (h : proceed c cb sel fuel m w = .ok (ret, w2, e)) :
    ∃ w1 e1 r e2 e3, update_fdset c cb fuel w = .ok (w1, e1) ∧
      proceed_select c w1 (waitMillis m) sel = .ok (r, e2) ∧
      e = e1 ++ e2 ++ e3 ∧ (∀ x ∈ e3, x.isWritePending = true) ∧
      (ret = -1 ↔ r.ret = -1) ∧ (ret = -1 ∨ ret = 0) ∧
      (r.ret ≤ 0 → w2 = w1 ∧ e3 = []) := by
  cases hu : update_fdset c cb fuel w with
  | error x =>
    unfold proceed at h
    simp only [hu] at h
    cases h
  | ok r1 =>
    obtain ⟨w1, e1⟩ := r1
    cases hs : proceed_select c w1 (waitMillis m) sel with
    | error x =>
      unfold waitMillis at hs
      unfold proceed at h
      simp only [hu, hs] at h
      cases h
    | ok r2 =>
      obtain ⟨r, e2⟩ := r2
      rw [proceed_of_waited c cb sel fuel m w w1 e1 e2 r hu hs] at h
      by_cases h1 : r.ret = -1
      · rw [if_pos h1] at h
        cases h
        exact ⟨_, _, _, _, [], rfl, hs, (List.append_nil _).symm,
          fun _ hx => absurd hx (List.not_mem_nil _),
          ⟨fun _ => h1, fun _ => rfl⟩, Or.inl rfl, fun _ => ⟨rfl, rfl⟩⟩
      · rw [if_neg h1] at h
        by_cases h2 : r.ret > 0
        · rw [if_pos h2] at h
          cases hsc : proceed_scan c cb r.rfds r.wfds (List.range c.FD_SETSIZE) w1 with
          | error x => rw [hsc] at h; cases h
          | ok r3 =>
            obtain ⟨w3, e3⟩ := r3
            rw [hsc] at h
            cases h
            exact ⟨_, _, _, _, _, rfl, hs, rfl,
              proceed_scan_events c cb r.rfds r.wfds _ w1 _ _ hsc,
              ⟨fun hc => absurd hc (by decide), fun hc => absurd hc h1⟩, Or.inr rfl,
              fun hle => absurd h2 (by omega)⟩
        · rw [if_neg h2] at h
          cases h
          exact ⟨_, _, _, _, [], rfl, hs, (List.append_nil _).symm,
            fun _ hx => absurd hx (List.not_mem_nil _),
            ⟨fun hc => absurd hc (by decide), fun hc => absurd hc h1⟩, Or.inr rfl,
            fun _ => ⟨rfl, rfl⟩⟩

/-- C14: when the results of `select` are `pre.length` interruptions followed
by a result `r` that is not an interruption, `proceed` performs exactly
`pre.length + 1` waits, each on copies of the interest sets as reconciliation
left them and with the same timeout, and the value it returns is `-1` if and
only if `r.ret` is `-1`; when `r.ret` is `-1` it does return `-1`, with the
world as reconciliation left it: the pending queue and the pending links are
those before the call, no flag bit outside the POLLED masks has changed, and
the write-draining operation was not invoked. -/
theorem proceed_retries_interrupted (c : Config) (cb : Callbacks) (fuel m : Nat)
    (w w1 : World) (e1 : List Event) (pre : List SelectResult) (r : SelectResult)
    (rest : List SelectResult)
    (hu : update_fdset c cb fuel w = .ok (w1, e1))
    (hpre : ∀ x ∈ pre, Interrupted c x) (hr : ¬ Interrupted c r) :
    (∀ ret w2 e, proceed c cb (pre ++ r :: rest) fuel m w = .ok (ret, w2, e) →
      waits e = List.replicate (pre.length + 1) (waitEvent w1 m) ∧
      (ret = -1 ↔ r.ret = -1)) ∧
    (r.ret = -1 →
      proceed c cb (pre ++ r :: rest) fuel m w
        = .ok (-1, w1, e1 ++ List.replicate (pre.length + 1) (waitEvent w1 m)) ∧
      w1._pending = w._pending ∧ nextPending w1 = nextPending w ∧
      (c.H2O_SOCKET_FLAG_IS_POLLED_FOR_READ &&& c.H2O_SOCKET_FLAG_IS_READ_READY = 0 →
        c.H2O_SOCKET_FLAG_IS_POLLED_FOR_WRITE &&& c.H2O_SOCKET_FLAG_IS_READ_READY = 0 →
        ∀ t, (w1.sock t)._flags &&& c.H2O_SOCKET_FLAG_IS_READ_READY
          = (w.sock t)._flags &&& c.H2O_SOCKET_FLAG_IS_READ_READY) ∧
      writeDrains (e1 ++ List.replicate (pre.length + 1) (waitEvent w1 m)) = []) ∧
    (r.ret ≠ -1 → r.ret ≤ 0 →
      proceed c cb (pre ++ r :: rest) fuel m w
        = .ok (0, w1, e1 ++ List.replicate (pre.length + 1) (waitEvent w1 m))) := by
  have hs : proceed_select c w1 (waitMillis m) (pre ++ r :: rest)
      = .ok (r, List.replicate (pre.length + 1) (waitEvent w1 m)) :=
    proceed_select_eq c w1 (waitMillis m) r rest hr pre hpre
  have hp := proceed_of_waited c cb (pre ++ r :: rest) fuel m w w1 e1 _ r hu hs
  obtain ⟨m1, m2, _, m4, m5⟩ := update_fdset_masked c cb fuel w w1 e1 hu
  refine ⟨fun ret w2 e h => ?_, fun h1 => ?_, fun h1 h2 => ?_⟩
  · obtain ⟨wa, ea, ra, eb, ec, ha, hb, he, hc, hiff, _, _⟩ :=
      proceed_ok_inv c cb _ fuel m w w2 ret e h
    rw [hu] at ha
    cases ha
    rw [hs] at hb
    cases hb
    refine ⟨?_, hiff⟩
    rw [he]
    unfold waits
    rw [List.filter_append, List.filter_append]
    have a1 : List.filter Event.isSelect e1 = [] := waits_of_free m5
    have a2 : List.filter Event.isSelect ec = [] := waits_of_write_pending hc
    have a3 : List.filter Event.isSelect (List.replicate (pre.length + 1) (waitEvent w1 m))
        = List.replicate (pre.length + 1) (waitEvent w1 m) := waits_replicate _ _ _ _ _
    rw [a1, a2, a3]
    simp
  · refine ⟨by rw [hp, if_pos h1], m1, m2, fun hr1 hr2 t => m4 _ hr1 hr2 t, ?_⟩
    unfold writeDrains
    rw [List.filter_append]
    have a1 : List.filter Event.isWritePending e1 = [] := writeDrains_of_free m5
    have a3 : List.filter Event.isWritePending
        (List.replicate (pre.length + 1) (waitEvent w1 m)) = [] :=
      writeDrains_replicate _ _ _ _ _
    rw [a1, a3]
    rfl
  · rw [hp, if_neg h1, if_neg (by omega)]

/-- Witness of C14: two interruptions and then a failure; three waits, and
`proceed` returns `-1`. -/
theorem proceed_retries_interrupted_witness :
    proceed exConfig idleCallbacks exInterruptedTwice 0 5000 exEmptyWorld
      = .ok (-1, worldOf (update_fdset exConfig idleCallbacks 0 exEmptyWorld) exEmptyWorld,
          outputOf (update_fdset exConfig idleCallbacks 0 exEmptyWorld) [] ++
          List.replicate 3
            (waitEvent (worldOf (update_fdset exConfig idleCallbacks 0 exEmptyWorld)
              exEmptyWorld) 5000)) :=
  ((proceed_retries_interrupted exConfig idleCallbacks 0 5000 exEmptyWorld
    (worldOf (update_fdset exConfig idleCallbacks 0 exEmptyWorld) exEmptyWorld)
    (outputOf (update_fdset exConfig idleCallbacks 0 exEmptyWorld) [])
    [{ ret := -1, errno := 4, rfds := ∅, wfds := ∅ },
     { ret := -1, errno := 4, rfds := ∅, wfds := ∅ }]
    { ret := -1, errno := 9, rfds := ∅, wfds := ∅ } [] (by rfl) (by decide) (by decide)).2.1
    (by decide)).1

/-- C15: every wait of `proceed` is given the timeout `tv_sec = c / 1000`,
`tv_usec = (c mod 1000) * 1000` where `c = min m (2^31 - 1)` and `m` is the
budget passed in; `tv_sec * 1000000 + tv_usec = 1000 * c`,
`tv_usec < 1000000`, `tv_sec ≤ 2147483`, and the product computed for
`tv_usec` stays below `2^64`, so that reducing it modulo `2^64` changes
nothing. This holds for every `m`, in particular for every `m < 2^64`. -/
theorem proceed_timeout_clamped (c : Config) (cb : Callbacks) (sel : List SelectResult)
    (fuel m : Nat) (w : World) :
    (∀ ret w2 e rf wf ts tu, proceed c cb sel fuel m w = .ok (ret, w2, e) →
      Event.select rf wf ts tu ∈ e →
      ts = min m (2 ^ 31 - 1) / 1000 ∧ tu = min m (2 ^ 31 - 1) % 1000 * 1000) ∧
    waitMillis m = min m (2 ^ 31 - 1) ∧
    min m (2 ^ 31 - 1) / 1000 * 1000000 + min m (2 ^ 31 - 1) % 1000 * 1000
      = 1000 * min m (2 ^ 31 - 1) ∧
    min m (2 ^ 31 - 1) % 1000 * 1000 < 1000000 ∧
    min m (2 ^ 31 - 1) / 1000 ≤ 2147483 ∧
    min m (2 ^ 31 - 1) % 1000 * 1000 < 2 ^ 64 ∧
    min m (2 ^ 31 - 1) % 1000 * 1000 % 2 ^ 64 = min m (2 ^ 31 - 1) % 1000 * 1000 := by
  have hwm : waitMillis m = min m (2 ^ 31 - 1) := by
    unfold waitMillis INT32_MAX
    split <;> omega
  refine ⟨?_, hwm, by omega, by omega, by omega, by omega, by omega⟩
  intro ret w2 e rf wf ts tu h hmem
  obtain ⟨w1, e1, r, e2, e3, hu, hs, he, hc, _, _, _⟩ :=
    proceed_ok_inv c cb sel fuel m w w2 ret e h
  obtain ⟨_, _, _, _, m5⟩ := update_fdset_masked c cb fuel w w1 e1 hu
  rw [he] at hmem
  rcases List.mem_append.mp hmem with h12 | h3
  · rcases List.mem_append.mp h12 with h1 | h2
    · have := m5 _ h1
      simp [Event.isFree] at this
    · have := proceed_select_events c w1 (waitMillis m) sel r e2 hs _ h2
      rw [hwm] at this
      injection this with _ _ h3 h4
      exact ⟨h3, by rw [h4]; omega⟩
  · have := hc _ h3
    simp [Event.isWritePending] at this

/-- Witness of C15 for the largest 64-bit budget: the wait is given
2147483 s and 647000 µs. -/
theorem proceed_timeout_clamped_witness :
    Event.select ∅ ∅ 2147483 647000 ∈
      eventsOf (proceed exConfig idleCallbacks exInterruptedTwice 0 (2 ^ 64 - 1) exEmptyWorld) ∧
    2147483 = min (2 ^ 64 - 1) (2 ^ 31 - 1) / 1000 ∧
    647000 = min (2 ^ 64 - 1) (2 ^ 31 - 1) % 1000 * 1000 :=
  ⟨by decide,
    (proceed_timeout_clamped exConfig idleCallbacks exInterruptedTwice 0 (2 ^ 64 - 1)
      exEmptyWorld).1 (-1)
      (finalOf (proceed exConfig idleCallbacks exInterruptedTwice 0 (2 ^ 64 - 1) exEmptyWorld)
        exEmptyWorld)
      (eventsOf (proceed exConfig idleCallbacks exInterruptedTwice 0 (2 ^ 64 - 1) exEmptyWorld))
      ∅ ∅ 2147483 647000 (by rfl) (by decide)⟩

/-! ## Disposed sockets and the order of the two halves of a scan step -/

theorem proceed_scan_read_of_slot (c : Config) (rfds : Finset Nat) (fd s : Nat) (w : World)
    (hslot : w.socks fd = some s) :
    proceed_scan_read c rfds fd w =
      if fd ∈ rfds ∧ (w.sock s)._flags ≠ c.H2O_SOCKET_FLAG_IS_DISPOSED then
        .ok (h2o_socket__link_to_pending s
          (w.setFlags s ((w.sock s)._flags ||| c.H2O_SOCKET_FLAG_IS_READ_READY)))
      else .ok w := by
  unfold proceed_scan_read
  by_cases hr : fd ∈ rfds
  · rw [if_pos hr, hslot]
    by_cases hf : (w.sock s)._flags ≠ c.H2O_SOCKET_FLAG_IS_DISPOSED
    · simp only [if_pos hf, if_pos (And.intro hr hf)]
    · simp only [if_neg hf, if_neg (fun hc : fd ∈ rfds ∧ _ => hf hc.2)]
  · rw [if_neg hr, if_neg (fun hc : fd ∈ rfds ∧ _ => hr hc.1)]

theorem proceed_scan_write_of_slot (c : Config) (cb : Callbacks) (wfds : Finset Nat)
    (fd s : Nat) (w : World) (hslot : w.socks fd = some s) :
    proceed_scan_write c cb wfds fd w =
      if fd ∈ wfds ∧ (w.sock s)._flags ≠ c.H2O_SOCKET_FLAG_IS_DISPOSED then
        .ok (cb.h2o_socket__write_pending s w, [Event.write_pending s (w.sock s)])
      else .ok (w, []) := by
  unfold proceed_scan_write
  by_cases hr : fd ∈ wfds
  · rw [if_pos hr, hslot]
    by_cases hf : (w.sock s)._flags ≠ c.H2O_SOCKET_FLAG_IS_DISPOSED
    · simp only [if_pos hf, if_pos (And.intro hr hf)]
    · simp only [if_neg hf, if_neg (fun hc : fd ∈ wfds ∧ _ => hf hc.2)]
  · rw [if_neg hr, if_neg (fun hc : fd ∈ wfds ∧ _ => hr hc.1)]

/-- C13, counterexample: socket `1` has the flags DISPOSED and
POLLED_FOR_READ and its descriptor is reported readable and writable; the
scan step sets READ_READY on it, appends it to the pending queue and invokes
the write-draining operation on it. -/
theorem scan_marks_disposed_counterexample :
    (exStaleWorld.sock 1)._flags &&& exConfig.H2O_SOCKET_FLAG_IS_DISPOSED ≠ 0 ∧
    (exStaleWorld.sock 1)._flags &&& exConfig.H2O_SOCKET_FLAG_IS_READ_READY = 0 ∧
    PendingQueue exStaleWorld [0] ∧
    returned exStaleRun = true ∧
    ((worldOf exStaleRun exStaleWorld).sock 1)._flags
      &&& exConfig.H2O_SOCKET_FLAG_IS_READ_READY ≠ 0 ∧
    PendingQueue (worldOf exStaleRun exStaleWorld) [0, 1] ∧
    outputOf exStaleRun [] =
      [Event.write_pending 1
        { fd := 1, _flags := 11, _cb_write := true, _wreq_cnt := 0,
          _next_pending := none, _next_statechanged := some 1 }] := by
  decide

/-- C13, amended: the scan step decides by comparing the whole flags word
with DISPOSED. A socket whose flags are exactly DISPOSED is left alone,
whether its descriptor is reported readable, writable or both: the world is
unchanged and nothing is invoked. A socket whose flags differ from DISPOSED,
even with the DISPOSED bit set, is marked READ_READY and linked when its
descriptor is reported readable, and write-drained when its descriptor is
reported writable. -/
theorem proceed_scan_skips_exactly_disposed (c : Config) (cb : Callbacks)
    (rfds wfds : Finset Nat) (fd s : Nat) (w : World) (hslot : w.socks fd = some s) :
    ((w.sock s)._flags = c.H2O_SOCKET_FLAG_IS_DISPOSED →
      proceed_scan_fd c cb rfds wfds fd w = .ok (w, [])) ∧
    ((w.sock s)._flags ≠ c.H2O_SOCKET_FLAG_IS_DISPOSED → fd ∈ rfds →
      proceed_scan_read c rfds fd w =
        .ok (h2o_socket__link_to_pending s
          (w.setFlags s ((w.sock s)._flags ||| c.H2O_SOCKET_FLAG_IS_READ_READY)))) ∧
    ((w.sock s)._flags ≠ c.H2O_SOCKET_FLAG_IS_DISPOSED → fd ∉ rfds → fd ∈ wfds →
      proceed_scan_fd c cb rfds wfds fd w =
        .ok (cb.h2o_socket__write_pending s w, [Event.write_pending s (w.sock s)])) := by
  refine ⟨fun hf => ?_, fun hf hr => ?_, fun hf hr hw => ?_⟩
  · rw [proceed_scan_fd_halves, proceed_scan_read_of_slot c rfds fd s w hslot,
      if_neg (fun hc : fd ∈ rfds ∧
        (w.sock s)._flags ≠ c.H2O_SOCKET_FLAG_IS_DISPOSED => hc.2 hf)]
    simp only
    rw [proceed_scan_write_of_slot c cb wfds fd s w hslot,
      if_neg (fun hc : fd ∈ wfds ∧
        (w.sock s)._flags ≠ c.H2O_SOCKET_FLAG_IS_DISPOSED => hc.2 hf)]
  · rw [proceed_scan_read_of_slot c rfds fd s w hslot, if_pos ⟨hr, hf⟩]
  · rw [proceed_scan_fd_halves, proceed_scan_read_of_slot c rfds fd s w hslot,
      if_neg (fun hc : fd ∈ rfds ∧ _ => hr hc.1)]
    simp only
    rw [proceed_scan_write_of_slot c cb wfds fd s w hslot, if_pos ⟨hw, hf⟩]

/-- Witness of the amended C13: socket `1` has the flags DISPOSED alone and
its descriptor is reported readable and writable; the scan step does
nothing. -/
theorem proceed_scan_skips_exactly_disposed_witness :
    proceed_scan_fd exConfig idleCallbacks {1} {1} 1 (exTabled (fun _ => 1))
      = .ok (exTabled (fun _ => 1), []) :=
  (proceed_scan_skips_exactly_disposed exConfig idleCallbacks {1} {1} 1 1
    (exTabled (fun _ => 1)) (by decide)).1 (by decide)

/-- C18: when a descriptor is reported readable and writable and its socket
is not disposed, the scan step first sets READ_READY on the socket and links
it, and then invokes the write-draining operation, once, on the world so
obtained: the socket it is handed has READ_READY set and, if the pending
queue was well formed, a `_next_pending` that is not the self-reference, the
socket being in the queue. DISPOSED and READ_READY are assumed to be
non-zero masks that do not overlap. -/
theorem proceed_scan_read_before_write (c : Config) (cb : Callbacks)
    (rfds wfds : Finset Nat) (fd s : Nat) (w : World)
    (hD : c.H2O_SOCKET_FLAG_IS_DISPOSED ≠ 0) (hR : c.H2O_SOCKET_FLAG_IS_READ_READY ≠ 0)
    (hRD : c.H2O_SOCKET_FLAG_IS_READ_READY &&& c.H2O_SOCKET_FLAG_IS_DISPOSED = 0)
    (hr : fd ∈ rfds) (hw : fd ∈ wfds) (hslot : w.socks fd = some s)
    (hnd : (w.sock s)._flags &&& c.H2O_SOCKET_FLAG_IS_DISPOSED = 0) :
    proceed_scan_fd c cb rfds wfds fd w =
      .ok (cb.h2o_socket__write_pending s
            (h2o_socket__link_to_pending s
              (w.setFlags s ((w.sock s)._flags ||| c.H2O_SOCKET_FLAG_IS_READ_READY))),
           [Event.write_pending s
            ((h2o_socket__link_to_pending s
              (w.setFlags s ((w.sock s)._flags ||| c.H2O_SOCKET_FLAG_IS_READ_READY))).sock s)]) ∧
    ((h2o_socket__link_to_pending s
        (w.setFlags s ((w.sock s)._flags ||| c.H2O_SOCKET_FLAG_IS_READ_READY))).sock s)._flags
      &&& c.H2O_SOCKET_FLAG_IS_READ_READY ≠ 0 ∧
    (∀ l, PendingQueue w l →
      ((h2o_socket__link_to_pending s
        (w.setFlags s ((w.sock s)._flags ||| c.H2O_SOCKET_FLAG_IS_READ_READY))).sock s)._next_pending
        ≠ some s ∧
      PendingQueue (h2o_socket__link_to_pending s
        (w.setFlags s ((w.sock s)._flags ||| c.H2O_SOCKET_FLAG_IS_READ_READY)))
        (if nextPending w s = some s then l ++ [s] else l) ∧
      (nextPending w s = some s →
        s ∈ (if nextPending w s = some s then l ++ [s] else l))) := by
  have hne : ∀ x : Nat, x &&& c.H2O_SOCKET_FLAG_IS_DISPOSED = 0 →
      x ≠ c.H2O_SOCKET_FLAG_IS_DISPOSED := by
    intro x hx e
    rw [e, Nat.and_self] at hx
    exact hD hx
  obtain ⟨f1, _, _, _, f5⟩ := link_to_pending_frame s
    (w.setFlags s ((w.sock s)._flags ||| c.H2O_SOCKET_FLAG_IS_READ_READY))
  have hfl : ((h2o_socket__link_to_pending s
      (w.setFlags s ((w.sock s)._flags ||| c.H2O_SOCKET_FLAG_IS_READ_READY))).sock s)._flags
      = (w.sock s)._flags ||| c.H2O_SOCKET_FLAG_IS_READ_READY := by
    rw [(f5 s).1, setFlags_sock_self]
  refine ⟨?_, ?_, fun l hq => ?_⟩
  · rw [proceed_scan_fd_halves, proceed_scan_read_of_slot c rfds fd s w hslot,
      if_pos ⟨hr, hne _ hnd⟩]
    simp only
    have hslot2 : (h2o_socket__link_to_pending s
        (w.setFlags s ((w.sock s)._flags ||| c.H2O_SOCKET_FLAG_IS_READ_READY))).socks fd
        = some s := by
      rw [f1]; exact hslot
    rw [proceed_scan_write_of_slot c cb wfds fd s _ hslot2,
      if_pos ⟨hw, by rw [hfl]; exact hne _ (or_and_eq_zero hnd hRD)⟩]
  · rw [hfl]
    intro h0
    have h1 : c.H2O_SOCKET_FLAG_IS_READ_READY &&& c.H2O_SOCKET_FLAG_IS_READ_READY = 0 := by
      rw [and_eq_zero_iff_testBit] at h0 ⊢
      intro i
      have := h0 i
      rw [Nat.testBit_or] at this
      revert this
      cases (w.sock s)._flags.testBit i <;>
        cases c.H2O_SOCKET_FLAG_IS_READ_READY.testBit i <;> simp
    rw [Nat.and_self] at h1
    exact hR h1
  · have hq1 : PendingQueue
        (w.setFlags s ((w.sock s)._flags ||| c.H2O_SOCKET_FLAG_IS_READ_READY)) l :=
      hq.setFlags s _
    have hlink := hq1.link s
    rw [nextPending_setFlags] at hlink
    refine ⟨?_, hlink, fun hs => by rw [if_pos hs]; simp⟩
    by_cases hs : nextPending w s = some s
    · rw [if_pos hs] at hlink
      exact Chain.next_ne_self hlink.1 s (by simp)
    · have hs1 : nextPending
          (w.setFlags s ((w.sock s)._flags ||| c.H2O_SOCKET_FLAG_IS_READ_READY)) s ≠ some s := by
        rw [nextPending_setFlags]; exact hs
      rw [link_to_pending_of_linked hs1]
      exact hs1

/-- Witness of C18: descriptor `1` is reported readable and writable; the
write-draining operation is handed socket `1` with READ_READY set and linked
at the end of the pending queue. -/
theorem proceed_scan_read_before_write_witness :
    outputOf (proceed_scan_fd exConfig idleCallbacks {1} {1} 1 exScanWorld) [] =
      [Event.write_pending 1
        { fd := 1, _flags := 2, _cb_write := true, _wreq_cnt := 0,
          _next_pending := none, _next_statechanged := some 1 }] ∧
    ((h2o_socket__link_to_pending 1
        (exScanWorld.setFlags 1
          ((exScanWorld.sock 1)._flags ||| exConfig.H2O_SOCKET_FLAG_IS_READ_READY))).sock 1)._flags
      &&& exConfig.H2O_SOCKET_FLAG_IS_READ_READY ≠ 0 :=
  ⟨by decide,
    (proceed_scan_read_before_write exConfig idleCallbacks {1} {1} 1 1 exScanWorld
      (by decide) (by decide) (by decide) (by decide) (by decide) (by decide)
      (by decide)).2.1⟩

/-! ## The loop of `update_fdset` as a pass over the queue -/

/-- After one iteration on the head of the state-changed queue, the rest of
the queue is the chain from the new head. -/
theorem chain_after_step (c : Config) (cb : Callbacks) {s : Nat} {q : List Nat}
    {w w1 : World} {e1 : List Event}
    (hc : Chain (nextStatechanged w) w._statechanged.head (s :: q))
    (h : update_fdset_step c cb s w = .ok (w1, e1)) :
    Chain (nextStatechanged w1) w1._statechanged.head q := by
  obtain ⟨sA, sB, _⟩ := update_fdset_step_spec c cb s w w1 e1 h
  have hnot : s ∉ q := Chain.not_mem_tail hc
  rw [sA]
  refine Chain.congr_next (fun t ht => ?_) hc.2
  rw [sB, if_neg (fun e : t = s => hnot (e ▸ ht))]

theorem chain_head_none {next : Nat → Ptr} {p : Ptr} {q : List Nat}
    (hc : Chain next p q) (hp : p = none) : q = [] := by
  cases q with
  | nil => rfl
  | cons s q => have := hc.1; rw [hp] at this; cases this

theorem chain_head_some {next : Nat → Ptr} {p : Ptr} {q : List Nat} {s : Nat}
    (hc : Chain next p q) (hp : p = some s) : ∃ q1, q = s :: q1 := by
  cases q with
  | nil => have : p = none := hc; rw [hp] at this; cases this
  | cons t q =>
    have := hc.1
    rw [hp] at this
    exact ⟨q, by rw [Option.some.inj this]⟩

/-- With fuel for every queued socket, the loop of `update_fdset` is the pass
over the queue. -/
theorem update_fdset_loop_eq_steps (c : Config) (cb : Callbacks) :
    ∀ (fuel : Nat) (q : List Nat) (w : World),
      Chain (nextStatechanged w) w._statechanged.head q → q.length ≤ fuel →
      update_fdset_loop c cb fuel w = update_fdset_steps c cb q w
  | 0, q, w, hc, hlen => by
    have hq : q = [] := List.length_eq_zero.mp (Nat.le_zero.mp hlen)
    subst hq
    have hh : w._statechanged.head = none := hc
    rw [update_fdset_loop, hh, update_fdset_steps]
  | fuel + 1, q, w, hc, hlen => by
    cases hh : w._statechanged.head with
    | none =>
      have hq := chain_head_none hc hh
      subst hq
      rw [update_fdset_loop, hh, update_fdset_steps]
    | some s =>
      obtain ⟨q1, hq⟩ := chain_head_some hc hh
      subst hq
      rw [update_fdset_loop, hh, update_fdset_steps]
      simp only
      cases hs : update_fdset_step c cb s w with
      | error x => rfl
      | ok r1 =>
        obtain ⟨wa, ea⟩ := r1
        simp only
        rw [update_fdset_loop_eq_steps c cb fuel q1 wa (chain_after_step c cb hc hs)
          (by simpa using hlen)]

/-- Whatever the fuel, a run of the loop of `update_fdset` that returns is
the pass over the queue. -/
theorem update_fdset_loop_ok_steps (c : Config) (cb : Callbacks) :
    ∀ (fuel : Nat) (q : List Nat) (w : World) (r : World × List Event),
      Chain (nextStatechanged w) w._statechanged.head q →
      update_fdset_loop c cb fuel w = .ok r → update_fdset_steps c cb q w = .ok r
  | 0, q, w, r, hc, h => by
    rw [update_fdset_loop] at h
    cases hh : w._statechanged.head with
    | none =>
      have hq := chain_head_none hc hh
      subst hq
      rw [hh] at h
      rw [update_fdset_steps]
      exact h
    | some s => rw [hh] at h; cases h
  | fuel + 1, q, w, r, hc, h => by
    rw [update_fdset_loop] at h
    cases hh : w._statechanged.head with
    | none =>
      have hq := chain_head_none hc hh
      subst hq
      rw [hh] at h
      rw [update_fdset_steps]
      exact h
    | some s =>
      obtain ⟨q1, hq⟩ := chain_head_some hc hh
      subst hq
      rw [hh] at h
      simp only at h
      rw [update_fdset_steps]
      cases hs : update_fdset_step c cb s w with
      | error x => rw [hs] at h; cases h
      | ok r1 =>
        obtain ⟨wa, ea⟩ := r1
        rw [hs] at h
        simp only at h ⊢
        cases hl : update_fdset_loop c cb fuel wa with
        | error x => rw [hl] at h; cases h
        | ok r2 =>
          rw [hl] at h
          rw [update_fdset_loop_ok_steps c cb fuel q1 wa r2 (chain_after_step c cb hc hs) hl]
          exact h

/-- An iteration of the loop of `update_fdset` stops only on a failed
assertion or an index out of range. -/
theorem update_fdset_step_stop (c : Config) (cb : Callbacks) (s : Nat) (w : World) (x : Stop)
    (h : update_fdset_step c cb s w = .error x) :
    x = Stop.assertion ∨ x = Stop.outOfBounds := by
  unfold update_fdset_step update_fdset_state at h
  simp only at h
  split at h
  · split at h
    · split at h
      · cases h
      · cases h; exact Or.inl rfl
    · cases h; exact Or.inr rfl
  · split at h
    · split at h
      · cases h
      · split at h
        · cases h
        · cases h; exact Or.inl rfl
    · cases h; exact Or.inr rfl

theorem update_fdset_steps_stop (c : Config) (cb : Callbacks) :
    ∀ (q : List Nat) (w : World) (x : Stop), update_fdset_steps c cb q w = .error x →
      x = Stop.assertion ∨ x = Stop.outOfBounds
  | [], w, x, h => by rw [update_fdset_steps] at h; cases h
  | s :: q, w, x, h => by
    rw [update_fdset_steps] at h
    cases hs : update_fdset_step c cb s w with
    | error y =>
      rw [hs] at h
      cases h
      exact update_fdset_step_stop c cb s w _ hs
    | ok r1 =>
      obtain ⟨wa, ea⟩ := r1
      rw [hs] at h
      simp only at h
      cases hl : update_fdset_steps c cb q wa with
      | error y =>
        rw [hl] at h
        cases h
        exact update_fdset_steps_stop c cb q wa _ hl
      | ok r2 => rw [hl] at h; cases h

/-- Everything one iteration of the loop of `update_fdset` does to the heap,
the table and the interest sets, by the two cases of the DISPOSED test. -/
theorem update_fdset_step_cases (c : Config) (cb : Callbacks) (s : Nat) (w w1 : World)
    (e1 : List Event) (h : update_fdset_step c cb s w = .ok (w1, e1)) :
    (∀ t, t ≠ s → w1.sock t = w.sock t) ∧
    (((w.sock s)._flags &&& c.H2O_SOCKET_FLAG_IS_DISPOSED ≠ 0 ∧
        w.socks (w.sock s).fd = some s ∧
        w1.socks = Function.update w.socks (w.sock s).fd none ∧ e1 = [Event.free s] ∧
        w1.sock s = detachedSock w s ∧ w1.readfds = w.readfds ∧ w1.writefds = w.writefds) ∨
     ((w.sock s)._flags &&& c.H2O_SOCKET_FLAG_IS_DISPOSED = 0 ∧
        (w.socks (w.sock s).fd = none ∨ w.socks (w.sock s).fd = some s) ∧
        w1.socks = Function.update w.socks (w.sock s).fd (some s) ∧ e1 = [] ∧
        w1.sock s = afterWriteSock c cb (afterReadSock c cb (detachedSock w s)) ∧
        w1.readfds =
          (if cb.h2o_socket_is_reading (detachedSock w s) then insert (w.sock s).fd w.readfds
           else w.readfds.erase (w.sock s).fd) ∧
        w1.writefds =
          (if cb.h2o_socket_is_writing (afterReadSock c cb (detachedSock w s)) then
            insert (w.sock s).fd w.writefds
           else w.writefds.erase (w.sock s).fd))) := by
  obtain ⟨_, _, _, _, _, sE⟩ := update_fdset_step_spec c cb s w w1 e1 h
  obtain ⟨_, q2, q3⟩ := update_fdset_step_eq c cb s w w1 e1 h
  refine ⟨q2, ?_⟩
  rcases sE with ⟨a1, a2, a3, a4⟩ | ⟨a1, a2, a3, a4, _⟩
  · rcases q3 with ⟨_, b2, b3, b4⟩ | ⟨b1, _⟩
    · exact Or.inl ⟨a1, a2, a3, a4, b2, b3, b4⟩
    · exact absurd b1 a1
  · rcases q3 with ⟨b1, _⟩ | ⟨_, b2, b3, b4⟩
    · exact absurd a1 b1
    · exact Or.inr ⟨a1, a2, a3, a4, b2, b3, b4⟩

theorem detachedSock_fields (w : World) (s : Nat) :
    (detachedSock w s).fd = (w.sock s).fd ∧ (detachedSock w s)._flags = (w.sock s)._flags ∧
    (detachedSock w s)._next_statechanged = some s :=
  ⟨rfl, rfl, rfl⟩

theorem afterSock_fields (c : Config) (cb : Callbacks) (x : h2o_socket_t) :
    (afterWriteSock c cb (afterReadSock c cb x)).fd = x.fd ∧
    (afterWriteSock c cb (afterReadSock c cb x))._next_statechanged = x._next_statechanged ∧
    (afterWriteSock c cb (afterReadSock c cb x))._next_pending = x._next_pending ∧
    (afterWriteSock c cb (afterReadSock c cb x))._cb_write = x._cb_write ∧
    (afterWriteSock c cb (afterReadSock c cb x))._wreq_cnt = x._wreq_cnt :=
  ⟨rfl, rfl, rfl, rfl, rfl⟩

/-- One iteration changes neither the descriptor of any socket nor the
DISPOSED test and descriptor of the other sockets. -/
theorem update_fdset_step_fd (c : Config) (cb : Callbacks) (s : Nat) (w w1 : World)
    (e1 : List Event) (h : update_fdset_step c cb s w = .ok (w1, e1)) (t : Nat) :
    (w1.sock t).fd = (w.sock t).fd :=
  (update_fdset_step_spec c cb s w w1 e1 h).2.2.1 t

/-- A socket outside the pass keeps its struct. -/
theorem update_fdset_steps_sock_other (c : Config) (cb : Callbacks) :
    ∀ (q : List Nat) (w w1 : World) (e1 : List Event) (s : Nat),
      update_fdset_steps c cb q w = .ok (w1, e1) → s ∉ q → w1.sock s = w.sock s
  | [], w, w1, e1, s, h, _ => by rw [update_fdset_steps] at h; cases h; rfl
  | t :: q, w, w1, e1, s, h, hs => by
    rw [update_fdset_steps] at h
    cases hst : update_fdset_step c cb t w with
    | error x => rw [hst] at h; cases h
    | ok r1 =>
      obtain ⟨wa, ea⟩ := r1
      rw [hst] at h
      simp only at h
      cases hl : update_fdset_steps c cb q wa with
      | error x => rw [hl] at h; cases h
      | ok r2 =>
        obtain ⟨wb, eb⟩ := r2
        rw [hl] at h
        cases h
        have hne : s ≠ t := fun e => hs (e ▸ List.mem_cons_self _ _)
        rw [update_fdset_steps_sock_other c cb q wa _ _ s hl
          (fun hm => hs (List.mem_cons_of_mem _ hm))]
        exact (update_fdset_step_cases c cb t w wa ea hst).1 s hne

/-- The pass changes the descriptor of no socket. -/
theorem update_fdset_steps_fd (c : Config) (cb : Callbacks) :
    ∀ (q : List Nat) (w w1 : World) (e1 : List Event),
      update_fdset_steps c cb q w = .ok (w1, e1) → ∀ t, (w1.sock t).fd = (w.sock t).fd
  | [], w, w1, e1, h => by rw [update_fdset_steps] at h; cases h; exact fun _ => rfl
  | t :: q, w, w1, e1, h => by
    rw [update_fdset_steps] at h
    cases hst : update_fdset_step c cb t w with
    | error x => rw [hst] at h; cases h
    | ok r1 =>
      obtain ⟨wa, ea⟩ := r1
      rw [hst] at h
      simp only at h
      cases hl : update_fdset_steps c cb q wa with
      | error x => rw [hl] at h; cases h
      | ok r2 =>
        obtain ⟨wb, eb⟩ := r2
        rw [hl] at h
        cases h
        intro u
        rw [update_fdset_steps_fd c cb q wa _ _ hl u]
        exact update_fdset_step_fd c cb t w wa ea hst u

/-- A socket outside the pass that holds its table slot keeps its struct,
its slot, and the membership of its descriptor in the interest sets. -/
theorem update_fdset_steps_protected (c : Config) (cb : Callbacks) :
    ∀ (q : List Nat) (w w1 : World) (e1 : List Event) (s : Nat),
      update_fdset_steps c cb q w = .ok (w1, e1) → s ∉ q →
      w.socks (w.sock s).fd = some s →
      w1.sock s = w.sock s ∧ w1.socks (w.sock s).fd = some s ∧
      ((w.sock s).fd ∈ w1.readfds ↔ (w.sock s).fd ∈ w.readfds) ∧
      ((w.sock s).fd ∈ w1.writefds ↔ (w.sock s).fd ∈ w.writefds)
  | [], w, w1, e1, s, h, _, hslot => by
    rw [update_fdset_steps] at h; cases h
    exact ⟨rfl, hslot, Iff.rfl, Iff.rfl⟩
  | t :: q, w, w1, e1, s, h, hs, hslot => by
    rw [update_fdset_steps] at h
    cases hst : update_fdset_step c cb t w with
    | error x => rw [hst] at h; cases h
    | ok r1 =>
      obtain ⟨wa, ea⟩ := r1
      rw [hst] at h
      simp only at h
      cases hl : update_fdset_steps c cb q wa with
      | error x => rw [hl] at h; cases h
      | ok r2 =>
        obtain ⟨wb, eb⟩ := r2
        rw [hl] at h
        cases h
        have hne : s ≠ t := fun e => hs (e ▸ List.mem_cons_self _ _)
        obtain ⟨k1, k2⟩ := update_fdset_step_cases c cb t w wa ea hst
        have hsock : wa.sock s = w.sock s := k1 s hne
        have hfd : (w.sock t).fd ≠ (w.sock s).fd := by
          intro e
          rcases k2 with ⟨_, a2, _⟩ | ⟨_, a2, _⟩
          · rw [e, hslot] at a2
            exact hne (Option.some.inj a2)
          · rw [e, hslot] at a2
            rcases a2 with a2 | a2
            · cases a2
            · exact hne (Option.some.inj a2)
        have hslot1 : wa.socks (wa.sock s).fd = some s := by
          rw [hsock]
          rcases k2 with ⟨_, _, a3, _⟩ | ⟨_, _, a3, _⟩
          · rw [a3, Function.update_noteq (Ne.symm hfd)]; exact hslot
          · rw [a3, Function.update_noteq (Ne.symm hfd)]; exact hslot
        have hsets : ((w.sock s).fd ∈ wa.readfds ↔ (w.sock s).fd ∈ w.readfds) ∧
            ((w.sock s).fd ∈ wa.writefds ↔ (w.sock s).fd ∈ w.writefds) := by
          rcases k2 with ⟨_, _, _, _, _, a6, a7⟩ | ⟨_, _, _, _, _, a6, a7⟩
          · rw [a6, a7]; exact ⟨Iff.rfl, Iff.rfl⟩
          · rw [a6, a7]
            constructor
            · split
              · rw [Finset.mem_insert]
                exact ⟨fun hh => hh.resolve_left (Ne.symm hfd), Or.inr⟩
              · rw [Finset.mem_erase]
                exact ⟨fun hh => hh.2, fun hh => ⟨Ne.symm hfd, hh⟩⟩
            · split
              · rw [Finset.mem_insert]
                exact ⟨fun hh => hh.resolve_left (Ne.symm hfd), Or.inr⟩
              · rw [Finset.mem_erase]
                exact ⟨fun hh => hh.2, fun hh => ⟨Ne.symm hfd, hh⟩⟩
        obtain ⟨p1, p2, p3, p4⟩ := update_fdset_steps_protected c cb q wa _ _ s hl
          (fun hm => hs (List.mem_cons_of_mem _ hm)) hslot1
        rw [hsock] at p1 p2 p3 p4
        exact ⟨p1, p2, p3.trans hsets.1, p4.trans hsets.2⟩

theorem mem_interest_other {fd fd0 : Nat} (b : Prop) [Decidable b] (S : Finset Nat)
    (h : fd ≠ fd0) : fd0 ∈ (if b then insert fd S else S.erase fd) ↔ fd0 ∈ S := by
  split
  · rw [Finset.mem_insert]
    exact ⟨fun hh => hh.resolve_left (Ne.symm h), Or.inr⟩
  · rw [Finset.mem_erase]
    exact ⟨fun hh => hh.2, fun hh => ⟨Ne.symm h, hh⟩⟩

theorem mem_interest_self (fd : Nat) (b : Prop) [Decidable b] (S : Finset Nat) :
    fd ∈ (if b then insert fd S else S.erase fd) ↔ b := by
  split
  · rename_i hb
    exact ⟨fun _ => hb, fun _ => Finset.mem_insert_self _ _⟩
  · rename_i hb
    exact ⟨fun hh => absurd rfl (Finset.mem_erase.mp hh).1, fun hh => absurd hh hb⟩

/-- The pass changes the membership in the interest sets only of the
descriptors of the queued sockets that are not disposed. -/
theorem update_fdset_steps_sets_frame (c : Config) (cb : Callbacks) :
    ∀ (q : List Nat) (w w1 : World) (e1 : List Event), q.Nodup →
      update_fdset_steps c cb q w = .ok (w1, e1) → ∀ fd0,
      (∀ t ∈ q, (w.sock t)._flags &&& c.H2O_SOCKET_FLAG_IS_DISPOSED = 0 →
        (w.sock t).fd ≠ fd0) →
      (fd0 ∈ w1.readfds ↔ fd0 ∈ w.readfds) ∧ (fd0 ∈ w1.writefds ↔ fd0 ∈ w.writefds)
  | [], w, w1, e1, _, h, fd0, _ => by
    rw [update_fdset_steps] at h; cases h
    exact ⟨Iff.rfl, Iff.rfl⟩
  | t :: q, w, w1, e1, hnd, h, fd0, hfd => by
    rw [update_fdset_steps] at h
    cases hst : update_fdset_step c cb t w with
    | error x => rw [hst] at h; cases h
    | ok r1 =>
      obtain ⟨wa, ea⟩ := r1
      rw [hst] at h
      simp only at h
      cases hl : update_fdset_steps c cb q wa with
      | error x => rw [hl] at h; cases h
      | ok r2 =>
        obtain ⟨wb, eb⟩ := r2
        rw [hl] at h
        cases h
        obtain ⟨hnt, hnd1⟩ := List.nodup_cons.mp hnd
        obtain ⟨k1, k2⟩ := update_fdset_step_cases c cb t w wa ea hst
        have hrest : ∀ u ∈ q, (wa.sock u)._flags &&& c.H2O_SOCKET_FLAG_IS_DISPOSED = 0 →
            (wa.sock u).fd ≠ fd0 := by
          intro u hu
          have hut : u ≠ t := fun e => hnt (e ▸ hu)
          rw [k1 u hut]
          exact hfd u (List.mem_cons_of_mem _ hu)
        obtain ⟨p1, p2⟩ := update_fdset_steps_sets_frame c cb q wa _ _ hnd1 hl fd0 hrest
        rcases k2 with ⟨_, _, _, _, _, a6, a7⟩ | ⟨a1, _, _, _, _, a6, a7⟩
        · rw [a6] at p1; rw [a7] at p2; exact ⟨p1, p2⟩
        · have hne := hfd t (List.mem_cons_self _ _) a1
          rw [a6] at p1; rw [a7] at p2
          exact ⟨p1.trans (mem_interest_other _ _ hne), p2.trans (mem_interest_other _ _ hne)⟩

/-- What the pass leaves of a queued socket that is not disposed: its struct
with the two POLLED flags brought in line, its descriptor in each interest
set exactly when the interest holds, and its table slot. -/
theorem update_fdset_steps_reconciled (c : Config) (cb : Callbacks) :
    ∀ (q : List Nat) (w w1 : World) (e1 : List Event), q.Nodup →
      update_fdset_steps c cb q w = .ok (w1, e1) → ∀ s ∈ q,
      (w.sock s)._flags &&& c.H2O_SOCKET_FLAG_IS_DISPOSED = 0 →
      w1.sock s = afterWriteSock c cb (afterReadSock c cb (detachedSock w s)) ∧
      ((w.sock s).fd ∈ w1.readfds ↔ cb.h2o_socket_is_reading (detachedSock w s) = true) ∧
      ((w.sock s).fd ∈ w1.writefds ↔
        cb.h2o_socket_is_writing (afterReadSock c cb (detachedSock w s)) = true) ∧
      w1.socks (w.sock s).fd = some s
  | [], w, w1, e1, _, h, s, hs, _ => absurd hs (List.not_mem_nil _)
  | t :: q, w, w1, e1, hnd, h, s, hs, hz => by
    rw [update_fdset_steps] at h
    cases hst : update_fdset_step c cb t w with
    | error x => rw [hst] at h; cases h
    | ok r1 =>
      obtain ⟨wa, ea⟩ := r1
      rw [hst] at h
      simp only at h
      cases hl : update_fdset_steps c cb q wa with
      | error x => rw [hl] at h; cases h
      | ok r2 =>
        obtain ⟨wb, eb⟩ := r2
        rw [hl] at h
        cases h
        obtain ⟨hnt, hnd1⟩ := List.nodup_cons.mp hnd
        obtain ⟨k1, k2⟩ := update_fdset_step_cases c cb t w wa ea hst
        rcases List.mem_cons.mp hs with hst2 | hsq
        · subst hst2
          rcases k2 with ⟨a1, _⟩ | ⟨_, _, a3, _, a5, a6, a7⟩
          · exact absurd hz a1
          · have hfd : (wa.sock s).fd = (w.sock s).fd := by rw [a5]; rfl
            have hslot : wa.socks (wa.sock s).fd = some s := by
              rw [hfd, a3, Function.update_same]
            obtain ⟨p1, p2, p3, p4⟩ :=
              update_fdset_steps_protected c cb q wa _ _ s hl hnt hslot
            rw [hfd] at p2 p3 p4
            refine ⟨p1.trans a5, p3.trans ?_, p4.trans ?_, p2⟩
            · rw [a6]; exact mem_interest_self _ _ _
            · rw [a7]; exact mem_interest_self _ _ _
        · have hne : s ≠ t := fun e => hnt (e ▸ hsq)
          have hsock : wa.sock s = w.sock s := k1 s hne
          have hd : detachedSock wa s = detachedSock w s := by
            unfold detachedSock; rw [hsock]
          have := update_fdset_steps_reconciled c cb q wa _ _ hnd1 hl s hsq
            (by rw [hsock]; exact hz)
          rw [hd, hsock] at this
          exact this

/-- After the pass every queued socket has its self-reference back. -/
theorem update_fdset_steps_unlinked (c : Config) (cb : Callbacks) :
    ∀ (q : List Nat) (w w1 : World) (e1 : List Event), q.Nodup →
      update_fdset_steps c cb q w = .ok (w1, e1) → ∀ s ∈ q,
      nextStatechanged w1 s = some s
  | [], w, w1, e1, _, h, s, hs => absurd hs (List.not_mem_nil _)
  | t :: q, w, w1, e1, hnd, h, s, hs => by
    rw [update_fdset_steps] at h
    cases hst : update_fdset_step c cb t w with
    | error x => rw [hst] at h; cases h
    | ok r1 =>
      obtain ⟨wa, ea⟩ := r1
      rw [hst] at h
      simp only at h
      cases hl : update_fdset_steps c cb q wa with
      | error x => rw [hl] at h; cases h
      | ok r2 =>
        obtain ⟨wb, eb⟩ := r2
        rw [hl] at h
        cases h
        obtain ⟨hnt, hnd1⟩ := List.nodup_cons.mp hnd
        rcases List.mem_cons.mp hs with hst2 | hsq
        · subst hst2
          obtain ⟨_, k2⟩ := update_fdset_step_cases c cb s w wa ea hst
          have hother := update_fdset_steps_sock_other c cb q wa _ _ s hl hnt
          unfold nextStatechanged
          rw [hother]
          rcases k2 with ⟨_, _, _, _, a5, _⟩ | ⟨_, _, _, _, a5, _⟩
          · rw [a5]; rfl
          · rw [a5]; rfl
        · exact update_fdset_steps_unlinked c cb q wa _ _ hnd1 hl s hsq

/-- The pass releases the queued sockets that are disposed, each once, in
the order of the queue, and no other socket. -/
theorem update_fdset_steps_freed (c : Config) (cb : Callbacks) :
    ∀ (q : List Nat) (w w1 : World) (e1 : List Event), q.Nodup →
      update_fdset_steps c cb q w = .ok (w1, e1) →
      freed e1 = q.filter
        (fun s => decide ((w.sock s)._flags &&& c.H2O_SOCKET_FLAG_IS_DISPOSED ≠ 0))
  | [], w, w1, e1, _, h => by rw [update_fdset_steps] at h; cases h; rfl
  | t :: q, w, w1, e1, hnd, h => by
    rw [update_fdset_steps] at h
    cases hst : update_fdset_step c cb t w with
    | error x => rw [hst] at h; cases h
    | ok r1 =>
      obtain ⟨wa, ea⟩ := r1
      rw [hst] at h
      simp only at h
      cases hl : update_fdset_steps c cb q wa with
      | error x => rw [hl] at h; cases h
      | ok r2 =>
        obtain ⟨wb, eb⟩ := r2
        rw [hl] at h
        cases h
        obtain ⟨hnt, hnd1⟩ := List.nodup_cons.mp hnd
        obtain ⟨k1, k2⟩ := update_fdset_step_cases c cb t w wa ea hst
        have ih := update_fdset_steps_freed c cb q wa _ _ hnd1 hl
        have hcongr : q.filter
            (fun s => decide ((wa.sock s)._flags &&& c.H2O_SOCKET_FLAG_IS_DISPOSED ≠ 0))
            = q.filter
            (fun s => decide ((w.sock s)._flags &&& c.H2O_SOCKET_FLAG_IS_DISPOSED ≠ 0)) := by
          apply List.filter_congr
          intro u hu
          rw [k1 u (fun e => hnt (e ▸ hu))]
        rw [freed_append, ih, hcongr]
        rcases k2 with ⟨a1, _, _, a4, _⟩ | ⟨a1, _, _, a4, _⟩
        · rw [a4, List.filter_cons_of_pos (by simpa using a1)]
          rfl
        · rw [a4, List.filter_cons_of_neg (by simpa using a1)]
          rfl

/-- A table slot that does not hold a socket outside the pass does not hold
it after the pass. -/
theorem update_fdset_steps_slot_ne (c : Config) (cb : Callbacks) :
    ∀ (q : List Nat) (w w1 : World) (e1 : List Event) (s fd : Nat),
      update_fdset_steps c cb q w = .ok (w1, e1) → s ∉ q → w.socks fd ≠ some s →
      w1.socks fd ≠ some s
  | [], w, w1, e1, s, fd, h, _, hslot => by
    rw [update_fdset_steps] at h; cases h; exact hslot
  | t :: q, w, w1, e1, s, fd, h, hs, hslot => by
    rw [update_fdset_steps] at h
    cases hst : update_fdset_step c cb t w with
    | error x => rw [hst] at h; cases h
    | ok r1 =>
      obtain ⟨wa, ea⟩ := r1
      rw [hst] at h
      simp only at h
      cases hl : update_fdset_steps c cb q wa with
      | error x => rw [hl] at h; cases h
      | ok r2 =>
        obtain ⟨wb, eb⟩ := r2
        rw [hl] at h
        cases h
        have hne : s ≠ t := fun e => hs (e ▸ List.mem_cons_self _ _)
        obtain ⟨_, k2⟩ := update_fdset_step_cases c cb t w wa ea hst
        refine update_fdset_steps_slot_ne c cb q wa _ _ s fd hl
          (fun hm => hs (List.mem_cons_of_mem _ hm)) ?_
        rcases k2 with ⟨_, _, a3, _⟩ | ⟨_, _, a3, _⟩
        · rw [a3]
          by_cases hfd : fd = (w.sock t).fd
          · rw [hfd, Function.update_same]; simp
          · rw [Function.update_noteq hfd]; exact hslot
        · rw [a3]
          by_cases hfd : fd = (w.sock t).fd
          · rw [hfd, Function.update_same]
            exact fun e => hne (Option.some.inj e).symm
          · rw [Function.update_noteq hfd]; exact hslot

/-- After the pass the table slot of a queued socket that is disposed no
longer holds it. -/
theorem update_fdset_steps_released (c : Config) (cb : Callbacks) :
    ∀ (q : List Nat) (w w1 : World) (e1 : List Event), q.Nodup →
      update_fdset_steps c cb q w = .ok (w1, e1) → ∀ s ∈ q,
      (w.sock s)._flags &&& c.H2O_SOCKET_FLAG_IS_DISPOSED ≠ 0 →
      w1.socks (w.sock s).fd ≠ some s
  | [], w, w1, e1, _, h, s, hs, _ => absurd hs (List.not_mem_nil _)
  | t :: q, w, w1, e1, hnd, h, s, hs, hz => by
    rw [update_fdset_steps] at h
    cases hst : update_fdset_step c cb t w with
    | error x => rw [hst] at h; cases h
    | ok r1 =>
      obtain ⟨wa, ea⟩ := r1
      rw [hst] at h
      simp only at h
      cases hl : update_fdset_steps c cb q wa with
      | error x => rw [hl] at h; cases h
      | ok r2 =>
        obtain ⟨wb, eb⟩ := r2
        rw [hl] at h
        cases h
        obtain ⟨hnt, hnd1⟩ := List.nodup_cons.mp hnd
        obtain ⟨k1, k2⟩ := update_fdset_step_cases c cb t w wa ea hst
        rcases List.mem_cons.mp hs with hst2 | hsq
        · subst hst2
          refine update_fdset_steps_slot_ne c cb q wa _ _ s _ hl hnt ?_
          rcases k2 with ⟨_, _, a3, _⟩ | ⟨a1, _⟩
          · rw [a3, Function.update_same]; simp
          · exact absurd a1 hz
        · have hne : s ≠ t := fun e => hnt (e ▸ hsq)
          have hsock : wa.sock s = w.sock s := k1 s hne
          have := update_fdset_steps_released c cb q wa _ _ hnd1 hl s hsq
            (by rw [hsock]; exact hz)
          rw [hsock] at this
          exact this

/-- When the loop of `update_fdset` returns, the state-changed queue has no
head. -/
theorem update_fdset_loop_head (c : Config) (cb : Callbacks) :
    ∀ (fuel : Nat) (w w1 : World) (e1 : List Event),
      update_fdset_loop c cb fuel w = .ok (w1, e1) → w1._statechanged.head = none
  | 0, w, w1, e1, h => by
    rw [update_fdset_loop] at h
    cases hh : w._statechanged.head with
    | none => rw [hh] at h; cases h; exact hh
    | some s => rw [hh] at h; cases h
  | fuel + 1, w, w1, e1, h => by
    rw [update_fdset_loop] at h
    cases hh : w._statechanged.head with
    | none => rw [hh] at h; cases h; exact hh
    | some s =>
      rw [hh] at h
      simp only at h
      cases hs : update_fdset_step c cb s w with
      | error x => rw [hs] at h; cases h
      | ok r1 =>
        obtain ⟨wa, ea⟩ := r1
        rw [hs] at h
        simp only at h
        cases hl : update_fdset_loop c cb fuel wa with
        | error x => rw [hl] at h; cases h
        | ok r2 =>
          obtain ⟨wb, eb⟩ := r2
          rw [hl] at h
          cases h
          exact update_fdset_loop_head c cb fuel wa _ _ hl

/-- An iteration of the loop of `update_fdset` returns when the descriptor is
within the table and the slot is as the assertions expect. -/
theorem update_fdset_step_returns (c : Config) (cb : Callbacks) (s : Nat) (w : World)
    (hfd : (w.sock s).fd < c.FD_SETSIZE)
    (hd : (w.sock s)._flags &&& c.H2O_SOCKET_FLAG_IS_DISPOSED ≠ 0 →
      w.socks (w.sock s).fd = some s)
    (hn : (w.sock s)._flags &&& c.H2O_SOCKET_FLAG_IS_DISPOSED = 0 →
      w.socks (w.sock s).fd = none ∨ w.socks (w.sock s).fd = some s) :
    ∃ r, update_fdset_step c cb s w = .ok r := by
  unfold update_fdset_step update_fdset_state
  obtain ⟨_, _, d3, d4, d5⟩ := detach_statechanged_spec s w
  generalize detach_statechanged s w = w2 at d3 d4 d5 ⊢
  simp only
  rw [d4 s, d5 s, d3]
  by_cases hdis : (w.sock s)._flags &&& c.H2O_SOCKET_FLAG_IS_DISPOSED ≠ 0
  · rw [if_pos hdis, if_pos hfd, if_pos (hd hdis)]
    exact ⟨_, rfl⟩
  · rw [if_neg hdis, if_pos hfd]
    rcases hn (not_not.mp hdis) with h0 | h0
    · rw [if_pos h0]
      exact ⟨_, rfl⟩
    · rw [if_neg (by rw [h0]; simp), if_pos h0]
      exact ⟨_, rfl⟩

/-- The pass returns when the queued sockets have pairwise distinct
descriptors within the table and every slot is as the assertions expect. -/
theorem update_fdset_steps_returns (c : Config) (cb : Callbacks) :
    ∀ (q : List Nat) (w : World), q.Nodup →
      (∀ s ∈ q, (w.sock s).fd < c.FD_SETSIZE) →
      (∀ s ∈ q, ∀ t ∈ q, (w.sock s).fd = (w.sock t).fd → s = t) →
      (∀ s ∈ q,
        ((w.sock s)._flags &&& c.H2O_SOCKET_FLAG_IS_DISPOSED ≠ 0 →
          w.socks (w.sock s).fd = some s) ∧
        ((w.sock s)._flags &&& c.H2O_SOCKET_FLAG_IS_DISPOSED = 0 →
          w.socks (w.sock s).fd = none ∨ w.socks (w.sock s).fd = some s)) →
      ∃ r, update_fdset_steps c cb q w = .ok r
  | [], w, _, _, _, _ => ⟨(w, []), by rw [update_fdset_steps]⟩
  | t :: q, w, hnd, hfd, hinj, hslot => by
    obtain ⟨hnt, hnd1⟩ := List.nodup_cons.mp hnd
    have ht := List.mem_cons_self t q
    obtain ⟨⟨wa, ea⟩, hst⟩ := update_fdset_step_returns c cb t w (hfd t ht)
      (hslot t ht).1 (hslot t ht).2
    obtain ⟨k1, k2⟩ := update_fdset_step_cases c cb t w wa ea hst
    have hsock : ∀ u ∈ q, wa.sock u = w.sock u := fun u hu =>
      k1 u (fun e => hnt (e ▸ hu))
    have hsl : ∀ u ∈ q, wa.socks (w.sock u).fd = w.socks (w.sock u).fd := by
      intro u hu
      have hne : (w.sock u).fd ≠ (w.sock t).fd := fun e => by
        have hut := hinj u (List.mem_cons_of_mem _ hu) t ht e
        rw [hut] at hu
        exact hnt hu
      rcases k2 with ⟨_, _, a3, _⟩ | ⟨_, _, a3, _⟩
      · rw [a3, Function.update_noteq hne]
      · rw [a3, Function.update_noteq hne]
    obtain ⟨⟨wb, eb⟩, hl⟩ := update_fdset_steps_returns c cb q wa hnd1
      (fun u hu => by rw [hsock u hu]; exact hfd u (List.mem_cons_of_mem _ hu))
      (fun u hu v hv e => by
        rw [hsock u hu, hsock v hv] at e
        exact hinj u (List.mem_cons_of_mem _ hu) v (List.mem_cons_of_mem _ hv) e)
      (fun u hu => by
        rw [hsock u hu, hsl u hu]
        exact hslot u (List.mem_cons_of_mem _ hu))
    refine ⟨(wb, ea ++ eb), ?_⟩
    rw [update_fdset_steps, hst]
    simp only
    rw [hl]

/-- An empty table slot stays empty through the pass when no queued socket
that is not disposed has its descriptor. -/
theorem update_fdset_steps_slot_none (c : Config) (cb : Callbacks) :
    ∀ (q : List Nat) (w w1 : World) (e1 : List Event) (fd0 : Nat), q.Nodup →
      update_fdset_steps c cb q w = .ok (w1, e1) → w.socks fd0 = none →
      (∀ t ∈ q, (w.sock t)._flags &&& c.H2O_SOCKET_FLAG_IS_DISPOSED = 0 →
        (w.sock t).fd ≠ fd0) →
      w1.socks fd0 = none
  | [], w, w1, e1, fd0, _, h, hslot, _ => by
    rw [update_fdset_steps] at h; cases h; exact hslot
  | t :: q, w, w1, e1, fd0, hnd, h, hslot, hfd => by
    rw [update_fdset_steps] at h
    cases hst : update_fdset_step c cb t w with
    | error x => rw [hst] at h; cases h
    | ok r1 =>
      obtain ⟨wa, ea⟩ := r1
      rw [hst] at h
      simp only at h
      cases hl : update_fdset_steps c cb q wa with
      | error x => rw [hl] at h; cases h
      | ok r2 =>
        obtain ⟨wb, eb⟩ := r2
        rw [hl] at h
        cases h
        obtain ⟨hnt, hnd1⟩ := List.nodup_cons.mp hnd
        obtain ⟨k1, k2⟩ := update_fdset_step_cases c cb t w wa ea hst
        have hne : (w.sock t).fd ≠ fd0 := by
          rcases k2 with ⟨_, a2, _⟩ | ⟨a1, _⟩
          · intro e
            rw [e, hslot] at a2
            cases a2
          · exact hfd t (List.mem_cons_self _ _) a1
        refine update_fdset_steps_slot_none c cb q wa _ _ fd0 hnd1 hl ?_ ?_
        · rcases k2 with ⟨_, _, a3, _⟩ | ⟨_, _, a3, _⟩
          · rw [a3, Function.update_noteq (Ne.symm hne)]; exact hslot
          · rw [a3, Function.update_noteq (Ne.symm hne)]; exact hslot
        · intro u hu
          rw [k1 u (fun e => hnt (e ▸ hu))]
          exact hfd u (List.mem_cons_of_mem _ hu)

/-- After the pass the table slot of a queued socket that is disposed is
empty, unless a queued socket that is not disposed has the same descriptor. -/
theorem update_fdset_steps_cleared (c : Config) (cb : Callbacks) :
    ∀ (q : List Nat) (w w1 : World) (e1 : List Event), q.Nodup →
      update_fdset_steps c cb q w = .ok (w1, e1) → ∀ s ∈ q,
      (w.sock s)._flags &&& c.H2O_SOCKET_FLAG_IS_DISPOSED ≠ 0 →
      (∀ t ∈ q, (w.sock t)._flags &&& c.H2O_SOCKET_FLAG_IS_DISPOSED = 0 →
        (w.sock t).fd ≠ (w.sock s).fd) →
      w1.socks (w.sock s).fd = none
  | [], w, w1, e1, _, h, s, hs, _, _ => absurd hs (List.not_mem_nil _)
  | t :: q, w, w1, e1, hnd, h, s, hs, hz, hfd => by
    rw [update_fdset_steps] at h
    cases hst : update_fdset_step c cb t w with
    | error x => rw [hst] at h; cases h
    | ok r1 =>
      obtain ⟨wa, ea⟩ := r1
      rw [hst] at h
      simp only at h
      cases hl : update_fdset_steps c cb q wa with
      | error x => rw [hl] at h; cases h
      | ok r2 =>
        obtain ⟨wb, eb⟩ := r2
        rw [hl] at h
        cases h
        obtain ⟨hnt, hnd1⟩ := List.nodup_cons.mp hnd
        obtain ⟨k1, k2⟩ := update_fdset_step_cases c cb t w wa ea hst
        have hrest : ∀ u ∈ q, (wa.sock u)._flags &&& c.H2O_SOCKET_FLAG_IS_DISPOSED = 0 →
            (wa.sock u).fd ≠ (w.sock s).fd := by
          intro u hu
          rw [k1 u (fun e => hnt (e ▸ hu))]
          exact hfd u (List.mem_cons_of_mem _ hu)
        rcases List.mem_cons.mp hs with hst2 | hsq
        · subst hst2
          refine update_fdset_steps_slot_none c cb q wa _ _ _ hnd1 hl ?_ hrest
          rcases k2 with ⟨_, _, a3, _⟩ | ⟨a1, _⟩
          · rw [a3, Function.update_same]
          · exact absurd a1 hz
        · have hsock : wa.sock s = w.sock s := k1 s (fun e => hnt (e ▸ hsq))
          have := update_fdset_steps_cleared c cb q wa _ _ hnd1 hl s hsq
            (by rw [hsock]; exact hz) (by rw [hsock]; exact hrest)
          rw [hsock] at this
          exact this

/-- C19: for a well-formed state-changed queue `q` and fuel for each of its
sockets, the loop of `update_fdset` is the pass that runs one iteration for
each socket of `q`, once, in the order of `q`, and it never runs out of fuel;
it returns when the queued sockets have pairwise distinct descriptors within
the table and the slots are as the assertions expect. When `update_fdset`
returns, the queue is empty with `tail_ref` pointing to the head, every queued
socket that is not disposed has its `_next_statechanged` equal to itself, the
sockets released are exactly the queued sockets that were disposed, each once
and in queue order, and the slot of each of them no longer holds it (it is
empty unless a queued socket that is not disposed has the same descriptor). -/
theorem update_fdset_drains_statechanged (c : Config) (cb : Callbacks) (fuel : Nat)
    (q : List Nat) (w : World)
    (hq : Chain (nextStatechanged w) w._statechanged.head q) (hfuel : q.length ≤ fuel) :
    update_fdset_loop c cb fuel w = update_fdset_steps c cb q w ∧
    stopOf (update_fdset c cb fuel w) ≠ some Stop.outOfFuel ∧
    ((∀ s ∈ q, (w.sock s).fd < c.FD_SETSIZE) →
      (∀ s ∈ q, ∀ t ∈ q, (w.sock s).fd = (w.sock t).fd → s = t) →
      (∀ s ∈ q,
        ((w.sock s)._flags &&& c.H2O_SOCKET_FLAG_IS_DISPOSED ≠ 0 →
          w.socks (w.sock s).fd = some s) ∧
        ((w.sock s)._flags &&& c.H2O_SOCKET_FLAG_IS_DISPOSED = 0 →
          w.socks (w.sock s).fd = none ∨ w.socks (w.sock s).fd = some s)) →
      returned (update_fdset c cb fuel w) = true) ∧
    (∀ w1 e1, update_fdset c cb fuel w = .ok (w1, e1) →
      StatechangedQueue w1 [] ∧
      w1._statechanged.head = none ∧ w1._statechanged.tail_ref = SlotRef.head ∧
      (∀ s ∈ q, (w.sock s)._flags &&& c.H2O_SOCKET_FLAG_IS_DISPOSED = 0 →
        nextStatechanged w1 s = some s) ∧
      freed e1 = q.filter
        (fun s => decide ((w.sock s)._flags &&& c.H2O_SOCKET_FLAG_IS_DISPOSED ≠ 0)) ∧
      (freed e1).Nodup ∧
      (∀ s ∈ q, (w.sock s)._flags &&& c.H2O_SOCKET_FLAG_IS_DISPOSED ≠ 0 →
        w1.socks (w.sock s).fd ≠ some s ∧
        ((∀ t ∈ q, (w.sock t)._flags &&& c.H2O_SOCKET_FLAG_IS_DISPOSED = 0 →
            (w.sock t).fd ≠ (w.sock s).fd) →
          w1.socks (w.sock s).fd = none))) := by
  have hloop := update_fdset_loop_eq_steps c cb fuel q w hq hfuel
  have hnd : q.Nodup := Chain.nodup hq
  refine ⟨hloop, ?_, fun hfd hinj hslot => ?_, fun w1 e1 h => ?_⟩
  · unfold update_fdset
    rw [hloop]
    cases hst : update_fdset_steps c cb q w with
    | error x =>
      intro hx
      have hx2 : x = Stop.outOfFuel := Option.some.inj hx
      rcases update_fdset_steps_stop c cb q w x hst with e | e
      · rw [e] at hx2; cases hx2
      · rw [e] at hx2; cases hx2
    | ok r => intro hx; cases hx
  · obtain ⟨r, hr⟩ := update_fdset_steps_returns c cb q w hnd hfd hinj hslot
    unfold update_fdset
    rw [hloop, hr]
    rfl
  · unfold update_fdset at h
    cases hl : update_fdset_loop c cb fuel w with
    | error x => rw [hl] at h; cases h
    | ok r =>
      obtain ⟨wl, el⟩ := r
      rw [hl] at h
      cases h
      have hhead := update_fdset_loop_head c cb fuel w wl _ hl
      rw [hloop] at hl
      have hfreed := update_fdset_steps_freed c cb q w wl _ hnd hl
      refine ⟨⟨hhead, rfl⟩, hhead, rfl,
        fun s hs _ => update_fdset_steps_unlinked c cb q w wl _ hnd hl s hs,
        hfreed, ?_, fun s hs hz =>
          ⟨update_fdset_steps_released c cb q w wl _ hnd hl s hs hz,
           update_fdset_steps_cleared c cb q w wl _ hnd hl s hs hz⟩⟩
      rw [hfreed]
      exact hnd.filter _

/-- Witness of C19: the queue of `exReconcileWorld` holds the disposed socket
`0` and the socket `1`; with fuel `2` the reconciliation returns. -/
theorem update_fdset_drains_statechanged_witness :
    update_fdset_loop exConfig idleCallbacks 2 exReconcileWorld
      = update_fdset_steps exConfig idleCallbacks [0, 1] exReconcileWorld ∧
    returned (update_fdset exConfig idleCallbacks 2 exReconcileWorld) = true :=
  ⟨(update_fdset_drains_statechanged exConfig idleCallbacks 2 [0, 1] exReconcileWorld
      (by decide) (by decide)).1,
   (update_fdset_drains_statechanged exConfig idleCallbacks 2 [0, 1] exReconcileWorld
      (by decide) (by decide)).2.2.1 (by decide) (by decide) (by decide)⟩

/-! ## Reconciliation mirrors the interest of a socket -/

theorem or_and_self_mask (x m : Nat) : (x ||| m) &&& m = m := by
  apply Nat.eq_of_testBit_eq
  intro i
  rw [Nat.testBit_and, Nat.testBit_or]
  cases x.testBit i <;> cases m.testBit i <;> rfl

theorem afterReadSock_polled (c : Config) (cb : Callbacks) (x : h2o_socket_t)
    (hPR : c.H2O_SOCKET_FLAG_IS_POLLED_FOR_READ ≠ 0) :
    (afterReadSock c cb x)._flags &&& c.H2O_SOCKET_FLAG_IS_POLLED_FOR_READ ≠ 0 ↔
      cb.h2o_socket_is_reading x = true := by
  unfold afterReadSock
  dsimp only
  by_cases h : cb.h2o_socket_is_reading x = true
  · rw [if_pos h, or_and_self_mask]
    exact ⟨fun _ => h, fun _ => hPR⟩
  · rw [if_neg h, clearFlag_and_self]
    exact ⟨fun hh => absurd rfl hh, fun hh => absurd hh h⟩

theorem afterWriteSock_polled (c : Config) (cb : Callbacks) (x : h2o_socket_t)
    (hPW : c.H2O_SOCKET_FLAG_IS_POLLED_FOR_WRITE ≠ 0) :
    (afterWriteSock c cb x)._flags &&& c.H2O_SOCKET_FLAG_IS_POLLED_FOR_WRITE ≠ 0 ↔
      cb.h2o_socket_is_writing x = true := by
  unfold afterWriteSock
  dsimp only
  by_cases h : cb.h2o_socket_is_writing x = true
  · rw [if_pos h, or_and_self_mask]
    exact ⟨fun _ => h, fun _ => hPW⟩
  · rw [if_neg h, clearFlag_and_self]
    exact ⟨fun hh => absurd rfl hh, fun hh => absurd hh h⟩

theorem afterWriteSock_keeps (c : Config) (cb : Callbacks) (x : h2o_socket_t) {r : Nat}
    (h : c.H2O_SOCKET_FLAG_IS_POLLED_FOR_WRITE &&& r = 0) :
    (afterWriteSock c cb x)._flags &&& r = x._flags &&& r := by
  unfold afterWriteSock
  dsimp only
  split
  · exact or_and_of_disjoint _ h
  · exact clearFlag_and_of_disjoint _ h

/-- C11: when `update_fdset` returns, a socket `s` of the state-changed queue
that is not disposed has its descriptor in the read-interest set exactly when
`h2o_socket_is_reading` held of it at line 91, and in the write-interest set
exactly when `h2o_socket_is_writing` held of it at line 100; its
POLLED_FOR_READ and POLLED_FOR_WRITE flags are set exactly when its descriptor
is in the respective set; its table slot holds it; when the two predicates do
not depend on the flags and on `_next_statechanged`, they hold of the socket
as the call leaves it exactly when its descriptor is in the respective set;
and the membership of a descriptor that no queued socket has is unchanged.
POLLED_FOR_READ and POLLED_FOR_WRITE are assumed to be non-zero masks that do
not overlap. -/
theorem update_fdset_mirrors_interest (c : Config) (cb : Callbacks) (fuel : Nat)
    (q : List Nat) (w w1 : World) (e1 : List Event) (s : Nat)
    (hPR : c.H2O_SOCKET_FLAG_IS_POLLED_FOR_READ ≠ 0)
    (hPW : c.H2O_SOCKET_FLAG_IS_POLLED_FOR_WRITE ≠ 0)
    (hRW : c.H2O_SOCKET_FLAG_IS_POLLED_FOR_WRITE &&& c.H2O_SOCKET_FLAG_IS_POLLED_FOR_READ = 0)
    (hq : Chain (nextStatechanged w) w._statechanged.head q)
    (h : update_fdset c cb fuel w = .ok (w1, e1))
    (hs : s ∈ q) (hz : (w.sock s)._flags &&& c.H2O_SOCKET_FLAG_IS_DISPOSED = 0) :
    (w1.sock s).fd = (w.sock s).fd ∧
    ((w1.sock s).fd ∈ w1.readfds ↔ cb.h2o_socket_is_reading (detachedSock w s) = true) ∧
    ((w1.sock s).fd ∈ w1.writefds ↔
      cb.h2o_socket_is_writing (afterReadSock c cb (detachedSock w s)) = true) ∧
    ((w1.sock s)._flags &&& c.H2O_SOCKET_FLAG_IS_POLLED_FOR_READ ≠ 0 ↔
      (w1.sock s).fd ∈ w1.readfds) ∧
    ((w1.sock s)._flags &&& c.H2O_SOCKET_FLAG_IS_POLLED_FOR_WRITE ≠ 0 ↔
      (w1.sock s).fd ∈ w1.writefds) ∧
    w1.socks (w1.sock s).fd = some s ∧
    ((∀ x f p, cb.h2o_socket_is_reading { x with _flags := f, _next_statechanged := p }
        = cb.h2o_socket_is_reading x) →
      (∀ x f p, cb.h2o_socket_is_writing { x with _flags := f, _next_statechanged := p }
        = cb.h2o_socket_is_writing x) →
      ((w1.sock s).fd ∈ w1.readfds ↔ cb.h2o_socket_is_reading (w1.sock s) = true) ∧
      ((w1.sock s).fd ∈ w1.writefds ↔ cb.h2o_socket_is_writing (w1.sock s) = true)) ∧
    (∀ fd0, (∀ t ∈ q, (w.sock t).fd ≠ fd0) →
      (fd0 ∈ w1.readfds ↔ fd0 ∈ w.readfds) ∧ (fd0 ∈ w1.writefds ↔ fd0 ∈ w.writefds)) := by
  unfold update_fdset at h
  cases hl : update_fdset_loop c cb fuel w with
  | error x => rw [hl] at h; cases h
  | ok r =>
    obtain ⟨wl, el⟩ := r
    rw [hl] at h
    cases h
    have hnd : q.Nodup := Chain.nodup hq
    have hst := update_fdset_loop_ok_steps c cb fuel q w _ hq hl
    obtain ⟨p1, p2, p3, p4⟩ := update_fdset_steps_reconciled c cb q w wl _ hnd hst s hs hz
    have hfd : (wl.sock s).fd = (w.sock s).fd := by rw [p1]; rfl
    have hflR : (wl.sock s)._flags &&& c.H2O_SOCKET_FLAG_IS_POLLED_FOR_READ ≠ 0 ↔
        cb.h2o_socket_is_reading (detachedSock w s) = true := by
      rw [p1, afterWriteSock_keeps c cb _ hRW]
      exact afterReadSock_polled c cb _ hPR
    have hflW : (wl.sock s)._flags &&& c.H2O_SOCKET_FLAG_IS_POLLED_FOR_WRITE ≠ 0 ↔
        cb.h2o_socket_is_writing (afterReadSock c cb (detachedSock w s)) = true := by
      rw [p1]
      exact afterWriteSock_polled c cb _ hPW
    have main : (wl.sock s).fd = (w.sock s).fd ∧
        ((wl.sock s).fd ∈ wl.readfds ↔ cb.h2o_socket_is_reading (detachedSock w s) = true) ∧
        ((wl.sock s).fd ∈ wl.writefds ↔
          cb.h2o_socket_is_writing (afterReadSock c cb (detachedSock w s)) = true) ∧
        ((wl.sock s)._flags &&& c.H2O_SOCKET_FLAG_IS_POLLED_FOR_READ ≠ 0 ↔
          (wl.sock s).fd ∈ wl.readfds) ∧
        ((wl.sock s)._flags &&& c.H2O_SOCKET_FLAG_IS_POLLED_FOR_WRITE ≠ 0 ↔
          (wl.sock s).fd ∈ wl.writefds) ∧
        wl.socks (wl.sock s).fd = some s ∧
        ((∀ x f p, cb.h2o_socket_is_reading { x with _flags := f, _next_statechanged := p }
            = cb.h2o_socket_is_reading x) →
          (∀ x f p, cb.h2o_socket_is_writing { x with _flags := f, _next_statechanged := p }
            = cb.h2o_socket_is_writing x) →
          ((wl.sock s).fd ∈ wl.readfds ↔ cb.h2o_socket_is_reading (wl.sock s) = true) ∧
          ((wl.sock s).fd ∈ wl.writefds ↔ cb.h2o_socket_is_writing (wl.sock s) = true)) ∧
        (∀ fd0, (∀ t ∈ q, (w.sock t).fd ≠ fd0) →
          (fd0 ∈ wl.readfds ↔ fd0 ∈ w.readfds) ∧ (fd0 ∈ wl.writefds ↔ fd0 ∈ w.writefds)) := by
      rw [hfd]
      refine ⟨rfl, p2, p3, hflR.trans p2.symm, hflW.trans p3.symm, p4,
        fun hr hw => ?_, fun fd0 hfd0 => ?_⟩
      · have e1 : wl.sock s =
            { detachedSock w s with
              _flags := (wl.sock s)._flags, _next_statechanged := some s } := by
          rw [p1]; rfl
        have e2 : afterReadSock c cb (detachedSock w s) =
            { detachedSock w s with
              _flags := (afterReadSock c cb (detachedSock w s))._flags,
              _next_statechanged := some s } := rfl
        have er : cb.h2o_socket_is_reading (wl.sock s)
            = cb.h2o_socket_is_reading (detachedSock w s) :=
          (congrArg cb.h2o_socket_is_reading e1).trans
            (hr (detachedSock w s) (wl.sock s)._flags (some s))
        have ew : cb.h2o_socket_is_writing (wl.sock s)
            = cb.h2o_socket_is_writing (detachedSock w s) :=
          (congrArg cb.h2o_socket_is_writing e1).trans
            (hw (detachedSock w s) (wl.sock s)._flags (some s))
        have ea : cb.h2o_socket_is_writing (afterReadSock c cb (detachedSock w s))
            = cb.h2o_socket_is_writing (detachedSock w s) :=
          (congrArg cb.h2o_socket_is_writing e2).trans
            (hw (detachedSock w s) (afterReadSock c cb (detachedSock w s))._flags (some s))
        constructor
        · rw [p2, er]
        · rw [p3, ea, ew]
      · exact update_fdset_steps_sets_frame c cb q w wl _ hnd hst fd0
          (fun t ht _ => hfd0 t ht)
    exact main

/-- Witness of C11: after the reconciliation of `exReconcileWorld`, socket
`1`, which wants to read and to write, has descriptor `1` in both interest
sets, both POLLED flags set, and table slot `1`. -/
theorem update_fdset_mirrors_interest_witness :
    (1 ∈ (worldOf (update_fdset exConfig idleCallbacks 2 exReconcileWorld)
        exReconcileWorld).readfds ↔
      idleCallbacks.h2o_socket_is_reading (detachedSock exReconcileWorld 1) = true) ∧
    (worldOf (update_fdset exConfig idleCallbacks 2 exReconcileWorld)
        exReconcileWorld).socks 1 = some 1 :=
  have h := update_fdset_mirrors_interest exConfig idleCallbacks 2 [0, 1] exReconcileWorld
    (worldOf (update_fdset exConfig idleCallbacks 2 exReconcileWorld) exReconcileWorld)
    (outputOf (update_fdset exConfig idleCallbacks 2 exReconcileWorld) []) 1
    (by decide) (by decide) (by decide) (by decide) (by rfl) (by decide) (by decide)
  ⟨h.2.1, h.2.2.2.2.2.1⟩

/-! ## Closing a socket -/

/-- A call of `update_fdset` that returns is the pass over the queue followed
by line 111. -/
theorem update_fdset_ok_steps (c : Config) (cb : Callbacks) (fuel : Nat) (q : List Nat)
    (w w1 : World) (e1 : List Event)
    (hq : Chain (nextStatechanged w) w._statechanged.head q)
    (h : update_fdset c cb fuel w = .ok (w1, e1)) :
    ∃ wl, update_fdset_steps c cb q w = .ok (wl, e1) ∧ w1.sock = wl.sock ∧
      w1.socks = wl.socks ∧ w1.readfds = wl.readfds ∧ w1.writefds = wl.writefds ∧
      w1._pending = wl._pending ∧
      w1._statechanged = { head := none, tail_ref := SlotRef.head } := by
  unfold update_fdset at h
  cases hl : update_fdset_loop c cb fuel w with
  | error x => rw [hl] at h; cases h
  | ok r =>
    obtain ⟨wl, el⟩ := r
    rw [hl] at h
    cases h
    have hhead := update_fdset_loop_head c cb fuel w wl _ hl
    refine ⟨wl, update_fdset_loop_ok_steps c cb fuel q w _ hq hl, rfl, rfl, rfl, rfl, rfl, ?_⟩
    show ({ head := wl._statechanged.head, tail_ref := SlotRef.head } : Queue) = _
    rw [hhead]

/-- The reconciliation changes the membership in the interest sets only of
the descriptors of the queued sockets that are not disposed. -/
theorem update_fdset_sets_frame (c : Config) (cb : Callbacks) (fuel : Nat) (q : List Nat)
    (w w1 : World) (e1 : List Event)
    (hq : Chain (nextStatechanged w) w._statechanged.head q)
    (h : update_fdset c cb fuel w = .ok (w1, e1)) (fd0 : Nat)
    (hfd : ∀ t ∈ q, (w.sock t)._flags &&& c.H2O_SOCKET_FLAG_IS_DISPOSED = 0 →
      (w.sock t).fd ≠ fd0) :
    (fd0 ∈ w1.readfds ↔ fd0 ∈ w.readfds) ∧ (fd0 ∈ w1.writefds ↔ fd0 ∈ w.writefds) := by
  obtain ⟨wl, hst, _, _, hr, hw, _⟩ := update_fdset_ok_steps c cb fuel q w w1 e1 hq h
  rw [hr, hw]
  exact update_fdset_steps_sets_frame c cb q w wl _ (Chain.nodup hq) hst fd0 hfd

/-- C12 counterexample: socket `0` is created for descriptor `3` in a fresh
loop and no reconciliation has run, so table slot `3` is empty; `on_close`
for this socket stops on the assertion of line 180, and so does closing the
socket through the socket layer. -/
theorem on_close_unreconciled_counterexample :
    returned exCreated = true ∧
    ((sysOf exCreated (Sys.fresh (exHeap (fun _ => 0)))).w.sock 0).fd = 3 ∧
    (sysOf exCreated (Sys.fresh (exHeap (fun _ => 0)))).w.socks 3 = none ∧
    stopOf (on_close exConfig 0 (sysOf exCreated (Sys.fresh (exHeap (fun _ => 0)))).w)
      = some Stop.assertion ∧
    stopOf (Sys.run exConfig idleCallbacks [Op.create 0 3, Op.close 0]
      (Sys.fresh (exHeap (fun _ => 0)))) = some Stop.assertion := by
  decide

/-- C12 (amended): `on_close` returns exactly when the descriptor of the
socket is within the table and its table slot is not empty, that is, once a
reconciliation has claimed the slot. When it returns, the descriptor is in
neither interest set, the membership of every other descriptor, the table,
the heap and the two queues are unchanged. A descriptor that is in neither
interest set stays out of both through a reconciliation whose queue holds no
socket with this descriptor that is not disposed, and every wait of that call
of `proceed` is handed scratch sets without it. -/
theorem on_close_clears_interest (c : Config) (cb : Callbacks) (s : Nat) (w : World) :
    (returned (on_close c s w) = true ↔
      (w.sock s).fd < c.FD_SETSIZE ∧ w.socks (w.sock s).fd ≠ none) ∧
    (∀ w1, on_close c s w = .ok w1 →
      (w.sock s).fd ∉ w1.readfds ∧ (w.sock s).fd ∉ w1.writefds ∧
      (∀ fd0, fd0 ≠ (w.sock s).fd →
        (fd0 ∈ w1.readfds ↔ fd0 ∈ w.readfds) ∧ (fd0 ∈ w1.writefds ↔ fd0 ∈ w.writefds)) ∧
      w1.socks = w.socks ∧ w1.sock = w.sock ∧ w1._pending = w._pending ∧
      w1._statechanged = w._statechanged) ∧
    (∀ (fd0 : Nat) (wa : World) (q : List Nat), fd0 ∉ wa.readfds → fd0 ∉ wa.writefds →
      Chain (nextStatechanged wa) wa._statechanged.head q →
      (∀ t ∈ q, (wa.sock t)._flags &&& c.H2O_SOCKET_FLAG_IS_DISPOSED = 0 →
        (wa.sock t).fd ≠ fd0) →
      (∀ fuel w2 e2, update_fdset c cb fuel wa = .ok (w2, e2) →
        fd0 ∉ w2.readfds ∧ fd0 ∉ w2.writefds) ∧
      (∀ sel fuel m ret w2 e, proceed c cb sel fuel m wa = .ok (ret, w2, e) →
        ∀ rf wf a b, Event.select rf wf a b ∈ e → fd0 ∉ rf ∧ fd0 ∉ wf)) := by
  refine ⟨?_, fun w1 h => ?_, fun fd0 wa q hr hw hq hfd => ?_⟩
  · unfold on_close
    dsimp only
    by_cases hfd : (w.sock s).fd < c.FD_SETSIZE
    · rw [if_pos hfd]
      by_cases hslot : w.socks (w.sock s).fd ≠ none
      · rw [if_pos hslot]
        exact ⟨fun _ => ⟨hfd, hslot⟩, fun _ => rfl⟩
      · rw [if_neg hslot]
        exact ⟨fun hh => Bool.noConfusion hh, fun hh => absurd hh.2 hslot⟩
    · rw [if_neg hfd]
      exact ⟨fun hh => Bool.noConfusion hh, fun hh => absurd hh.1 hfd⟩
  · obtain ⟨e, _, _⟩ := on_close_ok h
    subst e
    refine ⟨Finset.not_mem_erase _ _, Finset.not_mem_erase _ _, fun fd0 hne => ?_,
      rfl, rfl, rfl, rfl⟩
    exact ⟨⟨fun hh => (Finset.mem_erase.mp hh).2, fun hh => Finset.mem_erase.mpr ⟨hne, hh⟩⟩,
      ⟨fun hh => (Finset.mem_erase.mp hh).2, fun hh => Finset.mem_erase.mpr ⟨hne, hh⟩⟩⟩
  · have hframe : ∀ fuel w2 e2, update_fdset c cb fuel wa = .ok (w2, e2) →
        fd0 ∉ w2.readfds ∧ fd0 ∉ w2.writefds := by
      intro fuel w2 e2 h
      obtain ⟨f1, f2⟩ := update_fdset_sets_frame c cb fuel q wa w2 e2 hq h fd0 hfd
      exact ⟨fun hh => hr (f1.mp hh), fun hh => hw (f2.mp hh)⟩
    refine ⟨hframe, fun sel fuel m ret w2 e h rf wf a b hm => ?_⟩
    obtain ⟨w1, e1, r, e2, e3, hu, hsel, he, h3, _⟩ := proceed_ok_inv c cb sel fuel m wa w2 ret e h
    rw [he] at hm
    rcases List.mem_append.mp hm with hm12 | hm3
    · rcases List.mem_append.mp hm12 with hm1 | hm2
      · exact Bool.noConfusion ((update_fdset_masked c cb fuel wa w1 e1 hu).2.2.2.2 _ hm1)
      · have heq := proceed_select_events c w1 (waitMillis m) sel r e2 hsel _ hm2
        injection heq with q1 q2
        rw [q1, q2]
        exact hframe fuel w1 e1 hu
    · exact Bool.noConfusion (h3 _ hm3)

/-- Witness of the amended C12: in `exTabled`, table slot `1` holds socket
`1`; `on_close` returns for it. -/
theorem on_close_clears_interest_witness :
    returned (on_close exConfig 1 (exTabled (fun _ => 0))) = true :=
  (on_close_clears_interest exConfig idleCallbacks 1 (exTabled (fun _ => 0))).1.mpr
    ⟨by decide, by decide⟩

/-! ## Descriptors beyond the capacity of the table -/

/-- C16 counterexample: with a table of `8` slots, socket `0` has descriptor
`8`. The creation hook does not return a failure: it indexes the table out of
range, and so does creation through the socket layer; the reconciliation of
the socket indexes the table out of range as well. -/
theorem descriptor_beyond_capacity_counterexample :
    exConfig.FD_SETSIZE ≤ (exWideWorld.sock 0).fd ∧
    stopOf (on_create exConfig 0 exWideWorld) = some Stop.outOfBounds ∧
    stopOf (socket_create exConfig 0 8 exEmptyWorld) = some Stop.outOfBounds ∧
    stopOf (update_fdset exConfig idleCallbacks 1 exWideWorld) = some Stop.outOfBounds := by
  decide

/-- C16 (amended): the hooks contain no test of the descriptor against
FD_SETSIZE. For a socket whose descriptor is at or beyond FD_SETSIZE,
`on_create`, `on_close` and the iteration of `update_fdset` for the socket
index the table out of range. Whenever `on_create` returns, the descriptor is
below FD_SETSIZE and the world is unchanged; whenever the iteration of
`update_fdset` for the socket returns, the descriptor is below FD_SETSIZE and
no table slot other than the one of this descriptor is written. -/
theorem on_create_beyond_capacity (c : Config) (cb : Callbacks) (s : Nat) (w : World) :
    (c.FD_SETSIZE ≤ (w.sock s).fd →
      on_create c s w = .error Stop.outOfBounds ∧
      on_close c s w = .error Stop.outOfBounds ∧
      update_fdset_step c cb s w = .error Stop.outOfBounds) ∧
    (∀ w1, on_create c s w = .ok w1 → w1 = w ∧ (w.sock s).fd < c.FD_SETSIZE) ∧
    (∀ w1 e1, update_fdset_step c cb s w = .ok (w1, e1) →
      (w.sock s).fd < c.FD_SETSIZE ∧
      ∀ fd0, fd0 ≠ (w.sock s).fd → w1.socks fd0 = w.socks fd0) := by
  refine ⟨fun hge => ⟨?_, ?_, ?_⟩, fun w1 h => ⟨on_create_ok h, ?_⟩, fun w1 e1 h => ?_⟩
  · unfold on_create
    dsimp only
    rw [if_neg (Nat.not_lt.mpr hge)]
  · unfold on_close
    dsimp only
    rw [if_neg (Nat.not_lt.mpr hge)]
  · unfold update_fdset_step update_fdset_state
    obtain ⟨_, _, _, d4, _⟩ := detach_statechanged_spec s w
    generalize detach_statechanged s w = w2 at d4 ⊢
    dsimp only
    rw [d4 s, if_neg (Nat.not_lt.mpr hge), if_neg (Nat.not_lt.mpr hge)]
    split <;> rfl
  · unfold on_create at h
    dsimp only at h
    by_cases hfd : (w.sock s).fd < c.FD_SETSIZE
    · exact hfd
    · rw [if_neg hfd] at h
      cases h
  · obtain ⟨_, _, _, _, hfd, hc⟩ := update_fdset_step_spec c cb s w w1 e1 h
    refine ⟨hfd, fun fd0 hne => ?_⟩
    rcases hc with ⟨_, _, a3, _⟩ | ⟨_, _, a3, _⟩
    · rw [a3, Function.update_noteq hne]
    · rw [a3, Function.update_noteq hne]

/-- Witness of the amended C16: the creation hook for socket `0` of
`exWideWorld`, whose descriptor is `8`, indexes the table of `8` slots out of
range. -/
theorem on_create_beyond_capacity_witness :
    on_create exConfig 0 exWideWorld = .error Stop.outOfBounds :=
  ((on_create_beyond_capacity exConfig idleCallbacks 0 exWideWorld).1 (by decide)).1

/-! ## The table covers the interest sets -/

/-- One pass of `update_fdset` keeps `InterestTabled` when the descriptor of
every queued socket that is disposed and still holds its slot is in neither
interest set. -/
theorem update_fdset_steps_tabled (c : Config) (cb : Callbacks) :
    ∀ (q : List Nat) (w w1 : World) (e1 : List Event), q.Nodup →
      update_fdset_steps c cb q w = .ok (w1, e1) → InterestTabled w →
      (∀ s ∈ q, (w.sock s)._flags &&& c.H2O_SOCKET_FLAG_IS_DISPOSED ≠ 0 →
        w.socks (w.sock s).fd = some s →
        (w.sock s).fd ∉ w.readfds ∧ (w.sock s).fd ∉ w.writefds) →
      InterestTabled w1
  | [], w, w1, e1, _, h, hP, _ => by
    rw [update_fdset_steps] at h; cases h; exact hP
  | t :: q, w, w1, e1, hnd, h, hP, hJ => by
    rw [update_fdset_steps] at h
    cases hst : update_fdset_step c cb t w with
    | error x => rw [hst] at h; cases h
    | ok r1 =>
      obtain ⟨wa, ea⟩ := r1
      rw [hst] at h
      simp only at h
      cases hl : update_fdset_steps c cb q wa with
      | error x => rw [hl] at h; cases h
      | ok r2 =>
        obtain ⟨wb, eb⟩ := r2
        rw [hl] at h
        cases h
        obtain ⟨hnt, hnd1⟩ := List.nodup_cons.mp hnd
        obtain ⟨k1, k2⟩ := update_fdset_step_cases c cb t w wa ea hst
        have hfdall : ∀ u, (wa.sock u).fd = (w.sock u).fd :=
          update_fdset_step_fd c cb t w wa ea hst
        have hsock : ∀ u ∈ q, wa.sock u = w.sock u := fun u hu =>
          k1 u (fun e => hnt (e ▸ hu))
        have hslots : ∀ i u, wa.socks i = some u → i ≠ (w.sock t).fd →
            w.socks i = some u := by
          intro i u hu hi
          rcases k2 with ⟨_, _, a3, _⟩ | ⟨_, _, a3, _⟩
          · rw [a3, Function.update_noteq hi] at hu; exact hu
          · rw [a3, Function.update_noteq hi] at hu; exact hu
        refine update_fdset_steps_tabled c cb q wa _ _ hnd1 hl ?_ ?_
        · rcases k2 with ⟨a1, a2, a3, _, _, a6, a7⟩ | ⟨a1, a2, a3, _, _, a6, a7⟩
          · obtain ⟨j1, j2⟩ := hJ t (List.mem_cons_self _ _) a1 a2
            constructor
            · intro fd hm
              rw [a6, a7] at hm
              have hne : fd ≠ (w.sock t).fd := by
                intro e
                rw [e] at hm
                rcases hm with hm | hm
                · exact j1 hm
                · exact j2 hm
              rw [a3, Function.update_noteq hne]
              exact hP.1 fd hm
            · intro i u hu
              have hi : i ≠ (w.sock t).fd := by
                intro e
                rw [a3, e, Function.update_same] at hu
                cases hu
              rw [hfdall u]
              exact hP.2 i u (hslots i u hu hi)
          · constructor
            · intro fd hm
              by_cases hfd : fd = (w.sock t).fd
              · rw [a3, hfd, Function.update_same]
                exact fun e => Option.noConfusion e
              · rw [a3, Function.update_noteq hfd]
                apply hP.1
                rw [a6, a7] at hm
                exact hm.imp (mem_interest_other _ _ (Ne.symm hfd)).mp
                  (mem_interest_other _ _ (Ne.symm hfd)).mp
            · intro i u hu
              rw [hfdall u]
              by_cases hi : i = (w.sock t).fd
              · rw [a3, hi, Function.update_same] at hu
                rw [← Option.some.inj hu, hi]
              · exact hP.2 i u (hslots i u hu hi)
        · intro u hu hdis hslot
          rw [hsock u hu] at hdis hslot ⊢
          have hut : u ≠ t := fun e => hnt (e ▸ hu)
          have hfd : (w.sock u).fd ≠ (w.sock t).fd := by
            intro e
            rcases k2 with ⟨_, _, a3, _⟩ | ⟨_, _, a3, _⟩
            · rw [a3, e, Function.update_same] at hslot
              cases hslot
            · rw [a3, e, Function.update_same] at hslot
              exact hut (Option.some.inj hslot).symm
          obtain ⟨j1, j2⟩ := hJ u (List.mem_cons_of_mem _ hu) hdis
            (hslots _ u hslot hfd)
          rcases k2 with ⟨_, _, _, _, _, a6, a7⟩ | ⟨_, _, _, _, _, a6, a7⟩
          · rw [a6, a7]; exact ⟨j1, j2⟩
          · rw [a6, a7]
            exact ⟨fun hh => j1 ((mem_interest_other _ _ (Ne.symm hfd)).mp hh),
              fun hh => j2 ((mem_interest_other _ _ (Ne.symm hfd)).mp hh)⟩

theorem proceed_scan_read_returns (c : Config) (rfds : Finset Nat) (fd : Nat) (w : World)
    (h : fd ∈ rfds → w.socks fd ≠ none) :
    ∃ w1, proceed_scan_read c rfds fd w = .ok w1 ∧ w1.socks = w.socks := by
  by_cases hr : fd ∈ rfds
  · obtain ⟨s, hs⟩ := Option.ne_none_iff_exists'.mp (h hr)
    rw [proceed_scan_read_of_slot c rfds fd s w hs]
    split
    · exact ⟨_, rfl, (link_to_pending_frame s _).1⟩
    · exact ⟨w, rfl, rfl⟩
  · unfold proceed_scan_read
    rw [if_neg hr]
    exact ⟨w, rfl, rfl⟩

theorem proceed_scan_write_returns (c : Config) (cb : Callbacks) (wfds : Finset Nat)
    (fd : Nat) (w : World)
    (hcb : ∀ s w, (cb.h2o_socket__write_pending s w).socks = w.socks)
    (h : fd ∈ wfds → w.socks fd ≠ none) :
    ∃ w1 e1, proceed_scan_write c cb wfds fd w = .ok (w1, e1) ∧ w1.socks = w.socks := by
  by_cases hr : fd ∈ wfds
  · obtain ⟨s, hs⟩ := Option.ne_none_iff_exists'.mp (h hr)
    rw [proceed_scan_write_of_slot c cb wfds fd s w hs]
    split
    · exact ⟨_, _, rfl, hcb s w⟩
    · exact ⟨w, [], rfl, rfl⟩
  · unfold proceed_scan_write
    rw [if_neg hr]
    exact ⟨w, [], rfl, rfl⟩

/-- A step of the readiness scan returns, and leaves the table alone, when the
slot of the descriptor is not empty if the descriptor is in a scratch set. -/
theorem proceed_scan_fd_returns (c : Config) (cb : Callbacks) (rfds wfds : Finset Nat)
    (fd : Nat) (w : World)
    (hcb : ∀ s w, (cb.h2o_socket__write_pending s w).socks = w.socks)
    (h : fd ∈ rfds ∨ fd ∈ wfds → w.socks fd ≠ none) :
    ∃ w1 e1, proceed_scan_fd c cb rfds wfds fd w = .ok (w1, e1) ∧ w1.socks = w.socks := by
  obtain ⟨wa, ha, hsa⟩ := proceed_scan_read_returns c rfds fd w (fun hr => h (Or.inl hr))
  obtain ⟨wb, eb, hb, hsb⟩ := proceed_scan_write_returns c cb wfds fd wa hcb
    (fun hw => by rw [hsa]; exact h (Or.inr hw))
  refine ⟨wb, eb, ?_, hsb.trans hsa⟩
  rw [proceed_scan_fd_halves, ha]
  exact hb

/-- The readiness scan returns when the slot of every descriptor in a scratch
set is not empty. -/
theorem proceed_scan_returns (c : Config) (cb : Callbacks) (rfds wfds : Finset Nat)
    (hcb : ∀ s w, (cb.h2o_socket__write_pending s w).socks = w.socks) :
    ∀ (fds : List Nat) (w : World), (∀ fd, fd ∈ rfds ∨ fd ∈ wfds → w.socks fd ≠ none) →
      ∃ r, proceed_scan c cb rfds wfds fds w = .ok r
  | [], w, _ => ⟨(w, []), by rw [proceed_scan]⟩
  | fd :: fds, w, h => by
    obtain ⟨wa, ea, ha, hsa⟩ := proceed_scan_fd_returns c cb rfds wfds fd w hcb (h fd)
    obtain ⟨⟨wb, eb⟩, hb⟩ := proceed_scan_returns c cb rfds wfds hcb fds wa
      (fun fd0 hm => by rw [hsa]; exact h fd0 hm)
    refine ⟨(wb, ea ++ eb), ?_⟩
    rw [proceed_scan, ha]
    simp only
    rw [hb]

/-- The world `exReconcileWorld` satisfies `InterestTabled`. -/
theorem exReconcileWorld_tabled : InterestTabled exReconcileWorld := by
  have hr : exReconcileWorld.readfds = ∅ := rfl
  have hw : exReconcileWorld.writefds = ∅ := rfl
  have hs : exReconcileWorld.socks = fun fd => if fd = 0 then some 0 else none := rfl
  constructor
  · intro fd hm
    rw [hr, hw] at hm
    rcases hm with hm | hm
    · exact absurd hm (Finset.not_mem_empty fd)
    · exact absurd hm (Finset.not_mem_empty fd)
  · intro i s hi
    rw [hs] at hi
    dsimp only at hi
    by_cases h0 : i = 0
    · rw [if_pos h0] at hi
      rw [← Option.some.inj hi, h0]
      rfl
    · rw [if_neg h0] at hi
      cases hi

/-- C20: `InterestTabled` (a descriptor in an interest set has a non-empty
table slot, and a non-empty slot `i` holds a socket of descriptor `i`) holds
of a freshly created loop, is preserved by `on_close`, and is preserved by
`update_fdset` when the descriptor of every queued socket that is disposed is
in neither interest set, as `on_close` leaves it. Under `InterestTabled`,
when the scratch sets are subsets of the interest sets and the write-draining
operation does not write the table, the readiness scan returns: neither
`assert(sock != NULL)` fails; so `proceed` returns when its reconciliation
and its wait do. -/
theorem interest_tabled_invariant (c : Config) (cb : Callbacks) :
    (∀ heap, InterestTabled (h2o_socket_loop_create heap)) ∧
    (∀ s w w1, InterestTabled w → on_close c s w = .ok w1 → InterestTabled w1) ∧
    (∀ fuel q w w1 e1, InterestTabled w →
      Chain (nextStatechanged w) w._statechanged.head q →
      (∀ s ∈ q, (w.sock s)._flags &&& c.H2O_SOCKET_FLAG_IS_DISPOSED ≠ 0 →
        (w.sock s).fd ∉ w.readfds ∧ (w.sock s).fd ∉ w.writefds) →
      update_fdset c cb fuel w = .ok (w1, e1) → InterestTabled w1) ∧
    (∀ w1 rfds wfds fds, InterestTabled w1 → rfds ⊆ w1.readfds → wfds ⊆ w1.writefds →
      (∀ s w, (cb.h2o_socket__write_pending s w).socks = w.socks) →
      returned (proceed_scan c cb rfds wfds fds w1) = true) ∧
    (∀ sel fuel m w w1 e1 r e2, InterestTabled w1 →
      update_fdset c cb fuel w = .ok (w1, e1) →
      proceed_select c w1 (waitMillis m) sel = .ok (r, e2) →
      r.rfds ⊆ w1.readfds → r.wfds ⊆ w1.writefds →
      (∀ s w, (cb.h2o_socket__write_pending s w).socks = w.socks) →
      returned (proceed c cb sel fuel m w) = true) := by
  have hscan : ∀ w1 rfds wfds fds, InterestTabled w1 → rfds ⊆ w1.readfds →
      wfds ⊆ w1.writefds →
      (∀ s w, (cb.h2o_socket__write_pending s w).socks = w.socks) →
      ∃ r, proceed_scan c cb rfds wfds fds w1 = .ok r := by
    intro w1 rfds wfds fds hP hr hw hcb
    exact proceed_scan_returns c cb rfds wfds hcb fds w1
      (fun fd hm => hP.1 fd (hm.imp (fun x => hr x) (fun x => hw x)))
  refine ⟨fun heap => ?_, fun s w w1 hP h => ?_, fun fuel q w w1 e1 hP hq hJ h => ?_,
    fun w1 rfds wfds fds hP hr hw hcb => ?_,
    fun sel fuel m w w1 e1 r e2 hP hu hs hr hw hcb => ?_⟩
  · constructor
    · intro fd hm
      rcases hm with hm | hm
      · exact absurd hm (Finset.not_mem_empty fd)
      · exact absurd hm (Finset.not_mem_empty fd)
    · intro i s hi
      cases hi
  · obtain ⟨e, _, _⟩ := on_close_ok h
    subst e
    constructor
    · intro fd hm
      exact hP.1 fd (hm.imp (fun x => (Finset.mem_erase.mp x).2)
        (fun x => (Finset.mem_erase.mp x).2))
    · exact hP.2
  · obtain ⟨wl, hst, h1, h2, h3, h4, _⟩ := update_fdset_ok_steps c cb fuel q w w1 e1 hq h
    have hPl := update_fdset_steps_tabled c cb q w wl _ (Chain.nodup hq) hst hP
      (fun s hs hd _ => hJ s hs hd)
    constructor
    · intro fd hm
      rw [h3, h4] at hm
      rw [h2]
      exact hPl.1 fd hm
    · intro i s hi
      rw [h2] at hi
      rw [h1]
      exact hPl.2 i s hi
  · obtain ⟨r, hr2⟩ := hscan w1 rfds wfds fds hP hr hw hcb
    rw [hr2]
    rfl
  · rw [proceed_of_waited c cb sel fuel m w w1 e1 e2 r hu hs]
    by_cases h1 : r.ret = -1
    · rw [if_pos h1]; rfl
    · rw [if_neg h1]
      by_cases h2 : r.ret > 0
      · rw [if_pos h2]
        obtain ⟨⟨wb, eb⟩, hr2⟩ := hscan w1 r.rfds r.wfds (List.range c.FD_SETSIZE) hP hr hw hcb
        rw [hr2]
        rfl
      · rw [if_neg h2]; rfl

/-- Witness of C20: the reconciliation of `exReconcileWorld`, whose disposed
socket `0` has descriptor `0` in neither interest set, leaves a world of
which `InterestTabled` holds. -/
theorem interest_tabled_invariant_witness :
    InterestTabled
      (worldOf (update_fdset exConfig idleCallbacks 2 exReconcileWorld) exReconcileWorld) :=
  (interest_tabled_invariant exConfig idleCallbacks).2.2.1 2 [0, 1] exReconcileWorld
    (worldOf (update_fdset exConfig idleCallbacks 2 exReconcileWorld) exReconcileWorld)
    (outputOf (update_fdset exConfig idleCallbacks 2 exReconcileWorld) [])
    exReconcileWorld_tabled (by decide) (by decide) (by rfl)

/-! ## A socket that wants to read only -/

theorem readNotified_append :
    ∀ (a b : List Event), readNotified (a ++ b) = readNotified a ++ readNotified b
  | [], _ => rfl
  | e :: a, b => by
    cases e <;> simp [readNotified, readNotified_append a b]

theorem writeNotified_append :
    ∀ (a b : List Event), writeNotified (a ++ b) = writeNotified a ++ writeNotified b
  | [], _ => rfl
  | e :: a, b => by
    cases e <;> simp [writeNotified, writeNotified_append a b]

theorem writeDrains_append (a b : List Event) :
    writeDrains (a ++ b) = writeDrains a ++ writeDrains b := by
  unfold writeDrains
  exact List.filter_append _ _

theorem readNotified_of_free :
    ∀ (es : List Event), (∀ e ∈ es, e.isFree = true) → readNotified es = []
  | [], _ => rfl
  | e :: es, h => by
    have he := h e (List.mem_cons_self _ _)
    have ih := readNotified_of_free es (fun x hx => h x (List.mem_cons_of_mem _ hx))
    cases e <;> first | exact Bool.noConfusion he | exact ih

theorem writeNotified_of_free :
    ∀ (es : List Event), (∀ e ∈ es, e.isFree = true) → writeNotified es = []
  | [], _ => rfl
  | e :: es, h => by
    have he := h e (List.mem_cons_self _ _)
    have ih := writeNotified_of_free es (fun x hx => h x (List.mem_cons_of_mem _ hx))
    cases e <;> first | exact Bool.noConfusion he | exact ih

/-- With an empty state-changed queue `update_fdset` only executes line 111. -/
theorem update_fdset_of_empty (c : Config) (cb : Callbacks) (fuel : Nat) (w : World)
    (h : w._statechanged.head = none) :
    update_fdset c cb fuel w =
      .ok ({ w with _statechanged := { w._statechanged with tail_ref := SlotRef.head } }, []) := by
  unfold update_fdset
  cases fuel <;> rw [update_fdset_loop, h]

/-- A step of the readiness scan for a descriptor in neither scratch set does
nothing. -/
theorem proceed_scan_fd_skip (c : Config) (cb : Callbacks) (rfds wfds : Finset Nat)
    (fd : Nat) (w : World) (hr : fd ∉ rfds) (hw : fd ∉ wfds) :
    proceed_scan_fd c cb rfds wfds fd w = .ok (w, []) := by
  rw [proceed_scan_fd_halves]
  unfold proceed_scan_read
  rw [if_neg hr]
  dsimp only
  unfold proceed_scan_write
  rw [if_neg hw]

theorem proceed_scan_skip (c : Config) (cb : Callbacks) (rfds wfds : Finset Nat) :
    ∀ (fds : List Nat) (w : World), (∀ fd ∈ fds, fd ∉ rfds ∧ fd ∉ wfds) →
      proceed_scan c cb rfds wfds fds w = .ok (w, [])
  | [], w, _ => by rw [proceed_scan]
  | fd :: fds, w, h => by
    have h0 := h fd (List.mem_cons_self _ _)
    rw [proceed_scan, proceed_scan_fd_skip c cb rfds wfds fd w h0.1 h0.2]
    dsimp only
    rw [proceed_scan_skip c cb rfds wfds fds w (fun x hx => h x (List.mem_cons_of_mem _ hx))]
    rfl

/-- When one descriptor of the scanned range is in the scratch sets, the
readiness scan is the step for this descriptor. -/
theorem proceed_scan_single (c : Config) (cb : Callbacks) (rfds wfds : Finset Nat)
    (fd0 : Nat) :
    ∀ (fds : List Nat) (w w1 : World) (e1 : List Event), fds.Nodup → fd0 ∈ fds →
      (∀ fd ∈ fds, fd ≠ fd0 → fd ∉ rfds ∧ fd ∉ wfds) →
      proceed_scan_fd c cb rfds wfds fd0 w = .ok (w1, e1) →
      proceed_scan c cb rfds wfds fds w = .ok (w1, e1)
  | [], w, w1, e1, _, hm, _, _ => absurd hm (List.not_mem_nil _)
  | fd :: fds, w, w1, e1, hnd, hm, hout, hstep => by
    obtain ⟨hnot, hnd1⟩ := List.nodup_cons.mp hnd
    by_cases hfd : fd = fd0
    · subst hfd
      rw [proceed_scan, hstep]
      dsimp only
      rw [proceed_scan_skip c cb rfds wfds fds w1
        (fun x hx => hout x (List.mem_cons_of_mem _ hx) (fun e => hnot (e ▸ hx)))]
      dsimp only
      rw [List.append_nil]
    · have h0 := hout fd (List.mem_cons_self _ _) hfd
      have hm1 : fd0 ∈ fds := (List.mem_cons.mp hm).resolve_left (fun e => hfd e.symm)
      rw [proceed_scan, proceed_scan_fd_skip c cb rfds wfds fd w h0.1 h0.2]
      dsimp only
      rw [proceed_scan_single c cb rfds wfds fd0 fds w w1 e1 hnd1 hm1
        (fun x hx => hout x (List.mem_cons_of_mem _ hx)) hstep]
      rfl

/-- What `run_socket` does on a socket that is not disposed, is READ_READY and
whose write-completion notification is not due. -/
theorem run_socket_read_only (c : Config) (cb : Callbacks) (s : Nat) (w : World)
    (hnd : (w.sock s)._flags &&& c.H2O_SOCKET_FLAG_IS_DISPOSED = 0)
    (hno : ¬ ((w.sock s)._cb_write = true ∧ (w.sock s)._wreq_cnt = 0))
    (hrr : (w.sock s)._flags &&& c.H2O_SOCKET_FLAG_IS_READ_READY ≠ 0) :
    run_socket c cb s w =
      (cb.h2o_socket__read_on_ready s
        (w.setFlags s (clearFlag (w.sock s)._flags c.H2O_SOCKET_FLAG_IS_READ_READY)),
       [Event.read_on_ready s
        ((w.setFlags s (clearFlag (w.sock s)._flags c.H2O_SOCKET_FLAG_IS_READ_READY)).sock s)]) := by
  unfold run_socket
  rw [if_neg (by simp [hnd])]
  simp only [hno, if_false]
  rw [if_pos hrr]
  rfl

/-- A call of `h2o_socket_loop_run` whose wait reports no ready descriptor,
on an empty pending queue: it returns `0` with the world the reconciliation
left, and invokes no callback. -/
theorem h2o_socket_loop_run_idle (c : Config) (cb : Callbacks) (w0 wu : World)
    (eu : List Event) (r : SelectResult) (rest : List SelectResult) (fuelU fuelL m : Nat)
    (hu : update_fdset c cb fuelU w0 = .ok (wu, eu))
    (hhead : wu._pending.head = none) (hret : r.ret = 0) :
    ∃ e, h2o_socket_loop_run c cb (proceed c cb (r :: rest) fuelU m) fuelL w0
        = .ok (0, wu, e) ∧
      readNotified e = [] ∧ writeNotified e = [] ∧ writeDrains e = [] := by
  have hni : ¬ (r.ret = -1 ∧ r.errno = c.EINTR) := fun h => by
    have h1 := h.1
    rw [hret] at h1
    exact absurd h1 (by decide)
  have hsel : proceed_select c wu (waitMillis m) (r :: rest) =
      .ok (r, [Event.select wu.readfds wu.writefds (waitMillis m / 1000)
        (waitMillis m % 1000 * 1000 % 2 ^ 64)]) := by
    rw [proceed_select, if_neg hni]
  have hfree := (update_fdset_masked c cb fuelU w0 wu eu hu).2.2.2.2
  have hp : proceed c cb (r :: rest) fuelU m w0 =
      .ok (0, wu, eu ++ [Event.select wu.readfds wu.writefds (waitMillis m / 1000)
        (waitMillis m % 1000 * 1000 % 2 ^ 64)]) := by
    rw [proceed_of_waited c cb _ fuelU m w0 wu eu _ r hu hsel,
      if_neg (by rw [hret]; decide), if_neg (by rw [hret]; decide)]
  have hloop : h2o_socket_loop_run_loop c cb fuelL wu = .ok (wu, []) := by
    cases fuelL <;> rw [h2o_socket_loop_run_loop, hhead]
  have hrun : h2o_socket_loop_run c cb (proceed c cb (r :: rest) fuelU m) fuelL w0 =
      .ok (0, wu, (eu ++ [Event.select wu.readfds wu.writefds (waitMillis m / 1000)
        (waitMillis m % 1000 * 1000 % 2 ^ 64)]) ++ []) := by
    rw [h2o_socket_loop_run_of_proceed c cb _ fuelL w0 wu 0 _ hp,
      if_neg (by decide), hloop]
  refine ⟨_, hrun, ?_, ?_, ?_⟩
  · rw [readNotified_append, readNotified_append, readNotified_of_free eu hfree]
    rfl
  · rw [writeNotified_append, writeNotified_append, writeNotified_of_free eu hfree]
    rfl
  · rw [writeDrains_append, writeDrains_append, writeDrains_of_free hfree]
    rfl

/-- A call of `h2o_socket_loop_run` whose wait reports exactly the descriptor
`fd` readable, on an empty pending queue, when slot `fd` holds the socket `a`,
not disposed, unlinked and without a write callback, and the read-ready
notification of `a` does not relink sockets: it returns `0`, invokes the
read-ready notification once, for `a`, and no other callback. -/
theorem h2o_socket_loop_run_readable (c : Config) (cb : Callbacks) (a fd : Nat)
    (w0 wu : World) (eu : List Event) (r : SelectResult) (rest : List SelectResult)
    (fuelU fuelL m : Nat)
    (hD : c.H2O_SOCKET_FLAG_IS_DISPOSED ≠ 0) (hRR : c.H2O_SOCKET_FLAG_IS_READ_READY ≠ 0)
    (hRD : c.H2O_SOCKET_FLAG_IS_READ_READY &&& c.H2O_SOCKET_FLAG_IS_DISPOSED = 0)
    (hu : update_fdset c cb fuelU w0 = .ok (wu, eu))
    (hpend : PendingQueue wu []) (hnp : nextPending wu a = some a)
    (hslot : wu.socks fd = some a) (hfd : fd < c.FD_SETSIZE)
    (hnd : (wu.sock a)._flags &&& c.H2O_SOCKET_FLAG_IS_DISPOSED = 0)
    (hcbw : (wu.sock a)._cb_write = false)
    (hk : KeepsPending (cb.h2o_socket__read_on_ready a))
    (hL : 1 ≤ fuelL) (hret : 0 < r.ret) (hr : r.rfds = {fd}) (hw : r.wfds = ∅) :
    ∃ w2 e2, h2o_socket_loop_run c cb (proceed c cb (r :: rest) fuelU m) fuelL w0
        = .ok (0, w2, e2) ∧
      readNotified e2 = [a] ∧ writeNotified e2 = [] ∧ writeDrains e2 = [] := by
  have hni : ¬ (r.ret = -1 ∧ r.errno = c.EINTR) := fun h => by
    have h1 := h.1
    omega
  have hsel : proceed_select c wu (waitMillis m) (r :: rest) =
      .ok (r, [Event.select wu.readfds wu.writefds (waitMillis m / 1000)
        (waitMillis m % 1000 * 1000 % 2 ^ 64)]) := by
    rw [proceed_select, if_neg hni]
  have hfree := (update_fdset_masked c cb fuelU w0 wu eu hu).2.2.2.2
  have hne : (wu.sock a)._flags ≠ c.H2O_SOCKET_FLAG_IS_DISPOSED := fun e => by
    rw [e, Nat.and_self] at hnd
    exact hD hnd
  have hstep : proceed_scan_fd c cb r.rfds r.wfds fd wu =
      .ok (h2o_socket__link_to_pending a
        (wu.setFlags a ((wu.sock a)._flags ||| c.H2O_SOCKET_FLAG_IS_READ_READY)), []) := by
    rw [hr, hw, proceed_scan_fd_halves, proceed_scan_read_of_slot c {fd} fd a wu hslot,
      if_pos ⟨Finset.mem_singleton_self fd, hne⟩]
    dsimp only
    unfold proceed_scan_write
    rw [if_neg (Finset.not_mem_empty fd)]
  have hscan : proceed_scan c cb r.rfds r.wfds (List.range c.FD_SETSIZE) wu =
      .ok (h2o_socket__link_to_pending a
        (wu.setFlags a ((wu.sock a)._flags ||| c.H2O_SOCKET_FLAG_IS_READ_READY)), []) :=
    proceed_scan_single c cb r.rfds r.wfds fd (List.range c.FD_SETSIZE) wu _ []
      (List.nodup_range _) (List.mem_range.mpr hfd)
      (fun x _ hx => by
        rw [hr, hw]
        exact ⟨fun h => hx (Finset.mem_singleton.mp h), Finset.not_mem_empty x⟩)
      hstep
  generalize hws : h2o_socket__link_to_pending a
    (wu.setFlags a ((wu.sock a)._flags ||| c.H2O_SOCKET_FLAG_IS_READ_READY)) = ws at hscan
  have hp : proceed c cb (r :: rest) fuelU m w0 =
      .ok (0, ws, eu ++ [Event.select wu.readfds wu.writefds (waitMillis m / 1000)
        (waitMillis m % 1000 * 1000 % 2 ^ 64)] ++ []) := by
    rw [proceed_of_waited c cb _ fuelU m w0 wu eu _ r hu hsel,
      if_neg (by omega), if_pos (show r.ret > 0 from hret), hscan]
  have hq1 : PendingQueue ws [a] := by
    have h1 := (hpend.setFlags a
      ((wu.sock a)._flags ||| c.H2O_SOCKET_FLAG_IS_READ_READY)).link a
    rw [nextPending_setFlags, if_pos hnp, hws] at h1
    exact h1
  obtain ⟨hq2, _⟩ := hq1.detach
  have hhead : ws._pending.head = some a := hq1.1.1
  have hflws : (ws.sock a)._flags
      = (wu.sock a)._flags ||| c.H2O_SOCKET_FLAG_IS_READ_READY := by
    rw [← hws, ((link_to_pending_frame a _).2.2.2.2 a).1, setFlags_sock_self]
  have hcbws : (ws.sock a)._cb_write = false := by
    rw [← hws, ((link_to_pending_frame a _).2.2.2.2 a).2.2.1, setFlags_sock_self]
    exact hcbw
  have hfl : ((detach_pending a ws).sock a)._flags
      = (wu.sock a)._flags ||| c.H2O_SOCKET_FLAG_IS_READ_READY := by
    rw [detach_pending_flags, hflws]
  have hcb2 : ((detach_pending a ws).sock a)._cb_write = false := by
    unfold detach_pending
    rw [((setNextPending_frame _ a (some a)).2.2.2.2 a).2.2.1]
    exact hcbws
  have hrun := run_socket_read_only c cb a (detach_pending a ws)
    (by rw [hfl]; exact or_and_eq_zero hnd hRD)
    (fun h => by rw [hcb2] at h; exact Bool.noConfusion h.1)
    (by rw [hfl, or_and_self_mask]; exact hRR)
  generalize hwd : (detach_pending a ws).setFlags a
    (clearFlag ((detach_pending a ws).sock a)._flags c.H2O_SOCKET_FLAG_IS_READ_READY)
    = wd at hrun
  have hwdp : wd._pending = (detach_pending a ws)._pending := by rw [← hwd]; rfl
  have hhead2 : (cb.h2o_socket__read_on_ready a wd)._pending.head = none := by
    rw [(hk wd).1, hwdp]
    exact hq2.1
  have hin : ∀ k, h2o_socket_loop_run_loop c cb k (cb.h2o_socket__read_on_ready a wd)
      = .ok (cb.h2o_socket__read_on_ready a wd, []) := by
    intro k
    cases k <;> rw [h2o_socket_loop_run_loop, hhead2]
  obtain ⟨k, hk1⟩ : ∃ k, fuelL = k + 1 := ⟨fuelL - 1, by omega⟩
  subst hk1
  have hloop : h2o_socket_loop_run_loop c cb (k + 1) ws =
      .ok (cb.h2o_socket__read_on_ready a wd,
        Event.detach a :: ([Event.read_on_ready a (wd.sock a)] ++ [])) := by
    rw [h2o_socket_loop_run_loop, hhead]
    dsimp only
    rw [hrun]
    dsimp only
    rw [hin k]
  have hres : h2o_socket_loop_run c cb (proceed c cb (r :: rest) fuelU m) (k + 1) w0 =
      .ok (0, cb.h2o_socket__read_on_ready a wd,
        (eu ++ [Event.select wu.readfds wu.writefds (waitMillis m / 1000)
          (waitMillis m % 1000 * 1000 % 2 ^ 64)] ++ []) ++
        (Event.detach a :: ([Event.read_on_ready a (wd.sock a)] ++ []))) := by
    rw [h2o_socket_loop_run_of_proceed c cb _ (k + 1) w0 ws 0 _ hp,
      if_neg (by decide), hloop]
  refine ⟨_, _, hres, ?_, ?_, ?_⟩
  · rw [readNotified_append, readNotified_append, readNotified_append,
      readNotified_of_free eu hfree]
    rfl
  · rw [writeNotified_append, writeNotified_append, writeNotified_append,
      writeNotified_of_free eu hfree]
    rfl
  · rw [writeDrains_append, writeDrains_append, writeDrains_append,
      writeDrains_of_free hfree]
    rfl

/-- C17: the pending queue is empty and the state-changed queue holds exactly
the socket `a`, newly created: not disposed, not READ_READY, linked into no
pending queue, of descriptor below FD_SETSIZE with an empty table slot,
without a write callback, wanting to read and not to write. A call of
`h2o_socket_loop_run` whose wait reports no ready descriptor returns `0`,
invokes no read-ready notification, no write-completion notification and no
write-draining operation, leaves READ_READY clear on `a`, and leaves the
descriptor of `a` in the read-interest set only. A later call whose wait
reports exactly the descriptor of `a` readable returns `0` and invokes the
read-ready notification once, for `a`, and no other callback. The flag masks
are assumed non-zero and pairwise without common bit where the code relies
on it, and the read-ready notification of `a` is assumed not to relink
sockets. -/
theorem h2o_socket_loop_run_read_only_scenario (c : Config) (cb : Callbacks) (a : Nat)
    (w : World) (r1 r2 : SelectResult) (rest1 rest2 : List SelectResult)
    (fuelU1 fuelL1 fuelU2 fuelL2 m1 m2 : Nat)
    (hD : c.H2O_SOCKET_FLAG_IS_DISPOSED ≠ 0) (hRR : c.H2O_SOCKET_FLAG_IS_READ_READY ≠ 0)
    (hRD : c.H2O_SOCKET_FLAG_IS_READ_READY &&& c.H2O_SOCKET_FLAG_IS_DISPOSED = 0)
    (hPRD : c.H2O_SOCKET_FLAG_IS_POLLED_FOR_READ &&& c.H2O_SOCKET_FLAG_IS_DISPOSED = 0)
    (hPWD : c.H2O_SOCKET_FLAG_IS_POLLED_FOR_WRITE &&& c.H2O_SOCKET_FLAG_IS_DISPOSED = 0)
    (hPRR : c.H2O_SOCKET_FLAG_IS_POLLED_FOR_READ &&& c.H2O_SOCKET_FLAG_IS_READ_READY = 0)
    (hPWR : c.H2O_SOCKET_FLAG_IS_POLLED_FOR_WRITE &&& c.H2O_SOCKET_FLAG_IS_READ_READY = 0)
    (hpend : PendingQueue w []) (hq : StatechangedQueue w [a])
    (hfd : (w.sock a).fd < c.FD_SETSIZE) (hslot : w.socks (w.sock a).fd = none)
    (hnd : (w.sock a)._flags &&& c.H2O_SOCKET_FLAG_IS_DISPOSED = 0)
    (hnr : (w.sock a)._flags &&& c.H2O_SOCKET_FLAG_IS_READ_READY = 0)
    (hnp : nextPending w a = some a) (hcbw : (w.sock a)._cb_write = false)
    (hread : cb.h2o_socket_is_reading (detachedSock w a) = true)
    (hwrite : cb.h2o_socket_is_writing (afterReadSock c cb (detachedSock w a)) = false)
    (hk : KeepsPending (cb.h2o_socket__read_on_ready a))
    (hU : 1 ≤ fuelU1) (hL : 1 ≤ fuelL2)
    (h1 : r1.ret = 0) (h2 : 0 < r2.ret) (h2r : r2.rfds = {(w.sock a).fd})
    (h2w : r2.wfds = ∅) :
    ∃ w1 e1,
      h2o_socket_loop_run c cb (proceed c cb (r1 :: rest1) fuelU1 m1) fuelL1 w
        = .ok (0, w1, e1) ∧
      readNotified e1 = [] ∧ writeNotified e1 = [] ∧ writeDrains e1 = [] ∧
      (w1.sock a)._flags &&& c.H2O_SOCKET_FLAG_IS_READ_READY = 0 ∧
      (w1.sock a).fd = (w.sock a).fd ∧
      (w.sock a).fd ∈ w1.readfds ∧ (w.sock a).fd ∉ w1.writefds ∧
      ∃ w2 e2,
        h2o_socket_loop_run c cb (proceed c cb (r2 :: rest2) fuelU2 m2) fuelL2 w1
          = .ok (0, w2, e2) ∧
        readNotified e2 = [a] ∧ writeNotified e2 = [] ∧ writeDrains e2 = [] := by
  have hndq : [a].Nodup := List.nodup_singleton a
  obtain ⟨⟨wl, el⟩, hst⟩ := update_fdset_steps_returns c cb [a] w hndq
    (fun s hs => by rw [List.mem_singleton.mp hs]; exact hfd)
    (fun s hs t ht _ => by rw [List.mem_singleton.mp hs, List.mem_singleton.mp ht])
    (fun s hs => by
      rw [List.mem_singleton.mp hs]
      exact ⟨fun hd => absurd hnd hd, fun _ => Or.inl hslot⟩)
  have hloop := update_fdset_loop_eq_steps c cb fuelU1 [a] w hq.1 hU
  have hu0 : ∃ wu, update_fdset c cb fuelU1 w = .ok (wu, el) :=
    ⟨_, by unfold update_fdset; rw [hloop, hst]⟩
  obtain ⟨wu, hu⟩ := hu0
  obtain ⟨wl2, hst2, s1, s2, s3, s4, _, s6⟩ :=
    update_fdset_ok_steps c cb fuelU1 [a] w wu el hq.1 hu
  obtain ⟨p1, p2, p3, p4⟩ := update_fdset_steps_reconciled c cb [a] w wl2 el hndq hst2 a
    (List.mem_singleton_self a) hnd
  obtain ⟨k1, k2, k3, k4, _⟩ := update_fdset_masked c cb fuelU1 w wu el hu
  have hwu_fd : (wu.sock a).fd = (w.sock a).fd := by rw [s1, p1]; rfl
  have hwu_slot : wu.socks (w.sock a).fd = some a := by rw [s2]; exact p4
  have hwu_nd : (wu.sock a)._flags &&& c.H2O_SOCKET_FLAG_IS_DISPOSED = 0 := by
    rw [k4 _ hPRD hPWD a]; exact hnd
  have hwu_rr : (wu.sock a)._flags &&& c.H2O_SOCKET_FLAG_IS_READ_READY = 0 := by
    rw [k4 _ hPRR hPWR a]; exact hnr
  have hwu_cbw : (wu.sock a)._cb_write = false := by rw [(k3 a).1]; exact hcbw
  have hwu_pend : PendingQueue wu [] := by
    constructor
    · show wu._pending.head = none
      rw [k1]; exact hpend.1
    · rw [k1]; exact hpend.2
  have hwu_np : nextPending wu a = some a := by rw [k2]; exact hnp
  have hwu_sc : wu._statechanged.head = none := by rw [s6]
  have hmr : (w.sock a).fd ∈ wu.readfds := by rw [s3]; exact p2.mpr hread
  have hmw : (w.sock a).fd ∉ wu.writefds := by
    rw [s4]
    intro h
    have h3 := p3.mp h
    rw [hwrite] at h3
    exact Bool.noConfusion h3
  obtain ⟨e1, hrun1, hr1, hw1, hd1⟩ :=
    h2o_socket_loop_run_idle c cb w wu el r1 rest1 fuelU1 fuelL1 m1 hu hwu_pend.1 h1
  have hu2 := update_fdset_of_empty c cb fuelU2 wu hwu_sc
  obtain ⟨w2, e2, hrun2, hr2, hw2, hd2⟩ :=
    h2o_socket_loop_run_readable c cb a (w.sock a).fd wu _ [] r2 rest2 fuelU2 fuelL2 m2
      hD hRR hRD hu2 hwu_pend hwu_np hwu_slot hfd hwu_nd hwu_cbw hk hL h2 h2r h2w
  exact ⟨wu, e1, hrun1, hr1, hw1, hd1, hwu_rr, hwu_fd, hmr, hmw, w2, e2, hrun2, hr2, hw2, hd2⟩

/-- Witness of C17: socket `0` of `exNewWorld`, of descriptor `3`; the first
wait reports nothing, the second reports descriptor `3` readable. -/
theorem h2o_socket_loop_run_read_only_scenario_witness :
    ∃ w1 e1,
      h2o_socket_loop_run exConfig idleCallbacks
          (proceed exConfig idleCallbacks
            [{ ret := 0, errno := 0, rfds := ∅, wfds := ∅ }] 1 1000) 0 exNewWorld
        = .ok (0, w1, e1) ∧
      readNotified e1 = [] ∧ writeNotified e1 = [] ∧ writeDrains e1 = [] ∧
      (w1.sock 0)._flags &&& exConfig.H2O_SOCKET_FLAG_IS_READ_READY = 0 ∧
      (w1.sock 0).fd = (exNewWorld.sock 0).fd ∧
      (exNewWorld.sock 0).fd ∈ w1.readfds ∧ (exNewWorld.sock 0).fd ∉ w1.writefds ∧
      ∃ w2 e2,
        h2o_socket_loop_run exConfig idleCallbacks
            (proceed exConfig idleCallbacks
              [{ ret := 1, errno := 0, rfds := {3}, wfds := ∅ }] 0 1000) 1 w1
          = .ok (0, w2, e2) ∧
        readNotified e2 = [0] ∧ writeNotified e2 = [] ∧ writeDrains e2 = [] :=
  h2o_socket_loop_run_read_only_scenario exConfig idleCallbacks 0 exNewWorld
    { ret := 0, errno := 0, rfds := ∅, wfds := ∅ }
    { ret := 1, errno := 0, rfds := {3}, wfds := ∅ } [] [] 1 0 0 1 1000 1000
    (by decide) (by decide) (by decide) (by decide) (by decide) (by decide) (by decide)
    (by decide) (by decide) (by decide) (by rfl) (by decide) (by decide) (by rfl) (by rfl)
    (by rfl) (by rfl) (fun _ => ⟨rfl, rfl⟩) (by decide) (by decide) (by rfl) (by decide)
    (by rfl) (by rfl)

end H2O
